import Mathlib

/-!
# fabric-peer-test-common: `bddtests/common_steps.go`

A shallow embedding of the invocation dispatcher of `common_steps.go`
(`QueryCCWithOpts`, `invokeCCWithArgs`, `addRetryCode`), of the target selection
(`OrgPeers`, `Peers`, `Shuffle`), of the warm-up loop, of the scenario steps
that call them and of the channel creation steps
(`createChannelAndJoinPeersFromOrg`, `createChannelAndJoinPeers`,
`joinPeersToChannel`), with a model of the template resolver `ResolveAll` taken
from the specification, followed by theorems about them.

Modelling conventions
* A Go `string` and a Go `[]byte` are both byte sequences; both are embedded as
  `String`, so `string(resp.Payload)` and `[]byte(s)` are the identity.
* A Go `error` is embedded as its message (`err.Error()`): every place of the
  file that handles an error either returns it or formats it with `%s`.
* A Go function returning `(T, error)` returns `Except Err T`; a run-time panic
  (index out of range) is the separate constructor `Err.runtimePanic`.
* Package-level variables (`queryValue`, `vars`, the SDK table
  `retry.ChannelClientRetryableCodes`) and the effects on the outside world (the
  calls made through the channel client, `time.Sleep`) are fields of `World`,
  passed explicitly; the channel creation steps have their own state,
  `JoinWorld`, with the map `createdChannels` and the calls made through the
  resource management client.
* Logging is not modelled.
-/

namespace CommonSteps

/-! ## Data model -/

/-- Go `status.Group` (an `int32`). -/
abbrev Group := Int

/-- Go `status.Code` (an `int32`). -/
abbrev Code := Int

/-- Go `map[status.Group][]status.Code`: a finite map, `none` for an absent key. -/
abbrev RetryCodeTable := Group → Option (List Code)

/-- Failure of a Go function: an `error` value (its message) or a run-time panic. -/
inductive Err where
  | error (msg : String)
  | runtimePanic (msg : String)
  deriving DecidableEq, Repr

deriving instance DecidableEq for Except

/-- SDK `fabApi.PeerConfig`: the URL, and the entry
`GRPCOptions["ssl-target-name-override"]` when it is present and a string. -/
structure FabPeerConfig where
  URL : String
  sslTargetNameOverride : Option String
  deriving DecidableEq, Repr

/-- Go `PeerConfig` of the test context: one addressable node. -/
structure PeerConfig where
  Config : FabPeerConfig
  OrgID : String
  MspID : String
  PeerID : String
  deriving DecidableEq, Repr

/-- SDK `fabApi.Peer`, as created by `CreatePeerFromConfig`. -/
structure Peer where
  url : String
  deriving DecidableEq, Repr

/-- SDK `channel.Client`, identified by what it was created for. -/
structure ChClient where
  orgID : String
  userType : String
  channelID : String
  deriving DecidableEq, Repr

/-- SDK `channel.Request`. -/
structure Request where
  ChaincodeID : String
  Fcn : String
  Args : List String
  TransientMap : List (String × String)
  deriving DecidableEq, Repr

/-- SDK `channel.Response`: only the payload is read by this file. -/
structure Response where
  Payload : String
  deriving DecidableEq, Repr

/-- SDK `retry.Opts`: the attempt budget and backoff settings are kept as they
are in `retry.DefaultOpts`; only `RetryableCodes` is written by this file. -/
structure RetryOpts where
  Attempts : Nat
  InitialBackoff : Int
  MaxBackoff : Int
  RetryableCodes : RetryCodeTable

/-- The handler chain built for a system chaincode query. -/
inductive Handler where
  | ProposalProcessorHandler (next : Handler)
  | CustomEndorsementHandler (orgID userType : String) (next : Handler)
  | EndorsementValidationHandler
  deriving DecidableEq, Repr

/-- Which method of the channel client a call goes through. -/
inductive CallKind where
  | Query
  | Execute
  | InvokeHandler (chain : Handler)
  deriving DecidableEq, Repr

/-- One call made through the channel client: the network-call boundary. -/
structure Call where
  kind : CallKind
  client : ChClient
  request : Request
  targets : List Peer
  timeout : Option Int
  retry : RetryOpts

/-- An observable effect: a call with the outcome the boundary gave, or a sleep. -/
inductive Event where
  | call (c : Call) (out : Except String Response)
  | sleep (d : Int)

/-- The mutable state around the steps. -/
structure World where
  trace : List Event
  ChannelClientRetryableCodes : RetryCodeTable
  queryValue : String
  vars : String → Option String

/-- What `common_steps.go` takes from the rest of the repository and from the
SDK: the `BDDContext` accessors, the SDK constants, the variable resolver
`ResolveAll`, the permutation source of `rand.Perm`, and the behaviour of the
network behind the channel client (`respond history call` is the outcome of
`call` when `history` is what happened before it). -/
structure Env where
  orgs : List String
  ADMIN : String
  USER : String
  CreatePeerFromConfig : String → String → FabPeerConfig → Except String Peer
  OrgChannelClient : String → String → String → Except String ChClient
  PeersByChannel : String → List PeerConfig
  PeerConfigForID : String → Option PeerConfig
  PeersConfig : String → Option (List FabPeerConfig)
  peersMspID : String → String
  ResolveAll : (String → Option String) → List String → Except String (List String)
  randPerm : Nat → List Nat
  ChaincodeStatus : Group
  DefaultOpts : RetryOpts
  respond : List Event → Call → Except String Response

/-! ## The boundary -/

/-- A call through the channel client: the boundary answers, the call and its
outcome are appended to the trace. -/
def chCall (env : Env) (w : World) (c : Call) : Except String Response × World :=
  let out := env.respond w.trace c
  (out, { w with trace := w.trace ++ [Event.call c out] })

/-- Go `time.Sleep(d)`. -/
def timeSleep (w : World) (d : Int) : World :=
  { w with trace := w.trace ++ [Event.sleep d] }

/-! ## Retry codes -/

/-- Go `ccCodesForRetry`. -/
def ccCodesForRetry : List Code := [404]

/-- Go `addRetryCode`: the map after the call (the Go function updates it in place). -/
def addRetryCode (codes : RetryCodeTable) (group : Group) (code : Code) : RetryCodeTable :=
  let g : List Code :=
    match codes group with
    | some g => g
    | none => []
  fun k => if k = group then some (g ++ [code]) else codes k

/-- The loop `for _, code := range ccCodesForRetry { addRetryCode(...) }`. -/
def addRetryCodes (codes : RetryCodeTable) (group : Group) : List Code → RetryCodeTable
  | [] => codes
  | code :: rest => addRetryCodes (addRetryCode codes group code) group rest

/-- The lines
`retryOpts := retry.DefaultOpts`,
`retryOpts.RetryableCodes = retry.ChannelClientRetryableCodes` and the loop over
`ccCodesForRetry`. `retryOpts` is a copy of the struct, but its map field is the
package-level map itself, so the loop updates `retry.ChannelClientRetryableCodes`. -/
def composeRetryOpts (env : Env) (w : World) : RetryOpts × World :=
  let table := addRetryCodes w.ChannelClientRetryableCodes env.ChaincodeStatus ccCodesForRetry
  ({ env.DefaultOpts with RetryableCodes := table },
   { w with ChannelClientRetryableCodes := table })

/-- Modelled from the spec: `GetByteArgs` is not in the source file; the request
carries its arguments as a sequence of byte strings, one per argument. -/
def GetByteArgs (args : List String) : List String := args

/-! ## The dispatcher -/

/-- The first loop of `QueryCCWithOpts`: one SDK peer per target, created with
the admin context of the target's own organisation; `orgID` ends as the
organisation of the last target. -/
def queryPeers (env : Env) :
    List PeerConfig → List Peer → String → Except Err (List Peer × String)
  | [], peers, orgID => .ok (peers, orgID)
  | target :: rest, peers, _ =>
    match env.CreatePeerFromConfig target.OrgID env.ADMIN target.Config with
    | .error e => .error (Err.error ("NewPeer failed: " ++ e))
    | .ok targetPeer => queryPeers env rest (peers ++ [targetPeer]) target.OrgID

/-- The loop of the sequential branch of `QueryCCWithOpts`, from the state
`(errs, queryResult)` on: one query per peer, the error appended to `errs` or the
payload stored in `queryResult`, then the sleep when `interval > 0`. -/
def queryEach (env : Env) (chClient : ChClient) (req : Request) (timeout : Int)
    (retryOpts : RetryOpts) (interval : Int) :
    List Peer → List String → String → World → List String × String × World
  | [], errs, queryResult, w => (errs, queryResult, w)
  | peer :: rest, errs, queryResult, w =>
    let r := chCall env w
      { kind := CallKind.Query, client := chClient, request := req, targets := [peer],
        timeout := some timeout, retry := retryOpts }
    let errs1 :=
      match r.1 with
      | .error e => errs ++ [e]
      | .ok _ => errs
    let queryResult1 :=
      match r.1 with
      | .error _ => queryResult
      | .ok resp => resp.Payload
    let w2 := if interval > 0 then timeSleep r.2 interval else r.2
    queryEach env chClient req timeout retryOpts interval rest errs1 queryResult1 w2

/-- The lines of `QueryCCWithOpts` before the retry options: the peers of the
targets, the organisation (`orgs[0]` of the context when the loop left `orgID`
empty) and the channel client of that organisation's admin. -/
def querySetup (env : Env) (channelID : String) (targets : List PeerConfig) :
    Except Err (List Peer × String × ChClient) :=
  match queryPeers env targets [] "" with
  | .error e => .error e
  | .ok (peers, orgID0) =>
    let orgID? : Option String := if orgID0 = "" then env.orgs.head? else some orgID0
    match orgID? with
    | none => .error (Err.runtimePanic "index out of range [0] with length 0")
    | some orgID =>
      match env.OrgChannelClient orgID env.ADMIN channelID with
      | .error e => .error (Err.error ("Failed to create new channel client: " ++ e))
      | .ok chClient => .ok (peers, orgID, chClient)

/-- Go `QueryCCWithOpts`. -/
def QueryCCWithOpts (env : Env) (systemCC : Bool) (ccID channelID : String)
    (args : List String) (timeout : Int) (concurrent : Bool) (interval : Int)
    (transientData : List (String × String)) (targets : List PeerConfig) (w : World) :
    Except Err String × World :=
  match querySetup env channelID targets with
  | .error e => (.error e, w)
  | .ok (peers, orgID, chClient) =>
    let ro := composeRetryOpts env w
    let retryOpts := ro.1
    let w1 := ro.2
    if systemCC then
      let systemHandlerChain :=
        Handler.ProposalProcessorHandler
          (Handler.CustomEndorsementHandler orgID env.USER
            Handler.EndorsementValidationHandler)
      match args with
      | [] => (.error (Err.runtimePanic "index out of range [0] with length 0"), w1)
      | fcn :: rest =>
        let r := chCall env w1
          { kind := CallKind.InvokeHandler systemHandlerChain, client := chClient,
            request := { ChaincodeID := ccID, Fcn := fcn, Args := GetByteArgs rest,
                         TransientMap := transientData },
            targets := peers, timeout := some timeout, retry := retryOpts }
        match r.1 with
        | .error e => (.error (Err.error ("QueryChaincode return error: " ++ e)), r.2)
        | .ok resp => (.ok resp.Payload, r.2)
    else if concurrent then
      match args with
      | [] => (.error (Err.runtimePanic "index out of range [0] with length 0"), w1)
      | fcn :: rest =>
        let r := chCall env w1
          { kind := CallKind.Query, client := chClient,
            request := { ChaincodeID := ccID, Fcn := fcn, Args := GetByteArgs rest,
                         TransientMap := transientData },
            targets := peers, timeout := some timeout, retry := retryOpts }
        match r.1 with
        | .error e => (.error (Err.error ("QueryChaincode return error: " ++ e)), r.2)
        | .ok resp => (.ok resp.Payload, r.2)
    else
      match peers, args with
      | [], _ => (.ok "", w1)
      | _ :: _, [] => (.error (Err.runtimePanic "index out of range [0] with length 0"), w1)
      | peer :: more, fcn :: rest =>
        let r := queryEach env chClient
          { ChaincodeID := ccID, Fcn := fcn, Args := GetByteArgs rest,
            TransientMap := transientData }
          timeout retryOpts interval (peer :: more) [] "" w1
        match r.1 with
        | e :: _ => (.error (Err.error ("QueryChaincode return error: " ++ e)), r.2.2)
        | [] => (.ok r.2.1, r.2.2)

/-- Go `QueryCCWithArgs`. -/
def QueryCCWithArgs (env : Env) (systemCC : Bool) (ccID channelID : String)
    (args : List String) (transientData : List (String × String))
    (targets : List PeerConfig) (w : World) : Except Err String × World :=
  QueryCCWithOpts env systemCC ccID channelID args 0 true 0 transientData targets w

/-- The first loop of `invokeCCWithArgs`: one SDK peer per target, every one
created with the admin context of the organisation of `targets[0]`. -/
def invokePeers (env : Env) (org0 : String) :
    List PeerConfig → List Peer → Except Err (List Peer)
  | [], peers => .ok peers
  | target :: rest, peers =>
    match env.CreatePeerFromConfig org0 env.ADMIN target.Config with
    | .error e => .error (Err.error ("NewPeer failed: " ++ e))
    | .ok targetPeer => invokePeers env org0 rest (peers ++ [targetPeer])

/-- The lines of `invokeCCWithArgs` before the retry options: the peers of the
targets and the channel client of `orgs[0]` for the given user type. -/
def invokeSetup (env : Env) (channelID : String) (targets : List PeerConfig)
    (userType : String) : Except Err (List Peer × ChClient) :=
  let org0 : String :=
    match targets with
    | [] => ""
    | t :: _ => t.OrgID
  match invokePeers env org0 targets [] with
  | .error e => .error e
  | .ok peers =>
    match env.orgs with
    | [] => .error (Err.runtimePanic "index out of range [0] with length 0")
    | org :: _ =>
      match env.OrgChannelClient org userType channelID with
      | .error e => .error (Err.error ("Failed to create new channel client: " ++ e))
      | .ok chClient => .ok (peers, chClient)

/-- Go `invokeCCWithArgs`. The request carries no transient map: the parameter
`transientData` is not used by the Go function. -/
def invokeCCWithArgs (env : Env) (ccID channelID : String) (targets : List PeerConfig)
    (args : List String) (_transientData : List (String × String)) (userType : String)
    (w : World) : Except Err Response × World :=
  match invokeSetup env channelID targets userType with
  | .error e => (.error e, w)
  | .ok (peers, chClient) =>
    let ro := composeRetryOpts env w
    let retryOpts := ro.1
    let w1 := ro.2
    match args with
    | [] => (.error (Err.runtimePanic "index out of range [0] with length 0"), w1)
    | fcn :: rest =>
      let r := chCall env w1
        { kind := CallKind.Execute, client := chClient,
          request := { ChaincodeID := ccID, Fcn := fcn, Args := GetByteArgs rest,
                       TransientMap := [] },
          targets := peers, timeout := none, retry := retryOpts }
      match r.1 with
      | .error e => (.error (Err.error ("InvokeChaincode return error: " ++ e)), r.2)
      | .ok resp => (.ok resp, r.2)

/-- Go `InvokeCCWithArgsAsAdmin`. -/
def InvokeCCWithArgsAsAdmin (env : Env) (ccID channelID : String)
    (targets : List PeerConfig) (args : List String)
    (transientData : List (String × String)) (w : World) : Except Err Response × World :=
  invokeCCWithArgs env ccID channelID targets args transientData env.ADMIN w

/-- Go `InvokeCCWithArgs`. -/
def InvokeCCWithArgs (env : Env) (ccID channelID : String) (targets : List PeerConfig)
    (args : List String) (transientData : List (String × String)) (w : World) :
    Except Err Response × World :=
  invokeCCWithArgs env ccID channelID targets args transientData env.USER w

/-! ## Target selection -/

/-- Splitting a character sequence at every occurrence of `sep`. -/
def splitChars (sep : Char) : List Char → List (List Char)
  | [] => [[]]
  | c :: cs =>
    if c = sep then [] :: splitChars sep cs
    else
      match splitChars sep cs with
      | [] => [[c]]
      | t :: ts => (c :: t) :: ts

/-- Go `strings.Split(s, sep)` for a one-character separator (the file only
splits on `","`). -/
def Split (s : String) (sep : Char) : List String :=
  (splitChars sep s.data).map String.mk

/-- Go `OrgPeers`: `orgMap` is `nil` for an empty filter, else the set of the
listed organisation IDs; the loop appends the channel's peers that pass. -/
def OrgPeers (env : Env) (orgIDs channelID : String) : List PeerConfig :=
  let orgMap : Option (List String) :=
    if orgIDs ≠ "" then some (Split orgIDs ',') else none
  (env.PeersByChannel channelID).foldl
    (fun peers pconfig =>
      match orgMap with
      | none => peers ++ [pconfig]
      | some m => if pconfig.OrgID ∈ m then peers ++ [pconfig] else peers)
    []

/-- The loop of Go `Peers` over the split IDs. -/
def peersLoop (env : Env) : List String → List PeerConfig → Except Err (List PeerConfig)
  | [], peers => .ok peers
  | id :: rest, peers =>
    match env.PeerConfigForID id with
    | none => .error (Err.error ("peer [" ++ id ++ "] not found"))
    | some peer => peersLoop env rest (peers ++ [peer])

/-- Go `Peers`. -/
def Peers (env : Env) (peerIDs : String) : Except Err (List PeerConfig) :=
  peersLoop env (Split peerIDs ',') []

/-- The loop of Go `Shuffle` over the indices given by `rand.Perm`. -/
def shuffleLoop (p : List PeerConfig) : List Nat → List PeerConfig → Except Err (List PeerConfig)
  | [], peers => .ok peers
  | i :: rest, peers =>
    match p.get? i with
    | none => .error (Err.runtimePanic "index out of range")
    | some x => shuffleLoop p rest (peers ++ [x])

/-- Go `Peers.Shuffle`. -/
def Shuffle (env : Env) (p : List PeerConfig) : Except Err (List PeerConfig) :=
  shuffleLoop p (env.randPerm p.length) []

/-! ## Scenario steps -/

/-- Go `ResolveAllVars`. -/
def ResolveAllVars (env : Env) (w : World) (args : String) : Except String (List String) :=
  env.ResolveAll w.vars (Split args ',')

/-- Go `fmt.Errorf(pre + "%s", err)` on a returned error; a panic is not caught. -/
def wrapErr (pre : String) : Err → Err
  | Err.error msg => Err.error (pre ++ msg)
  | Err.runtimePanic msg => Err.runtimePanic msg

/-- The statement `queryValue = ""`. -/
def clearQueryValue (w : World) : World := { w with queryValue := "" }

/-- The tail shared by the query steps:
`queryValue, err = d.QueryCCWithArgs(...)`, then the error wrapped or `nil`. -/
def storeQuery (r : Except Err String × World) : Except Err Unit × World :=
  match r.1 with
  | .ok v => (.ok (), { r.2 with queryValue := v })
  | .error (Err.error msg) =>
    (.error (Err.error ("QueryCCWithArgs return error: " ++ msg)), { r.2 with queryValue := "" })
  | .error (Err.runtimePanic msg) => (.error (Err.runtimePanic msg), r.2)

/-- Go `InvokeCConOrg`. -/
def InvokeCConOrg (env : Env) (ccID args orgIDs channelID : String) (w : World) :
    Except Err Unit × World :=
  match ResolveAllVars env w args with
  | .error e => (.error (Err.error e), w)
  | .ok argArr =>
    let r := InvokeCCWithArgs env ccID channelID (OrgPeers env orgIDs channelID) argArr [] w
    match r.1 with
    | .error e => (.error (wrapErr "InvokeCCWithArgs return error: " e), r.2)
    | .ok _ => (.ok (), r.2)

/-- Go `InvokeCC`. -/
def InvokeCC (env : Env) (ccID args channelID : String) (w : World) :
    Except Err Unit × World :=
  match ResolveAllVars env w args with
  | .error e => (.error (Err.error e), w)
  | .ok argArr =>
    let r := InvokeCCWithArgs env ccID channelID [] argArr [] w
    match r.1 with
    | .error e => (.error (wrapErr "InvokeCC return error: " e), r.2)
    | .ok _ => (.ok (), r.2)

/-- Go `queryCConOrg`. -/
def queryCConOrg (env : Env) (ccID args orgIDs channelID : String) (w : World) :
    Except Err Unit × World :=
  let w0 := clearQueryValue w
  match ResolveAllVars env w0 args with
  | .error e => (.error (Err.error e), w0)
  | .ok argArr =>
    storeQuery (QueryCCWithArgs env false ccID channelID argArr []
      (OrgPeers env orgIDs channelID) w0)

/-- Go `queryCConTargetPeers`. -/
def queryCConTargetPeers (env : Env) (ccID args peerIDs channelID : String) (w : World) :
    Except Err Unit × World :=
  let w0 := clearQueryValue w
  if peerIDs = "" then (.error (Err.error "no target peers specified"), w0)
  else
    match Peers env peerIDs with
    | .error e => (.error e, w0)
    | .ok targetPeers =>
      match ResolveAllVars env w0 args with
      | .error e => (.error (Err.error e), w0)
      | .ok argArr =>
        storeQuery (QueryCCWithArgs env false ccID channelID argArr [] targetPeers w0)

/-- Go `invokeCConTargetPeers`. -/
def invokeCConTargetPeers (env : Env) (ccID args peerIDs channelID : String) (w : World) :
    Except Err Unit × World :=
  let w0 := clearQueryValue w
  if peerIDs = "" then (.error (Err.error "no target peers specified"), w0)
  else
    match Peers env peerIDs with
    | .error e => (.error e, w0)
    | .ok targetPeers =>
      match ResolveAllVars env w0 args with
      | .error e => (.error (Err.error e), w0)
      | .ok argArr =>
        let r := InvokeCCWithArgs env ccID channelID targetPeers argArr [] w0
        match r.1 with
        | .error e => (.error (wrapErr "InvokeCCWithArgs returned error: " e), r.2)
        | .ok resp => (.ok (), { r.2 with queryValue := resp.Payload })

/-- Go `queryCConSinglePeerInOrg`. -/
def queryCConSinglePeerInOrg (env : Env) (ccID args orgIDs channelID : String) (w : World) :
    Except Err Unit × World :=
  let w0 := clearQueryValue w
  let targetPeers := OrgPeers env orgIDs channelID
  if targetPeers.length = 0 then
    (.error (Err.error
      ("no peers in org(s) [" ++ orgIDs ++ "] for channel [" ++ channelID ++ "]")), w0)
  else
    match Shuffle env targetPeers with
    | .error e => (.error e, w0)
    | .ok [] => (.error (Err.runtimePanic "index out of range [0] with length 0"), w0)
    | .ok (targetPeer :: _) =>
      match ResolveAllVars env w0 args with
      | .error e => (.error (Err.error e), w0)
      | .ok argArr =>
        storeQuery (QueryCCWithArgs env false ccID channelID argArr [] [targetPeer] w0)

/-- Go `querySystemCC`. -/
def querySystemCC (env : Env) (ccID args orgID channelID : String) (w : World) :
    Except Err Unit × World :=
  let w0 := clearQueryValue w
  match env.PeersConfig orgID with
  | none => (.error (Err.error ("could not get peers config for org [" ++ orgID ++ "]")), w0)
  | some [] => (.error (Err.runtimePanic "index out of range [0] with length 0"), w0)
  | some (peersConfig0 :: _) =>
    let serverHostOverride : String :=
      match peersConfig0.sslTargetNameOverride with
      | some str => str
      | none => ""
    match ResolveAllVars env w0 args with
    | .error e => (.error (Err.error e), w0)
    | .ok argsArray =>
      storeQuery (QueryCCWithArgs env true ccID channelID argsArray []
        [{ Config := peersConfig0, OrgID := orgID,
           MspID := env.peersMspID serverHostOverride, PeerID := serverHostOverride }] w0)

/-- Go `queryCC`: the query is dispatched without targets. -/
def queryCC (env : Env) (ccID args channelID : String) (w : World) :
    Except Err Unit × World :=
  let w0 := clearQueryValue w
  match ResolveAllVars env w0 args with
  | .error e => (.error (Err.error e), w0)
  | .ok argArr => storeQuery (QueryCCWithArgs env false ccID channelID argArr [] [] w0)

/-- Go `GetResponse`. -/
def GetResponse (w : World) : String := w.queryValue

/-- Go `GetVar`. -/
def GetVar (w : World) (varName : String) : Option String := w.vars varName

/-! ## Reading a trace -/

/-- The events a run added to the trace: those of `w1` after the ones of `w`. -/
def newEvents (w w1 : World) : List Event := w1.trace.drop w.trace.length

/-- The call of an event, when it is one. -/
def Event.call? : Event → Option Call
  | Event.call c _ => some c
  | Event.sleep _ => none

/-- The outcome of an event, when it is a call. -/
def Event.outcome? : Event → Option (Except String Response)
  | Event.call _ out => some out
  | Event.sleep _ => none

/-- The error of an event, when it is a call that failed. -/
def Event.error? : Event → Option String
  | Event.call _ (.error e) => some e
  | Event.call _ (.ok _) => none
  | Event.sleep _ => none

/-- The payload of an event, when it is a call that succeeded. -/
def Event.payload? : Event → Option String
  | Event.call _ (.ok resp) => some resp.Payload
  | Event.call _ (.error _) => none
  | Event.sleep _ => none

/-- The calls of a trace, in order. -/
def callsOf (evs : List Event) : List Call := evs.filterMap Event.call?

/-- The outcomes of the calls of a trace, in order. -/
def outcomesOf (evs : List Event) : List (Except String Response) :=
  evs.filterMap Event.outcome?

/-- The errors of the failed calls of a trace, in order. -/
def errorsOf (evs : List Event) : List String := evs.filterMap Event.error?

/-- The payloads of the successful calls of a trace, in order. -/
def payloadsOf (evs : List Event) : List String := evs.filterMap Event.payload?

/-! ## An example network

Three peers of one organisation, a boundary that answers each call from the
peers it is sent to, and a resolver stub that knows the placeholder of the
variable `n` only. -/

/-- The example peer with the given ID. -/
def exTarget (id : String) : PeerConfig :=
  { Config := { URL := id, sslTargetNameOverride := some id },
    OrgID := "org1", MspID := "Org1MSP", PeerID := id }

/-- The example resolver: the token `$\x7bn\x7d` is the value of `n`, any other
token is itself. -/
def exResolveAll (vars : String → Option String) : List String → Except String (List String)
  | [] => .ok []
  | tok :: rest =>
    match (if tok = "$\x7bn\x7d" then vars "n" else some tok), exResolveAll vars rest with
    | none, _ => .error "variable [n] not set"
    | some _, .error e => .error e
    | some v, .ok vs => .ok (v :: vs)

/-- The example boundary: a call sent to `T2` alone fails with `e2`, a call sent
to one other peer returns `p` followed by the peer's URL, a call sent to several
peers or to none returns `all`. -/
def exRespond (_history : List Event) (c : Call) : Except String Response :=
  match c.targets with
  | [peer] => if peer.url = "T2" then .error "e2" else .ok { Payload := "p" ++ peer.url }
  | _ => .ok { Payload := "all" }

/-- A boundary of the example network where every call succeeds: a call sent
to `T1` alone returns `p1`, a call sent to one other peer returns `p2`, a call
sent to several peers or to none returns `all`. -/
def exRespondOk (_history : List Event) (c : Call) : Except String Response :=
  match c.targets with
  | [peer] => if peer.url = "T1" then .ok { Payload := "p1" } else .ok { Payload := "p2" }
  | _ => .ok { Payload := "all" }

/-- A boundary of the example network where every call fails with `boom`. -/
def exRespondFail (_history : List Event) (_c : Call) : Except String Response :=
  .error "boom"

/-- The example environment, for a given boundary. -/
def exEnv (respond : List Event → Call → Except String Response) : Env :=
  { orgs := ["org1"]
    ADMIN := "admin"
    USER := "user"
    CreatePeerFromConfig := fun _ _ cfg => .ok { url := cfg.URL }
    OrgChannelClient := fun orgID userType channelID =>
      .ok { orgID := orgID, userType := userType, channelID := channelID }
    PeersByChannel := fun _ => [exTarget "T1", exTarget "T2", exTarget "T3"]
    PeerConfigForID := fun id =>
      if id = "T1" ∨ id = "T2" ∨ id = "T3" then some (exTarget id) else none
    PeersConfig := fun orgID =>
      if orgID = "org1" then some [(exTarget "T1").Config] else none
    peersMspID := fun _ => "Org1MSP"
    ResolveAll := exResolveAll
    randPerm := fun n => List.range n
    ChaincodeStatus := 11
    DefaultOpts :=
      { Attempts := 5, InitialBackoff := 500, MaxBackoff := 60000,
        RetryableCodes := fun _ => none }
    respond := respond }

/-- The example initial state: nothing done, no variable set, an empty table. -/
def exWorld : World :=
  { trace := [], ChannelClientRetryableCodes := fun _ => none, queryValue := "",
    vars := fun _ => none }

/-! ## The template resolver

`ResolveAll`, which `ResolveAllVars` calls, is in another file of the
repository. It is modelled here from sections 4.1, 6 and 7 of the specification:
a token is scanned from left to right for placeholders, each placeholder is
`$\x7b EXPR \x7d` up to the first closing brace, and text that is not a
placeholder is kept. The specification does not spell out `IDENT` and `INT`;
they are taken as a non-empty run of letters, digits and underscores, and as a
non-empty run of decimal digits. -/

/-- Modelled from the spec: the two errors of the resolver `ResolveAll`, which
is not in the source file. -/
inductive ResolveError where
  | UnresolvedVariableError (ident : String)
  | IndexOutOfRangeError (ident : String) (index : Nat)
  deriving DecidableEq, Repr

/-- Modelled from the spec: a character of an `IDENT` of the resolver
`ResolveAll`: a letter, a digit or an underscore. -/
def isIdentChar (c : Char) : Bool := c.isAlphanum || c == '_'

/-- Modelled from the spec: `INDEXTERM := IDENT "[" INT "]"` of the resolver
`ResolveAll`, the `INT` kept as its digits. -/
structure IndexTerm where
  ident : List Char
  digits : List Char
  deriving DecidableEq, Repr

/-- Modelled from the spec: `EXPR := IDENT | INDEXTERM ("_" INDEXTERM)*` of the
resolver `ResolveAll`. -/
inductive Expr where
  | ident (name : List Char)
  | index (terms : List IndexTerm)
  deriving DecidableEq, Repr

/-- Modelled from the spec: where the reader of an index-expression sequence of
`ResolveAll` stands: in an `IDENT`, in the `INT` of an identifier, or after a
closing bracket. -/
inductive TermState where
  | ident (acc : List Char)
  | digits (id acc : List Char)
  | closed
  deriving DecidableEq, Repr

/-- Modelled from the spec: reading `INDEXTERM ("_" INDEXTERM)*` for
`ResolveAll`, one character at a time; `none` when the text is not of that form. -/
def parseTerms : List Char → TermState → List IndexTerm → Option (List IndexTerm)
  | [], TermState.closed, done => some done
  | [], TermState.ident _, _ => none
  | [], TermState.digits _ _, _ => none
  | c :: cs, TermState.ident acc, done =>
    if isIdentChar c then parseTerms cs (TermState.ident (acc ++ [c])) done
    else if c = '[' ∧ acc ≠ [] then parseTerms cs (TermState.digits acc []) done
    else none
  | c :: cs, TermState.digits id acc, done =>
    if c.isDigit then parseTerms cs (TermState.digits id (acc ++ [c])) done
    else if c = ']' ∧ acc ≠ [] then
      parseTerms cs TermState.closed (done ++ [{ ident := id, digits := acc }])
    else none
  | c :: cs, TermState.closed, done =>
    if c = '_' then parseTerms cs (TermState.ident []) done else none

/-- Modelled from the spec: reading an `EXPR` of `ResolveAll`: a simple
reference when the text is an `IDENT`, else an index-expression sequence. -/
def parseExpr (content : List Char) : Option Expr :=
  if content ≠ [] ∧ content.all isIdentChar = true then some (Expr.ident content)
  else
    match parseTerms content (TermState.ident []) [] with
    | some terms => some (Expr.index terms)
    | none => none

/-- Modelled from the spec: for `ResolveAll`, the text up to the first closing
brace and the text after it (the match is not greedy). -/
def splitClose : List Char → Option (List Char × List Char)
  | [] => none
  | c :: cs =>
    if c = '}' then some ([], cs)
    else
      match splitClose cs with
      | none => none
      | some (content, rest) => some (c :: content, rest)

/-- Modelled from the spec: for `ResolveAll`, a `PLACEHOLDER` at the start of
the text, with the text that follows it. -/
def matchPlaceholder : List Char → Option (Expr × List Char)
  | c1 :: c2 :: body =>
    if c1 = '$' ∧ c2 = '{' then
      match splitClose body with
      | none => none
      | some (content, rest) =>
        match parseExpr content with
        | none => none
        | some e => some (e, rest)
    else none
  | _ => none

/-- Modelled from the spec: a piece of a token scanned by `ResolveAll`: a
character of plain text or a placeholder. -/
inductive Segment where
  | text (c : Char)
  | placeholder (e : Expr)
  deriving DecidableEq, Repr

/-- Modelled from the spec: the left-to-right scan of a token by `ResolveAll`,
with a bound on the number of steps. -/
def scanFuel : Nat → List Char → List Segment
  | 0, _ => []
  | _ + 1, [] => []
  | fuel + 1, c :: cs =>
    match matchPlaceholder (c :: cs) with
    | some (e, rest) => Segment.placeholder e :: scanFuel fuel rest
    | none => Segment.text c :: scanFuel fuel cs

/-- Modelled from the spec: the left-to-right scan of a token by `ResolveAll`;
a step consumes at least one character, so the length of the token bounds the
number of steps. -/
def scan (cs : List Char) : List Segment := scanFuel cs.length cs

/-- Modelled from the spec: the number an `INT` of `ResolveAll` stands for. -/
def digitsValue (ds : List Char) : Nat :=
  ds.foldl (fun n c => 10 * n + (c.toNat - '0'.toNat)) 0

/-- Modelled from the spec: resolving one `IDENT[INT]` for `ResolveAll`: the
bound value split on `,`, and its element at the index. -/
def evalTerm (vars : String → Option String) (t : IndexTerm) : Except ResolveError String :=
  match vars (String.mk t.ident) with
  | none => .error (ResolveError.UnresolvedVariableError (String.mk t.ident))
  | some v =>
    match (Split v ',').get? (digitsValue t.digits) with
    | none =>
      .error (ResolveError.IndexOutOfRangeError (String.mk t.ident) (digitsValue t.digits))
    | some e => .ok e

/-- Modelled from the spec: resolving the terms of an index-expression
sequence for `ResolveAll`, each on its own, from left to right. -/
def evalTerms (vars : String → Option String) :
    List IndexTerm → Except ResolveError (List String)
  | [] => .ok []
  | t :: ts =>
    match evalTerm vars t with
    | .error err => .error err
    | .ok e =>
      match evalTerms vars ts with
      | .error err => .error err
      | .ok es => .ok (e :: es)

/-- Modelled from the spec: the replacement text of a placeholder of
`ResolveAll`: the bound value of a simple reference, or the elements of an
index-expression sequence joined with `_`. -/
def evalExpr (vars : String → Option String) : Expr → Except ResolveError (List Char)
  | Expr.ident name =>
    match vars (String.mk name) with
    | none => .error (ResolveError.UnresolvedVariableError (String.mk name))
    | some v => .ok v.data
  | Expr.index terms =>
    match evalTerms vars terms with
    | .error err => .error err
    | .ok es => .ok (List.intercalate ['_'] (es.map String.data))

/-- Modelled from the spec: substituting the placeholders of a scanned token
for `ResolveAll`, from left to right; the first failure aborts. -/
def evalSegments (vars : String → Option String) :
    List Segment → Except ResolveError (List Char)
  | [] => .ok []
  | Segment.text c :: segs =>
    match evalSegments vars segs with
    | .error err => .error err
    | .ok out => .ok (c :: out)
  | Segment.placeholder e :: segs =>
    match evalExpr vars e with
    | .error err => .error err
    | .ok v =>
      match evalSegments vars segs with
      | .error err => .error err
      | .ok out => .ok (v ++ out)

/-- Modelled from the spec: resolving one token for `ResolveAll`. -/
def Resolve (vars : String → Option String) (arg : String) : Except ResolveError String :=
  match evalSegments vars (scan arg.data) with
  | .error err => .error err
  | .ok out => .ok (String.mk out)

/-- Modelled from the spec: `ResolveAll`, which is not in the source file: the
tokens resolved one by one, in order; the first failure aborts. -/
def ResolveAll (vars : String → Option String) :
    List String → Except ResolveError (List String)
  | [] => .ok []
  | arg :: args =>
    match Resolve vars arg with
    | .error err => .error err
    | .ok v =>
      match ResolveAll vars args with
      | .error err => .error err
      | .ok vs => .ok (v :: vs)

/-- Modelled from the spec: the message of an error of `ResolveAll`, its name
followed by the identifier. -/
def ResolveError.Error : ResolveError → String
  | ResolveError.UnresolvedVariableError ident => "UnresolvedVariableError: " ++ ident
  | ResolveError.IndexOutOfRangeError ident _ => "IndexOutOfRangeError: " ++ ident

/-- The environment `env` with the modelled `ResolveAll` as its resolver. -/
def withResolver (env : Env) : Env :=
  { env with
    ResolveAll := fun vars args =>
      match ResolveAll vars args with
      | .error err => .error err.Error
      | .ok vs => .ok vs }

/-- An `IDENT` of the resolver: a non-empty run of identifier characters. -/
def validIdent (id : List Char) : Prop := id ≠ [] ∧ ∀ c ∈ id, isIdentChar c = true

/-- An `INT` of the resolver: a non-empty run of decimal digits. -/
def validDigits (ds : List Char) : Prop := ds ≠ [] ∧ ∀ c ∈ ds, c.isDigit = true

/-- The text of an index term, `IDENT[INT]`. -/
def renderTerm (t : IndexTerm) : List Char := t.ident ++ '[' :: t.digits ++ [']']

/-- The text of an index-expression sequence: its terms joined with `_`. -/
def renderTerms : List IndexTerm → List Char
  | [] => []
  | [t] => renderTerm t
  | t :: t1 :: ts => renderTerm t ++ '_' :: renderTerms (t1 :: ts)

/-- The identifiers an expression refers to. -/
def Expr.idents : Expr → List (List Char)
  | Expr.ident name => [name]
  | Expr.index terms => terms.map IndexTerm.ident

/-- The index terms of an expression. -/
def Expr.terms : Expr → List IndexTerm
  | Expr.ident _ => []
  | Expr.index terms => terms

/-- The placeholders of a scanned token. -/
def placeholdersOf : List Segment → List Expr
  | [] => []
  | Segment.text _ :: segs => placeholdersOf segs
  | Segment.placeholder e :: segs => e :: placeholdersOf segs

/-- The text of a token made of plain text and simple references: the plain
text `lit0`, then for each pair a placeholder of the identifier followed by
plain text. -/
def tokenText (lit0 : List Char) : List (List Char × List Char) → List Char
  | [] => lit0
  | (id, lit) :: parts => lit0 ++ '$' :: '{' :: id ++ '}' :: tokenText lit parts

/-- The token of `tokenText` with each placeholder replaced by the value `val`
gives to its identifier. -/
def tokenValue (val : List Char → String) (lit0 : List Char) :
    List (List Char × List Char) → List Char
  | [] => lit0
  | (id, lit) :: parts => lit0 ++ (val id).data ++ tokenValue val lit parts

/-- An example variable store: `a`, `b`, `var1`, `var2` and the arrays `arr1` and
`v`, whose values hold commas; `n` is not set. -/
def exVars (k : String) : Option String :=
  if k = "a" then some "x"
  else if k = "b" then some "y"
  else if k = "var1" then some "value1"
  else if k = "var2" then some "value2"
  else if k = "arr1" then some "value1,value2,value3"
  else if k = "v" then some "a,b,c"
  else none

/-- The example state with the example variable store. -/
def exWorldVars : World :=
  { trace := [], ChannelClientRetryableCodes := fun _ => none, queryValue := "",
    vars := exVars }

/-! ## The warm-up loop -/

/-- Go `time.Second`, in nanoseconds. -/
def Second : Int := 1000000000

/-- Go `time.Minute`, in nanoseconds. -/
def Minute : Int := 60 * Second

/-- Go `strings.Contains(s, substr)`. -/
def Contains (s substr : String) : Bool := decide (substr.data <:+: s.data)

/-- The query of one pass of `warmUpCConOrg`: a sequential `warmup` query of the
peers of the organisations, with a timeout of five minutes and no interval. -/
def warmUpQuery (env : Env) (ccID orgIDs channelID : String) (w : World) :
    Except Err String × World :=
  QueryCCWithOpts env false ccID channelID ["warmup"] (5 * Minute) false 0 []
    (OrgPeers env orgIDs channelID) w

/-- Go `warmUpCConOrg`, its `for` loop run for at most `fuel` passes: `none`
when the fuel is used up before the loop has returned. A pass whose error
contains `premature execution - chaincode` sleeps five seconds and goes on; any
other pass returns `nil`. -/
def warmUpCConOrg (env : Env) (ccID orgIDs channelID : String) :
    Nat → World → Option (Except Err Unit) × World
  | 0, w => (none, w)
  | fuel + 1, w =>
    let r := warmUpQuery env ccID orgIDs channelID w
    match r.1 with
    | .error (Err.runtimePanic msg) => (some (.error (Err.runtimePanic msg)), r.2)
    | .error (Err.error msg) =>
      if Contains msg "premature execution - chaincode" then
        warmUpCConOrg env ccID orgIDs channelID fuel (timeSleep r.2 (5 * Second))
      else (some (.ok ()), r.2)
    | .ok _ => (some (.ok ()), r.2)

/-- Go `warmUpCC`. -/
def warmUpCC (env : Env) (ccID channelID : String) (fuel : Nat) (w : World) :
    Option (Except Err Unit) × World :=
  warmUpCConOrg env ccID "" channelID fuel w

/-- The state after a pass of the warm-up loop that failed and slept. -/
def warmUpRetry (env : Env) (ccID orgIDs channelID : String) (w : World) : World :=
  timeSleep (warmUpQuery env ccID orgIDs channelID w).2 (5 * Second)

/-- The duration of a sleep event. -/
def Event.sleep? : Event → Option Int
  | Event.sleep d => some d
  | Event.call _ _ => none

/-- The sleeps of a trace, in order. -/
def sleepsOf (evs : List Event) : List Int := evs.filterMap Event.sleep?

/-- A boundary of the example network that fails with the transient message
on its first two calls and succeeds from the third call on. -/
def exRespondWarm (history : List Event) (_c : Call) : Except String Response :=
  if (callsOf history).length < 2 then
    .error "premature execution - chaincode (cc) is being launched"
  else .ok { Payload := "ready" }

/-- The example environment with the single peer `T1` on every channel. -/
def exEnvOne (respond : List Event → Call → Except String Response) : Env :=
  { exEnv respond with PeersByChannel := fun _ => [exTarget "T1"] }

/-- An example state with a cached response and the variable `v` set. -/
def exWorldOld : World :=
  { trace := [], ChannelClientRetryableCodes := fun _ => none, queryValue := "old",
    vars := fun k => if k = "v" then some "a,b,c" else none }

/-- An example peer of the given organisation. -/
def exTargetOf (orgID id : String) : PeerConfig :=
  { Config := { URL := id, sslTargetNameOverride := some id },
    OrgID := orgID, MspID := orgID ++ "MSP", PeerID := id }

/-- The example environment with peers of `org1` and `org2` on every channel. -/
def exEnvTwoOrgs : Env :=
  { exEnv exRespond with
    PeersByChannel := fun _ =>
      [exTarget "T1", exTargetOf "org2" "U1", exTarget "T2", exTargetOf "org2" "U2"] }

/-- The example environment with a permutation source that gives the indices
in decreasing order. -/
def exEnvReverse : Env :=
  { exEnv exRespond with randPerm := fun n => (List.range n).reverse }

/-! ## The trace of a sequential run -/

/-- The trace of a loop that makes the given calls, with the outcome each one
got, and sleeps `d` after each of them. -/
def eachThenSleep (d : Int) : List (Call × Except String Response) → List Event
  | [] => []
  | (c, out) :: rest => Event.call c out :: Event.sleep d :: eachThenSleep d rest

/-- A boundary of the example network for a warm-up pass: `T1` answers, `T2`
fails with `e2`, `T3` fails with the transient message. -/
def exRespondLate (_history : List Event) (c : Call) : Except String Response :=
  match c.targets with
  | [peer] =>
    if peer.url = "T2" then .error "e2"
    else if peer.url = "T3" then
      .error "premature execution - chaincode (cc) is being launched"
    else .ok { Payload := "p" ++ peer.url }
  | _ => .ok { Payload := "all" }

/-! ## Creating a channel and joining peers -/

/-- SDK `resmgmt.SaveChannelRequest`; a signing identity is named by the user
context it is, `OrgUserContext(orgID, userType)`. -/
structure SaveChannelRequest where
  ChannelID : String
  ChannelConfigPath : String
  SigningIdentities : List (String × String)
  deriving DecidableEq

/-- An effect of `joinPeersToChannel` outside `common_steps.go`: a peer
registered with the test context, or a call made with the resource management
client `ResMgmtClient(orgID, userType)`, with the outcome it got. The calls to
`SaveChannel` and `JoinChannel` all carry `retry.DefaultResMgmtOpts`. -/
inductive JoinEvent where
  | AddPeerConfigToChannel (pconfig : PeerConfig) (channelID : String)
  | HasPrimaryPeerJoinedChannel (channelID orgID userType : String) (peer : Peer)
      (out : Except String Bool)
  | SaveChannel (orgID userType : String) (req : SaveChannelRequest) (out : Except String Unit)
  | JoinChannel (orgID userType channelID : String) (out : Except String Unit)
  deriving DecidableEq

/-- The mutable state around `joinPeersToChannel`: what it has done so far and
the map `createdChannels` of the test context. -/
structure JoinWorld where
  events : List JoinEvent
  createdChannels : String → Bool

/-- What `joinPeersToChannel` takes from the rest of the repository and from the
SDK: the reader `ChannelCreated` of the test context (given the map
`createdChannels`), the paths of the channel transactions, and the behaviour of
the network behind the resource management client (the first argument is what
happened before the call). -/
structure JoinEnv where
  ChannelCreated : (String → Bool) → String → Bool
  GetChannelTxPath : String → String
  GetChannelAnchorTxPath : String → String → String
  HasPrimaryPeerJoinedChannel :
    List JoinEvent → String → String → String → Peer → Except String Bool
  SaveChannel : List JoinEvent → String → String → SaveChannelRequest → Except String Unit
  JoinChannel : List JoinEvent → String → String → String → Except String Unit

/-- An effect appended to the record of the state. -/
def logJoin (jw : JoinWorld) (ev : JoinEvent) : JoinWorld :=
  { jw with events := jw.events ++ [ev] }

/-- The first loop of `joinPeersToChannel`: every peer of the configuration is
registered with the test context for the channel. -/
def addPeerConfigs (env : Env) (channelID orgID : String) :
    List FabPeerConfig → JoinWorld → JoinWorld
  | [], jw => jw
  | peerConfig :: rest, jw =>
    let serverHostOverride : String :=
      match peerConfig.sslTargetNameOverride with
      | some str => str
      | none => ""
    addPeerConfigs env channelID orgID rest
      (logJoin jw (JoinEvent.AddPeerConfigToChannel
        { Config := peerConfig, OrgID := orgID,
          MspID := env.peersMspID serverHostOverride, PeerID := serverHostOverride }
        channelID))

/-- The call `resourceMgmt.SaveChannel(req, ...)` of the organisation's admin. -/
def saveChannel (env : Env) (jenv : JoinEnv) (orgID : String) (req : SaveChannelRequest)
    (jw : JoinWorld) : Except String Unit × JoinWorld :=
  let out := jenv.SaveChannel jw.events orgID env.ADMIN req
  (out, logJoin jw (JoinEvent.SaveChannel orgID env.ADMIN req out))

/-- The end of `joinPeersToChannel`, from the anchor peer update on: the anchor
transaction is saved, the channel is marked as created and the organisation's
peers join it. -/
def updateAnchorsAndJoin (env : Env) (jenv : JoinEnv) (channelID orgID : String)
    (jw : JoinWorld) : Except Err Unit × JoinWorld :=
  let anchorTxPath := jenv.GetChannelAnchorTxPath channelID orgID
  if anchorTxPath = "" then
    (.error (Err.error ("anchor TX path not found for channel [" ++ channelID
      ++ "] and org [" ++ orgID ++ "]")), jw)
  else
    let r := saveChannel env jenv orgID
      { ChannelID := channelID, ChannelConfigPath := anchorTxPath,
        SigningIdentities := [(orgID, env.ADMIN)] } jw
    match r.1 with
    | .error e => (.error (Err.error ("SaveChannel failed: " ++ e)), r.2)
    | .ok _ =>
      let jw1 : JoinWorld :=
        { r.2 with createdChannels := fun k => if k = channelID then true
                                               else r.2.createdChannels k }
      let out := jenv.JoinChannel jw1.events orgID env.ADMIN channelID
      let jw2 := logJoin jw1 (JoinEvent.JoinChannel orgID env.ADMIN channelID out)
      match out with
      | .error e => (.error (Err.error ("JoinChannel returned error: " ++ e)), jw2)
      | .ok _ => (.ok (), jw2)

/-- Go `joinPeersToChannel`. -/
def joinPeersToChannel (env : Env) (jenv : JoinEnv) (channelID orgID : String)
    (peersConfig : List FabPeerConfig) (jw : JoinWorld) : Except Err Unit × JoinWorld :=
  let jw1 := addPeerConfigs env channelID orgID peersConfig jw
  match peersConfig with
  | [] => (.error (Err.runtimePanic "index out of range [0] with length 0"), jw1)
  | peersConfig0 :: _ =>
    match env.CreatePeerFromConfig orgID env.ADMIN peersConfig0 with
    | .error e => (.error (Err.error ("NewPeer failed: " ++ e)), jw1)
    | .ok peer =>
      let joined := jenv.HasPrimaryPeerJoinedChannel jw1.events channelID orgID env.ADMIN peer
      let jw2 := logJoin jw1
        (JoinEvent.HasPrimaryPeerJoinedChannel channelID orgID env.ADMIN peer joined)
      match joined with
      | .error e =>
        (.error (Err.error
          ("Error while checking if primary peer has already joined channel: " ++ e)), jw2)
      | .ok true => (.ok (), jw2)
      | .ok false =>
        if jenv.ChannelCreated jw2.createdChannels channelID = false then
          let txPath := jenv.GetChannelTxPath channelID
          if txPath = "" then
            (.error (Err.error ("channel TX path not found for channel: " ++ channelID)), jw2)
          else
            let r := saveChannel env jenv orgID
              { ChannelID := channelID, ChannelConfigPath := txPath,
                SigningIdentities := [(orgID, env.ADMIN)] } jw2
            match r.1 with
            | .error e => (.error (Err.error ("SaveChannel failed: " ++ e)), r.2)
            | .ok _ => updateAnchorsAndJoin env jenv channelID orgID r.2
        else updateAnchorsAndJoin env jenv channelID orgID jw2

/-- The loop of `createChannelAndJoinPeers` over the organisations. -/
def joinOrgs (env : Env) (jenv : JoinEnv) (channelID : String) :
    List String → JoinWorld → Except Err Unit × JoinWorld
  | [], jw => (.ok (), jw)
  | orgID :: rest, jw =>
    match env.PeersConfig orgID with
    | none =>
      (.error (Err.error ("could not get peers config for org [" ++ orgID ++ "]")), jw)
    | some peersConfig =>
      if peersConfig.length = 0 then
        (.error (Err.error ("no peers for org [" ++ orgID ++ "]")), jw)
      else
        let r := joinPeersToChannel env jenv channelID orgID peersConfig jw
        match r.1 with
        | .error e => (.error (wrapErr "error joining peer to channel: " e), r.2)
        | .ok _ => joinOrgs env jenv channelID rest r.2

/-- Go `createChannelAndJoinPeers`. -/
def createChannelAndJoinPeers (env : Env) (jenv : JoinEnv) (channelID : String)
    (orgs : List String) (jw : JoinWorld) : Except Err Unit × JoinWorld :=
  if orgs.length = 0 then (.error (Err.error "no orgs specified"), jw)
  else joinOrgs env jenv channelID orgs jw

/-- Go `createChannelAndJoinPeersFromOrg`. -/
def createChannelAndJoinPeersFromOrg (env : Env) (jenv : JoinEnv) (channelID orgs : String)
    (jw : JoinWorld) : Except Err Unit × JoinWorld :=
  let orgList := Split orgs ','
  if orgList.length = 0 then (.error (Err.error "must specify at least one org ID"), jw)
  else createChannelAndJoinPeers env jenv channelID orgList jw

/-- An example network for joining: no channel is created yet, no peer has
joined, the transaction paths exist and every call succeeds. -/
def exJoinEnv : JoinEnv :=
  { ChannelCreated := fun createdChannels channelID => createdChannels channelID
    GetChannelTxPath := fun channelID => channelID ++ ".tx"
    GetChannelAnchorTxPath := fun channelID orgID => channelID ++ orgID ++ "anchors.tx"
    HasPrimaryPeerJoinedChannel := fun _ _ _ _ _ => .ok false
    SaveChannel := fun _ _ _ _ => .ok ()
    JoinChannel := fun _ _ _ _ => .ok () }

/-- The example initial state for joining: nothing done, no channel created. -/
def exJoinWorld : JoinWorld :=
  { events := [], createdChannels := fun _ => false }

/-! ## Lemmas on the loops -/

theorem newEvents_append (w w1 : World) (evs : List Event)
    (h : w1.trace = w.trace ++ evs) : newEvents w w1 = evs := by
  simp [newEvents, h]

theorem newEvents_self (w w1 : World) (h : w1.trace = w.trace) : newEvents w w1 = [] := by
  simp [newEvents, h]

theorem getLast?_cons_getD {α : Type} (a : α) (l : List α) (d : α) :
    (a :: l).getLast?.getD d = l.getLast?.getD a := by
  cases l with
  | nil => simp
  | cons b l =>
    rw [List.getLast?_cons_cons, List.getLast?_eq_getLast (b :: l) (by simp)]
    rfl

theorem queryPeers_acc (env : Env) :
    ∀ (targets : List PeerConfig) (acc : List Peer) (o : String) (ps : List Peer)
      (org : String),
      queryPeers env targets acc o = .ok (ps, org) →
      ∃ created, ps = acc ++ created ∧
        List.Forall₂
          (fun t p => env.CreatePeerFromConfig t.OrgID env.ADMIN t.Config = .ok p)
          targets created := by
  intro targets
  induction targets with
  | nil =>
    intro acc o ps org h
    simp only [queryPeers, Except.ok.injEq, Prod.mk.injEq] at h
    exact ⟨[], by simp [h.1], List.Forall₂.nil⟩
  | cons t rest ih =>
    intro acc o ps org h
    simp only [queryPeers] at h
    cases hc : env.CreatePeerFromConfig t.OrgID env.ADMIN t.Config with
    | error e => simp [hc] at h
    | ok p =>
      simp only [hc] at h
      obtain ⟨created, h1, h2⟩ := ih _ _ _ _ h
      exact ⟨p :: created, by simp [h1], List.Forall₂.cons hc h2⟩

theorem querySetup_peers (env : Env) (channelID : String) (targets : List PeerConfig)
    (peers : List Peer) (orgID : String) (chClient : ChClient)
    (h : querySetup env channelID targets = .ok (peers, orgID, chClient)) :
    List.Forall₂
      (fun t p => env.CreatePeerFromConfig t.OrgID env.ADMIN t.Config = .ok p)
      targets peers := by
  unfold querySetup at h
  cases hq : queryPeers env targets [] "" with
  | error e => simp [hq] at h
  | ok r =>
    obtain ⟨ps, o⟩ := r
    obtain ⟨created, h1, h2⟩ := queryPeers_acc env targets [] "" ps o hq
    simp only [hq] at h
    have hps : ps = peers := by
      split at h
      · cases h
      · split at h
        · cases h
        · simp only [Except.ok.injEq, Prod.mk.injEq] at h
          exact h.1
    subst hps
    simpa [h1] using h2

/-- The sequential loop, as a whole: it only appends events, the errors it
collects are those of its failed calls, the result it holds is the payload of
its last successful call, and its calls are one per peer, in order. -/
theorem queryEach_spec (env : Env) (chClient : ChClient) (req : Request) (timeout : Int)
    (retryOpts : RetryOpts) (interval : Int) :
    ∀ (ps : List Peer) (errs : List String) (queryResult : String) (w : World),
      ∃ evs,
        (queryEach env chClient req timeout retryOpts interval ps errs queryResult w).2.2
            = { w with trace := w.trace ++ evs } ∧
        (queryEach env chClient req timeout retryOpts interval ps errs queryResult w).1
            = errs ++ errorsOf evs ∧
        (queryEach env chClient req timeout retryOpts interval ps errs queryResult w).2.1
            = (payloadsOf evs).getLast?.getD queryResult ∧
        callsOf evs = ps.map (fun peer =>
          { kind := CallKind.Query, client := chClient, request := req, targets := [peer],
            timeout := some timeout, retry := retryOpts }) := by
  intro ps
  induction ps with
  | nil =>
    intro errs queryResult w
    exact ⟨[], by simp [queryEach], by simp [queryEach, errorsOf],
      by simp [queryEach, payloadsOf], by simp [callsOf]⟩
  | cons peer rest ih =>
    intro errs queryResult w
    simp only [queryEach, chCall]
    generalize hc : Call.mk CallKind.Query chClient req [peer] (some timeout) retryOpts = c
    generalize env.respond w.trace c = out
    by_cases hi : interval > 0
    · simp only [hi, if_true, timeSleep]
      cases out with
      | error e =>
        obtain ⟨evs, h1, h2, h3, h4⟩ := ih (errs ++ [e]) queryResult
          { w with trace := w.trace ++ [Event.call c (.error e)] ++ [Event.sleep interval] }
        refine ⟨Event.call c (.error e) :: Event.sleep interval :: evs, ?_, ?_, ?_, ?_⟩
        · simpa using h1
        · simpa [errorsOf, Event.error?] using h2
        · simpa [payloadsOf, Event.payload?] using h3
        · simpa [callsOf, Event.call?, ← hc] using h4
      | ok resp =>
        obtain ⟨evs, h1, h2, h3, h4⟩ := ih errs resp.Payload
          { w with trace := w.trace ++ [Event.call c (.ok resp)] ++ [Event.sleep interval] }
        refine ⟨Event.call c (.ok resp) :: Event.sleep interval :: evs, ?_, ?_, ?_, ?_⟩
        · simpa using h1
        · simpa [errorsOf, Event.error?] using h2
        · rw [h3]
          simp [payloadsOf, Event.payload?, getLast?_cons_getD]
        · simpa [callsOf, Event.call?, ← hc] using h4
    · simp only [hi, if_false]
      cases out with
      | error e =>
        obtain ⟨evs, h1, h2, h3, h4⟩ := ih (errs ++ [e]) queryResult
          { w with trace := w.trace ++ [Event.call c (.error e)] }
        refine ⟨Event.call c (.error e) :: evs, ?_, ?_, ?_, ?_⟩
        · simpa using h1
        · simpa [errorsOf, Event.error?] using h2
        · simpa [payloadsOf, Event.payload?] using h3
        · simpa [callsOf, Event.call?, ← hc] using h4
      | ok resp =>
        obtain ⟨evs, h1, h2, h3, h4⟩ := ih errs resp.Payload
          { w with trace := w.trace ++ [Event.call c (.ok resp)] }
        refine ⟨Event.call c (.ok resp) :: evs, ?_, ?_, ?_, ?_⟩
        · simpa using h1
        · simpa [errorsOf, Event.error?] using h2
        · rw [h3]
          simp [payloadsOf, Event.payload?, getLast?_cons_getD]
        · simpa [callsOf, Event.call?, ← hc] using h4

theorem outcomesOf_length (evs : List Event) :
    (outcomesOf evs).length = (callsOf evs).length := by
  induction evs with
  | nil => rfl
  | cons ev evs ih =>
    cases ev with
    | call c out => simpa [outcomesOf, callsOf, Event.outcome?, Event.call?] using ih
    | sleep d => simpa [outcomesOf, callsOf, Event.outcome?, Event.call?] using ih

/-- When some call of a trace failed, the outcomes split at the first failure,
and the first collected error is that failure. -/
theorem first_error_split (evs : List Event)
    (h : ∃ e, Except.error e ∈ outcomesOf evs) :
    ∃ pre e post tl, outcomesOf evs = pre ++ Except.error e :: post ∧
      (∀ o ∈ pre, ∃ resp, o = Except.ok resp) ∧ errorsOf evs = e :: tl := by
  induction evs with
  | nil => simp [outcomesOf] at h
  | cons ev evs ih =>
    cases ev with
    | sleep d =>
      have h1 : ∃ e, Except.error e ∈ outcomesOf evs := by
        simpa [outcomesOf, Event.outcome?] using h
      obtain ⟨pre, e, post, tl, h2, h3, h4⟩ := ih h1
      exact ⟨pre, e, post, tl, by simpa [outcomesOf, Event.outcome?] using h2, h3,
        by simpa [errorsOf, Event.error?] using h4⟩
    | call c out =>
      cases out with
      | error e0 =>
        exact ⟨[], e0, outcomesOf evs, errorsOf evs,
          by simp [outcomesOf, Event.outcome?], by simp,
          by simp [errorsOf, Event.error?]⟩
      | ok resp =>
        have h1 : ∃ e, Except.error e ∈ outcomesOf evs := by
          simpa [outcomesOf, Event.outcome?] using h
        obtain ⟨pre, e, post, tl, h2, h3, h4⟩ := ih h1
        refine ⟨Except.ok resp :: pre, e, post, tl, ?_, ?_, ?_⟩
        · simpa [outcomesOf, Event.outcome?] using h2
        · intro o ho
          rcases List.mem_cons.1 ho with rfl | ho
          · exact ⟨resp, rfl⟩
          · exact h3 o ho
        · simpa [errorsOf, Event.error?] using h4

/-- When every call of a trace succeeded, no error was collected and the
payloads are those of the outcomes. -/
theorem all_ok_payloads (evs : List Event)
    (h : ∀ o ∈ outcomesOf evs, ∃ resp, o = Except.ok resp) :
    errorsOf evs = [] ∧
      outcomesOf evs = (payloadsOf evs).map (fun p => Except.ok { Payload := p }) := by
  induction evs with
  | nil => simp [errorsOf, outcomesOf, payloadsOf]
  | cons ev evs ih =>
    cases ev with
    | sleep d =>
      have h1 : ∀ o ∈ outcomesOf evs, ∃ resp, o = Except.ok resp := by
        simpa [outcomesOf, Event.outcome?] using h
      simpa [errorsOf, outcomesOf, payloadsOf, Event.error?, Event.outcome?,
        Event.payload?] using ih h1
    | call c out =>
      cases out with
      | error e0 =>
        obtain ⟨resp, hr⟩ := h (Except.error e0) (by simp [outcomesOf, Event.outcome?])
        cases hr
      | ok resp =>
        have h1 : ∀ o ∈ outcomesOf evs, ∃ resp, o = Except.ok resp := by
          intro o ho
          exact h o (by simp [outcomesOf, Event.outcome?] at ho ⊢; exact Or.inr ho)
        simpa [errorsOf, outcomesOf, payloadsOf, Event.error?, Event.outcome?,
          Event.payload?] using ih h1

/-- The sequential branch of `QueryCCWithOpts` after a successful setup: it
only appends events, makes one query per peer in order, and fails with the
first collected error, else returns the last payload. -/
theorem sequential_run (env : Env) (ccID channelID fcn : String) (rest : List String)
    (timeout interval : Int) (transientData : List (String × String))
    (targets : List PeerConfig) (w : World) (peers : List Peer) (orgID : String)
    (chClient : ChClient)
    (hsetup : querySetup env channelID targets = .ok (peers, orgID, chClient)) :
    ∃ evs,
      (QueryCCWithOpts env false ccID channelID (fcn :: rest) timeout false interval
        transientData targets w).2.trace = w.trace ++ evs ∧
      callsOf evs = peers.map (fun peer =>
        { kind := CallKind.Query, client := chClient,
          request := { ChaincodeID := ccID, Fcn := fcn, Args := rest,
                       TransientMap := transientData },
          targets := [peer], timeout := some timeout,
          retry := (composeRetryOpts env w).1 }) ∧
      (QueryCCWithOpts env false ccID channelID (fcn :: rest) timeout false interval
        transientData targets w).1 =
        (match errorsOf evs with
         | e :: _ => .error (Err.error ("QueryChaincode return error: " ++ e))
         | [] => .ok ((payloadsOf evs).getLast?.getD "")) := by
  cases peers with
  | nil =>
    refine ⟨[], ?_, ?_, ?_⟩ <;>
      simp [QueryCCWithOpts, hsetup, composeRetryOpts, callsOf, errorsOf, payloadsOf]
  | cons peer more =>
    obtain ⟨evs, h1, h2, h3, h4⟩ := queryEach_spec env chClient
      { ChaincodeID := ccID, Fcn := fcn, Args := GetByteArgs rest,
        TransientMap := transientData }
      timeout (composeRetryOpts env w).1 interval (peer :: more) [] ""
      (composeRetryOpts env w).2
    refine ⟨evs, ?_, ?_, ?_⟩
    · simp only [QueryCCWithOpts, hsetup, Bool.false_eq_true, if_false]
      split <;> (rw [h1]; simp [composeRetryOpts])
    · simpa [GetByteArgs] using h4
    · simp only [QueryCCWithOpts, hsetup, Bool.false_eq_true, if_false]
      simp only [List.nil_append] at h2
      rw [h2, h3]
      cases errorsOf evs <;> rfl

/-- The concurrent branch of `QueryCCWithOpts` after a successful setup: one
query carrying all the peers, and the result made from its outcome. -/
theorem concurrent_run (env : Env) (ccID channelID fcn : String) (rest : List String)
    (timeout interval : Int) (transientData : List (String × String))
    (targets : List PeerConfig) (w : World) (peers : List Peer) (orgID : String)
    (chClient : ChClient)
    (hsetup : querySetup env channelID targets = .ok (peers, orgID, chClient)) :
    ∃ out,
      out = env.respond w.trace
        { kind := CallKind.Query, client := chClient,
          request := { ChaincodeID := ccID, Fcn := fcn, Args := rest,
                       TransientMap := transientData },
          targets := peers, timeout := some timeout,
          retry := (composeRetryOpts env w).1 } ∧
      (QueryCCWithOpts env false ccID channelID (fcn :: rest) timeout true interval
        transientData targets w).2.trace = w.trace ++
        [Event.call
          { kind := CallKind.Query, client := chClient,
            request := { ChaincodeID := ccID, Fcn := fcn, Args := rest,
                         TransientMap := transientData },
            targets := peers, timeout := some timeout,
            retry := (composeRetryOpts env w).1 } out] ∧
      (QueryCCWithOpts env false ccID channelID (fcn :: rest) timeout true interval
        transientData targets w).1 =
        (match out with
         | .error e => .error (Err.error ("QueryChaincode return error: " ++ e))
         | .ok resp => .ok resp.Payload) := by
  refine ⟨_, rfl, ?_, ?_⟩
  · simp only [QueryCCWithOpts, hsetup, Bool.false_eq_true, if_false, if_true, chCall,
      GetByteArgs]
    split <;> simp [composeRetryOpts]
  · simp only [QueryCCWithOpts, hsetup, Bool.false_eq_true, if_false, if_true, chCall,
      GetByteArgs]
    split <;> simp_all [composeRetryOpts]

/-- The system chaincode branch of `QueryCCWithOpts` after a successful setup:
one call through the handler chain carrying all the peers, and the result made
from its outcome; the flag `concurrent` and the interval are not read. -/
theorem pipeline_run (env : Env) (ccID channelID fcn : String) (rest : List String)
    (timeout interval : Int) (concurrent : Bool) (transientData : List (String × String))
    (targets : List PeerConfig) (w : World) (peers : List Peer) (orgID : String)
    (chClient : ChClient)
    (hsetup : querySetup env channelID targets = .ok (peers, orgID, chClient)) :
    ∃ out,
      out = env.respond w.trace
        { kind := CallKind.InvokeHandler
            (Handler.ProposalProcessorHandler
              (Handler.CustomEndorsementHandler orgID env.USER
                Handler.EndorsementValidationHandler)),
          client := chClient,
          request := { ChaincodeID := ccID, Fcn := fcn, Args := rest,
                       TransientMap := transientData },
          targets := peers, timeout := some timeout,
          retry := (composeRetryOpts env w).1 } ∧
      (QueryCCWithOpts env true ccID channelID (fcn :: rest) timeout concurrent interval
        transientData targets w).2.trace = w.trace ++
        [Event.call
          { kind := CallKind.InvokeHandler
              (Handler.ProposalProcessorHandler
                (Handler.CustomEndorsementHandler orgID env.USER
                  Handler.EndorsementValidationHandler)),
            client := chClient,
            request := { ChaincodeID := ccID, Fcn := fcn, Args := rest,
                         TransientMap := transientData },
            targets := peers, timeout := some timeout,
            retry := (composeRetryOpts env w).1 } out] ∧
      (QueryCCWithOpts env true ccID channelID (fcn :: rest) timeout concurrent interval
        transientData targets w).1 =
        (match out with
         | .error e => .error (Err.error ("QueryChaincode return error: " ++ e))
         | .ok resp => .ok resp.Payload) := by
  refine ⟨_, rfl, ?_, ?_⟩
  · simp only [QueryCCWithOpts, hsetup, if_true, chCall, GetByteArgs]
    split <;> simp [composeRetryOpts]
  · simp only [QueryCCWithOpts, hsetup, if_true, chCall, GetByteArgs]
    split <;> simp_all [composeRetryOpts]

/-- Go `invokeCCWithArgs` after a successful setup: one `Execute` carrying all
the peers, and the result made from its outcome. -/
theorem invoke_run (env : Env) (ccID channelID fcn userType : String) (rest : List String)
    (transientData : List (String × String))
    (targets : List PeerConfig) (w : World) (peers : List Peer) (chClient : ChClient)
    (hsetup : invokeSetup env channelID targets userType = .ok (peers, chClient)) :
    ∃ out,
      out = env.respond w.trace
        { kind := CallKind.Execute, client := chClient,
          request := { ChaincodeID := ccID, Fcn := fcn, Args := rest, TransientMap := [] },
          targets := peers, timeout := none,
          retry := (composeRetryOpts env w).1 } ∧
      (invokeCCWithArgs env ccID channelID targets (fcn :: rest) transientData userType
        w).2.trace = w.trace ++
        [Event.call
          { kind := CallKind.Execute, client := chClient,
            request := { ChaincodeID := ccID, Fcn := fcn, Args := rest, TransientMap := [] },
            targets := peers, timeout := none,
            retry := (composeRetryOpts env w).1 } out] ∧
      (invokeCCWithArgs env ccID channelID targets (fcn :: rest) transientData userType
        w).1 =
        (match out with
         | .error e => .error (Err.error ("InvokeChaincode return error: " ++ e))
         | .ok resp => .ok resp) := by
  refine ⟨_, rfl, ?_, ?_⟩
  · simp only [invokeCCWithArgs, hsetup, chCall, GetByteArgs]
    split <;> simp [composeRetryOpts]
  · simp only [invokeCCWithArgs, hsetup, chCall, GetByteArgs]
    split <;> simp_all [composeRetryOpts]

/-! ## Sequential dispatch -/

/-- C1. Sequential dispatch (`systemCC = false`, `concurrent = false`) whose
setup succeeded: when at least one of the calls it makes fails, the operation
fails, and the error it reports is the error of the first failing call in
target order, under the fixed text `QueryChaincode return error: `, whatever the
outcome of the other calls. -/
theorem sequential_reports_first_error (env : Env) (ccID channelID fcn : String)
    (rest : List String) (timeout interval : Int) (transientData : List (String × String))
    (targets : List PeerConfig) (w : World) (peers : List Peer) (orgID : String)
    (chClient : ChClient)
    (hsetup : querySetup env channelID targets = .ok (peers, orgID, chClient))
    (hfail : ∃ e, Except.error e ∈ outcomesOf (newEvents w
      (QueryCCWithOpts env false ccID channelID (fcn :: rest) timeout false interval
        transientData targets w).2)) :
    ∃ pre e post,
      outcomesOf (newEvents w
        (QueryCCWithOpts env false ccID channelID (fcn :: rest) timeout false interval
          transientData targets w).2) = pre ++ Except.error e :: post ∧
      (∀ o ∈ pre, ∃ resp, o = Except.ok resp) ∧
      (callsOf (newEvents w
        (QueryCCWithOpts env false ccID channelID (fcn :: rest) timeout false interval
          transientData targets w).2)).map Call.targets = peers.map (fun peer => [peer]) ∧
      (QueryCCWithOpts env false ccID channelID (fcn :: rest) timeout false interval
        transientData targets w).1
        = .error (Err.error ("QueryChaincode return error: " ++ e)) := by
  obtain ⟨evs, h1, h2, h3⟩ := sequential_run env ccID channelID fcn rest timeout interval
    transientData targets w peers orgID chClient hsetup
  rw [newEvents_append w _ evs h1] at hfail ⊢
  obtain ⟨pre, e, post, tl, h4, h5, h6⟩ := first_error_split evs hfail
  refine ⟨pre, e, post, h4, h5, ?_, ?_⟩
  · rw [h2, List.map_map]
    rfl
  · rw [h3, h6]

/-- C1, on the example network: of the targets `T1`, `T2`, `T3` the call to `T2`
fails with `e2` and the other two succeed; the result is the error of `T2`. -/
theorem sequential_reports_first_error_witness :
    querySetup (exEnv exRespond) "ch" [exTarget "T1", exTarget "T2", exTarget "T3"]
      = .ok ([{ url := "T1" }, { url := "T2" }, { url := "T3" }], "org1",
          { orgID := "org1", userType := "admin", channelID := "ch" }) ∧
    outcomesOf (newEvents exWorld
      (QueryCCWithOpts (exEnv exRespond) false "cc" "ch" ["fn", "a"] 0 false 0 []
        [exTarget "T1", exTarget "T2", exTarget "T3"] exWorld).2)
      = [.ok { Payload := "pT1" }, .error "e2", .ok { Payload := "pT3" }] ∧
    (QueryCCWithOpts (exEnv exRespond) false "cc" "ch" ["fn", "a"] 0 false 0 []
      [exTarget "T1", exTarget "T2", exTarget "T3"] exWorld).1
      = .error (Err.error "QueryChaincode return error: e2") ∧
    ∃ pre e post,
      outcomesOf (newEvents exWorld
        (QueryCCWithOpts (exEnv exRespond) false "cc" "ch" ["fn", "a"] 0 false 0 []
          [exTarget "T1", exTarget "T2", exTarget "T3"] exWorld).2)
        = pre ++ Except.error e :: post ∧
      (∀ o ∈ pre, ∃ resp, o = Except.ok resp) ∧
      (callsOf (newEvents exWorld
        (QueryCCWithOpts (exEnv exRespond) false "cc" "ch" ["fn", "a"] 0 false 0 []
          [exTarget "T1", exTarget "T2", exTarget "T3"] exWorld).2)).map Call.targets
        = [{ url := "T1" }, { url := "T2" }, { url := "T3" }].map (fun peer => [peer]) ∧
      (QueryCCWithOpts (exEnv exRespond) false "cc" "ch" ["fn", "a"] 0 false 0 []
        [exTarget "T1", exTarget "T2", exTarget "T3"] exWorld).1
        = .error (Err.error ("QueryChaincode return error: " ++ e)) :=
  ⟨by decide, by decide, by decide,
   sequential_reports_first_error (exEnv exRespond) "cc" "ch" "fn" ["a"] 0 0 []
     [exTarget "T1", exTarget "T2", exTarget "T3"] exWorld
     [{ url := "T1" }, { url := "T2" }, { url := "T3" }] "org1"
     { orgID := "org1", userType := "admin", channelID := "ch" } (by decide)
     ⟨"e2", by decide⟩⟩

/-- C2. Sequential dispatch whose setup succeeded, over a non-empty target
sequence: when every call it makes succeeds, the operation succeeds and returns
the payload of the last call, which is the call to the last target. -/
theorem sequential_returns_last_payload (env : Env) (ccID channelID fcn : String)
    (rest : List String) (timeout interval : Int) (transientData : List (String × String))
    (targets : List PeerConfig) (w : World) (peers : List Peer) (orgID : String)
    (chClient : ChClient)
    (hsetup : querySetup env channelID targets = .ok (peers, orgID, chClient))
    (hne : targets ≠ [])
    (hall : ∀ o ∈ outcomesOf (newEvents w
      (QueryCCWithOpts env false ccID channelID (fcn :: rest) timeout false interval
        transientData targets w).2), ∃ resp, o = Except.ok resp) :
    ∃ resp,
      (outcomesOf (newEvents w
        (QueryCCWithOpts env false ccID channelID (fcn :: rest) timeout false interval
          transientData targets w).2)).getLast? = some (Except.ok resp) ∧
      (callsOf (newEvents w
        (QueryCCWithOpts env false ccID channelID (fcn :: rest) timeout false interval
          transientData targets w).2)).map Call.targets = peers.map (fun peer => [peer]) ∧
      (QueryCCWithOpts env false ccID channelID (fcn :: rest) timeout false interval
        transientData targets w).1 = .ok resp.Payload := by
  obtain ⟨evs, h1, h2, h3⟩ := sequential_run env ccID channelID fcn rest timeout interval
    transientData targets w peers orgID chClient hsetup
  rw [newEvents_append w _ evs h1] at hall ⊢
  obtain ⟨h4, h5⟩ := all_ok_payloads evs hall
  have hlen : (payloadsOf evs).length = targets.length := by
    have h6 := congrArg List.length h5
    rw [List.length_map, outcomesOf_length, h2, List.length_map] at h6
    rw [← h6, (querySetup_peers env channelID targets peers orgID chClient hsetup).length_eq]
  have hpne : payloadsOf evs ≠ [] := by
    intro h0
    rw [h0] at hlen
    exact hne (List.length_eq_zero.1 hlen.symm)
  refine ⟨{ Payload := (payloadsOf evs).getLast hpne }, ?_, ?_, ?_⟩
  · rw [h5, List.getLast?_map, List.getLast?_eq_getLast _ hpne]
    rfl
  · rw [h2, List.map_map]
    rfl
  · rw [h3, h4, List.getLast?_eq_getLast _ hpne]
    rfl

/-- C2, on the example network with a boundary where every call succeeds: the
targets `T1`, `T2` answer `p1`, `p2` in that order; the result is `p2`. -/
theorem sequential_returns_last_payload_witness :
    querySetup (exEnv exRespondOk) "ch" [exTarget "T1", exTarget "T2"]
      = .ok ([{ url := "T1" }, { url := "T2" }], "org1",
          { orgID := "org1", userType := "admin", channelID := "ch" }) ∧
    outcomesOf (newEvents exWorld
      (QueryCCWithOpts (exEnv exRespondOk) false "cc" "ch" ["fn", "a"] 0 false 0 []
        [exTarget "T1", exTarget "T2"] exWorld).2)
      = [.ok { Payload := "p1" }, .ok { Payload := "p2" }] ∧
    (QueryCCWithOpts (exEnv exRespondOk) false "cc" "ch" ["fn", "a"] 0 false 0 []
      [exTarget "T1", exTarget "T2"] exWorld).1 = .ok "p2" ∧
    ∃ resp,
      (outcomesOf (newEvents exWorld
        (QueryCCWithOpts (exEnv exRespondOk) false "cc" "ch" ["fn", "a"] 0 false 0 []
          [exTarget "T1", exTarget "T2"] exWorld).2)).getLast? = some (Except.ok resp) ∧
      (callsOf (newEvents exWorld
        (QueryCCWithOpts (exEnv exRespondOk) false "cc" "ch" ["fn", "a"] 0 false 0 []
          [exTarget "T1", exTarget "T2"] exWorld).2)).map Call.targets
        = [{ url := "T1" }, { url := "T2" }].map (fun peer => [peer]) ∧
      (QueryCCWithOpts (exEnv exRespondOk) false "cc" "ch" ["fn", "a"] 0 false 0 []
        [exTarget "T1", exTarget "T2"] exWorld).1 = .ok resp.Payload :=
  ⟨by decide, by decide, by decide,
   sequential_returns_last_payload (exEnv exRespondOk) "cc" "ch" "fn" ["a"] 0 0 []
     [exTarget "T1", exTarget "T2"] exWorld
     [{ url := "T1" }, { url := "T2" }] "org1"
     { orgID := "org1", userType := "admin", channelID := "ch" } (by decide) (by decide)
     (by
       intro o ho
       have hout : outcomesOf (newEvents exWorld
           (QueryCCWithOpts (exEnv exRespondOk) false "cc" "ch" ["fn", "a"] 0 false 0 []
             [exTarget "T1", exTarget "T2"] exWorld).2)
           = [.ok { Payload := "p1" }, .ok { Payload := "p2" }] := by decide
       rw [hout] at ho
       rcases List.mem_cons.1 ho with rfl | ho
       · exact ⟨_, rfl⟩
       · rcases List.mem_cons.1 ho with rfl | ho
         · exact ⟨_, rfl⟩
         · cases ho)⟩

/-- C6. Sequential dispatch whose setup succeeded makes exactly one query per
target, in target order, whatever the boundary answers: `peers` are the SDK
peers of the targets one by one, and the calls the run adds to the trace are
the queries of the same request to `[peer]`, for each peer in that order. -/
theorem sequential_one_call_per_target (env : Env) (ccID channelID fcn : String)
    (rest : List String) (timeout interval : Int) (transientData : List (String × String))
    (targets : List PeerConfig) (w : World) (peers : List Peer) (orgID : String)
    (chClient : ChClient)
    (hsetup : querySetup env channelID targets = .ok (peers, orgID, chClient)) :
    List.Forall₂
      (fun t p => env.CreatePeerFromConfig t.OrgID env.ADMIN t.Config = .ok p)
      targets peers ∧
    callsOf (newEvents w
      (QueryCCWithOpts env false ccID channelID (fcn :: rest) timeout false interval
        transientData targets w).2)
      = peers.map (fun peer =>
        { kind := CallKind.Query, client := chClient,
          request := { ChaincodeID := ccID, Fcn := fcn, Args := rest,
                       TransientMap := transientData },
          targets := [peer], timeout := some timeout,
          retry := (composeRetryOpts env w).1 }) := by
  obtain ⟨evs, h1, h2, _⟩ := sequential_run env ccID channelID fcn rest timeout interval
    transientData targets w peers orgID chClient hsetup
  rw [newEvents_append w _ evs h1]
  exact ⟨querySetup_peers env channelID targets peers orgID chClient hsetup, h2⟩

/-- C6, on the example network: the call to `T2` fails and `T3` is still
queried; the calls go to `T1`, `T2`, `T3`, one each, in that order. -/
theorem sequential_one_call_per_target_witness :
    querySetup (exEnv exRespond) "ch" [exTarget "T1", exTarget "T2", exTarget "T3"]
      = .ok ([{ url := "T1" }, { url := "T2" }, { url := "T3" }], "org1",
          { orgID := "org1", userType := "admin", channelID := "ch" }) ∧
    (callsOf (newEvents exWorld
      (QueryCCWithOpts (exEnv exRespond) false "cc" "ch" ["fn", "a"] 7 false 0 []
        [exTarget "T1", exTarget "T2", exTarget "T3"] exWorld).2)).map Call.targets
      = [[{ url := "T1" }], [{ url := "T2" }], [{ url := "T3" }]] ∧
    (List.Forall₂
      (fun t p => (exEnv exRespond).CreatePeerFromConfig t.OrgID (exEnv exRespond).ADMIN
        t.Config = .ok p)
      [exTarget "T1", exTarget "T2", exTarget "T3"]
      [{ url := "T1" }, { url := "T2" }, { url := "T3" }] ∧
    callsOf (newEvents exWorld
      (QueryCCWithOpts (exEnv exRespond) false "cc" "ch" ["fn", "a"] 7 false 0 []
        [exTarget "T1", exTarget "T2", exTarget "T3"] exWorld).2)
      = [{ url := "T1" }, { url := "T2" }, { url := "T3" }].map (fun peer =>
        { kind := CallKind.Query,
          client := { orgID := "org1", userType := "admin", channelID := "ch" },
          request := { ChaincodeID := "cc", Fcn := "fn", Args := ["a"], TransientMap := [] },
          targets := [peer], timeout := some 7,
          retry := (composeRetryOpts (exEnv exRespond) exWorld).1 })) :=
  ⟨by decide, by decide,
   sequential_one_call_per_target (exEnv exRespond) "cc" "ch" "fn" ["a"] 7 0 []
     [exTarget "T1", exTarget "T2", exTarget "T3"] exWorld
     [{ url := "T1" }, { url := "T2" }, { url := "T3" }] "org1"
     { orgID := "org1", userType := "admin", channelID := "ch" } (by decide)⟩

/-! ## Concurrent fan-out and the system chaincode pipeline -/

/-- C7. Concurrent fan-out (`systemCC = false`, `concurrent = true`) whose setup
succeeded: `peers` are the SDK peers of the targets one by one, the run adds
exactly one event to the trace, a query carrying all the peers in that order
with function `args[0]` and arguments `args[1:]`, and when that call succeeds
the result is its payload. -/
theorem concurrent_single_call (env : Env) (ccID channelID fcn : String)
    (rest : List String) (timeout interval : Int) (transientData : List (String × String))
    (targets : List PeerConfig) (w : World) (peers : List Peer) (orgID : String)
    (chClient : ChClient)
    (hsetup : querySetup env channelID targets = .ok (peers, orgID, chClient)) :
    List.Forall₂
      (fun t p => env.CreatePeerFromConfig t.OrgID env.ADMIN t.Config = .ok p)
      targets peers ∧
    ∃ out,
      newEvents w
        (QueryCCWithOpts env false ccID channelID (fcn :: rest) timeout true interval
          transientData targets w).2 =
        [Event.call
          { kind := CallKind.Query, client := chClient,
            request := { ChaincodeID := ccID, Fcn := fcn, Args := rest,
                         TransientMap := transientData },
            targets := peers, timeout := some timeout,
            retry := (composeRetryOpts env w).1 } out] ∧
      ∀ resp, out = Except.ok resp →
        (QueryCCWithOpts env false ccID channelID (fcn :: rest) timeout true interval
          transientData targets w).1 = .ok resp.Payload := by
  obtain ⟨out, _, h2, h3⟩ := concurrent_run env ccID channelID fcn rest timeout interval
    transientData targets w peers orgID chClient hsetup
  refine ⟨querySetup_peers env channelID targets peers orgID chClient hsetup, out,
    newEvents_append w _ _ h2, ?_⟩
  intro resp hr
  rw [h3, hr]

/-- C7, on the example network: one query to `T1`, `T2`, `T3` together, whose
payload `all` is the result. -/
theorem concurrent_single_call_witness :
    querySetup (exEnv exRespond) "ch" [exTarget "T1", exTarget "T2", exTarget "T3"]
      = .ok ([{ url := "T1" }, { url := "T2" }, { url := "T3" }], "org1",
          { orgID := "org1", userType := "admin", channelID := "ch" }) ∧
    (callsOf (newEvents exWorld
      (QueryCCWithOpts (exEnv exRespond) false "cc" "ch" ["fn", "a", "b"] 7 true 0 []
        [exTarget "T1", exTarget "T2", exTarget "T3"] exWorld).2)).map
        (fun c => (c.request.Fcn, c.request.Args, c.targets))
      = [("fn", ["a", "b"], [{ url := "T1" }, { url := "T2" }, { url := "T3" }])] ∧
    (QueryCCWithOpts (exEnv exRespond) false "cc" "ch" ["fn", "a", "b"] 7 true 0 []
      [exTarget "T1", exTarget "T2", exTarget "T3"] exWorld).1 = .ok "all" ∧
    (List.Forall₂
      (fun t p => (exEnv exRespond).CreatePeerFromConfig t.OrgID (exEnv exRespond).ADMIN
        t.Config = .ok p)
      [exTarget "T1", exTarget "T2", exTarget "T3"]
      [{ url := "T1" }, { url := "T2" }, { url := "T3" }] ∧
    ∃ out,
      newEvents exWorld
        (QueryCCWithOpts (exEnv exRespond) false "cc" "ch" ["fn", "a", "b"] 7 true 0 []
          [exTarget "T1", exTarget "T2", exTarget "T3"] exWorld).2 =
        [Event.call
          { kind := CallKind.Query,
            client := { orgID := "org1", userType := "admin", channelID := "ch" },
            request := { ChaincodeID := "cc", Fcn := "fn", Args := ["a", "b"],
                         TransientMap := [] },
            targets := [{ url := "T1" }, { url := "T2" }, { url := "T3" }],
            timeout := some 7,
            retry := (composeRetryOpts (exEnv exRespond) exWorld).1 } out] ∧
      ∀ resp, out = Except.ok resp →
        (QueryCCWithOpts (exEnv exRespond) false "cc" "ch" ["fn", "a", "b"] 7 true 0 []
          [exTarget "T1", exTarget "T2", exTarget "T3"] exWorld).1 = .ok resp.Payload) :=
  ⟨by decide, by decide, by decide,
   concurrent_single_call (exEnv exRespond) "cc" "ch" "fn" ["a", "b"] 7 0 []
     [exTarget "T1", exTarget "T2", exTarget "T3"] exWorld
     [{ url := "T1" }, { url := "T2" }, { url := "T3" }] "org1"
     { orgID := "org1", userType := "admin", channelID := "ch" } (by decide)⟩

/-- C8, as stated, fails: on the example network with a boundary failing with
`boom`, the error returned for chaincode `mycc`, channel `mychannel` and
function `getvalue` is the fixed text followed by `boom`, for the query and for
the invoke, and contains none of the three names. -/
theorem fan_out_error_context_counterexample :
    (QueryCCWithOpts (exEnv exRespondFail) false "mycc" "mychannel" ["getvalue", "k"] 0
      true 0 [] [exTarget "T1", exTarget "T2"] exWorld).1
      = .error (Err.error "QueryChaincode return error: boom") ∧
    (invokeCCWithArgs (exEnv exRespondFail) "mycc" "mychannel"
      [exTarget "T1", exTarget "T2"] ["getvalue", "k"] [] "user" exWorld).1
      = .error (Err.error "InvokeChaincode return error: boom") ∧
    ¬ ("mycc".data <:+: "QueryChaincode return error: boom".data) ∧
    ¬ ("mychannel".data <:+: "QueryChaincode return error: boom".data) ∧
    ¬ ("getvalue".data <:+: "QueryChaincode return error: boom".data) ∧
    ¬ ("mycc".data <:+: "InvokeChaincode return error: boom".data) ∧
    ¬ ("mychannel".data <:+: "InvokeChaincode return error: boom".data) ∧
    ¬ ("getvalue".data <:+: "InvokeChaincode return error: boom".data) := by
  refine ⟨by decide, by decide, by decide, by decide, by decide, by decide, by decide,
    by decide⟩

/-- C8, amended. When the one call of a concurrent fan-out fails with the
message `e`, the dispatcher returns the error whose message is the fixed text
`QueryChaincode return error: ` (query) or `InvokeChaincode return error: `
(invoke) followed by `e` verbatim; the chaincode ID, the channel ID and the
function name are not part of it. -/
theorem fan_out_error_wrapping (env : Env) (ccID channelID userType : String)
    (args : List String) (timeout interval : Int) (transientData : List (String × String))
    (targets : List PeerConfig) (w : World) (e : String) :
    (outcomesOf (newEvents w
        (QueryCCWithOpts env false ccID channelID args timeout true interval
          transientData targets w).2) = [Except.error e] →
      (QueryCCWithOpts env false ccID channelID args timeout true interval
        transientData targets w).1
        = .error (Err.error ("QueryChaincode return error: " ++ e))) ∧
    (outcomesOf (newEvents w
        (invokeCCWithArgs env ccID channelID targets args transientData userType w).2)
        = [Except.error e] →
      (invokeCCWithArgs env ccID channelID targets args transientData userType w).1
        = .error (Err.error ("InvokeChaincode return error: " ++ e))) := by
  constructor
  · intro h
    cases hs : querySetup env channelID targets with
    | error e0 =>
      rw [newEvents_self w _ (by simp [QueryCCWithOpts, hs])] at h
      simp [outcomesOf] at h
    | ok r =>
      obtain ⟨peers, orgID, chClient⟩ := r
      cases args with
      | nil =>
        rw [newEvents_self w _ (by simp [QueryCCWithOpts, hs, composeRetryOpts])] at h
        simp [outcomesOf] at h
      | cons fcn rest =>
        obtain ⟨out, _, h2, h3⟩ := concurrent_run env ccID channelID fcn rest timeout
          interval transientData targets w peers orgID chClient hs
        rw [newEvents_append w _ _ h2] at h
        simp only [outcomesOf, List.filterMap_cons, Event.outcome?, List.filterMap_nil,
          List.cons.injEq, and_true] at h
        rw [h3, h]
  · intro h
    cases hs : invokeSetup env channelID targets userType with
    | error e0 =>
      rw [newEvents_self w _ (by simp [invokeCCWithArgs, hs])] at h
      simp [outcomesOf] at h
    | ok r =>
      obtain ⟨peers, chClient⟩ := r
      cases args with
      | nil =>
        rw [newEvents_self w _ (by simp [invokeCCWithArgs, hs, composeRetryOpts])] at h
        simp [outcomesOf] at h
      | cons fcn rest =>
        obtain ⟨out, _, h2, h3⟩ := invoke_run env ccID channelID fcn userType rest
          transientData targets w peers chClient hs
        rw [newEvents_append w _ _ h2] at h
        simp only [outcomesOf, List.filterMap_cons, Event.outcome?, List.filterMap_nil,
          List.cons.injEq, and_true] at h
        rw [h3, h]

/-- C8, amended, on the example network with the boundary failing with `boom`. -/
theorem fan_out_error_wrapping_witness :
    (outcomesOf (newEvents exWorld
        (QueryCCWithOpts (exEnv exRespondFail) false "mycc" "mychannel" ["getvalue", "k"]
          0 true 0 [] [exTarget "T1", exTarget "T2"] exWorld).2) = [Except.error "boom"] ∧
      (QueryCCWithOpts (exEnv exRespondFail) false "mycc" "mychannel" ["getvalue", "k"]
        0 true 0 [] [exTarget "T1", exTarget "T2"] exWorld).1
        = .error (Err.error ("QueryChaincode return error: " ++ "boom"))) ∧
    (outcomesOf (newEvents exWorld
        (invokeCCWithArgs (exEnv exRespondFail) "mycc" "mychannel"
          [exTarget "T1", exTarget "T2"] ["getvalue", "k"] [] "user" exWorld).2)
        = [Except.error "boom"] ∧
      (invokeCCWithArgs (exEnv exRespondFail) "mycc" "mychannel"
        [exTarget "T1", exTarget "T2"] ["getvalue", "k"] [] "user" exWorld).1
        = .error (Err.error ("InvokeChaincode return error: " ++ "boom"))) :=
  ⟨⟨by decide,
    (fan_out_error_wrapping (exEnv exRespondFail) "mycc" "mychannel" "user"
      ["getvalue", "k"] 0 0 [] [exTarget "T1", exTarget "T2"] exWorld "boom").1
      (by decide)⟩,
   ⟨by decide,
    (fan_out_error_wrapping (exEnv exRespondFail) "mycc" "mychannel" "user"
      ["getvalue", "k"] 0 0 [] [exTarget "T1", exTarget "T2"] exWorld "boom").2
      (by decide)⟩⟩

/-- C9. A system chaincode query (`systemCC = true`) whose setup succeeded adds
exactly one event to the trace, a call through the handler chain carrying all
the peers; it does the same whatever the flag `concurrent` and the interval are;
and when the boundary gives its call the outcome it gives the query of a
concurrent fan-out, both runs return the same payload or the same error. -/
theorem pipeline_same_as_concurrent (env : Env) (ccID channelID fcn : String)
    (rest : List String) (timeout interval interval1 interval2 : Int)
    (concurrent concurrent1 : Bool) (transientData : List (String × String))
    (targets : List PeerConfig) (w : World) (peers : List Peer) (orgID : String)
    (chClient : ChClient)
    (hsetup : querySetup env channelID targets = .ok (peers, orgID, chClient))
    (hout : outcomesOf (newEvents w
        (QueryCCWithOpts env true ccID channelID (fcn :: rest) timeout concurrent interval
          transientData targets w).2)
      = outcomesOf (newEvents w
        (QueryCCWithOpts env false ccID channelID (fcn :: rest) timeout true interval2
          transientData targets w).2)) :
    (QueryCCWithOpts env true ccID channelID (fcn :: rest) timeout concurrent interval
        transientData targets w).1
      = (QueryCCWithOpts env false ccID channelID (fcn :: rest) timeout true interval2
        transientData targets w).1 ∧
    (∃ out,
      newEvents w
        (QueryCCWithOpts env true ccID channelID (fcn :: rest) timeout concurrent interval
          transientData targets w).2 =
        [Event.call
          { kind := CallKind.InvokeHandler
              (Handler.ProposalProcessorHandler
                (Handler.CustomEndorsementHandler orgID env.USER
                  Handler.EndorsementValidationHandler)),
            client := chClient,
            request := { ChaincodeID := ccID, Fcn := fcn, Args := rest,
                         TransientMap := transientData },
            targets := peers, timeout := some timeout,
            retry := (composeRetryOpts env w).1 } out]) ∧
    QueryCCWithOpts env true ccID channelID (fcn :: rest) timeout concurrent interval
        transientData targets w
      = QueryCCWithOpts env true ccID channelID (fcn :: rest) timeout concurrent1 interval1
        transientData targets w := by
  obtain ⟨out, _, h2, h3⟩ := pipeline_run env ccID channelID fcn rest timeout interval
    concurrent transientData targets w peers orgID chClient hsetup
  obtain ⟨out2, _, h5, h6⟩ := concurrent_run env ccID channelID fcn rest timeout interval2
    transientData targets w peers orgID chClient hsetup
  rw [newEvents_append w _ _ h2, newEvents_append w _ _ h5] at hout
  simp only [outcomesOf, List.filterMap_cons, Event.outcome?, List.filterMap_nil,
    List.cons.injEq, and_true] at hout
  refine ⟨?_, ⟨out, newEvents_append w _ _ h2⟩, ?_⟩
  · rw [h3, h6, hout]
  · simp [QueryCCWithOpts]

/-- C9, on the example network: the system chaincode query and the concurrent
query of `T1` and `T2` both get the outcome `all` and both return `all`. -/
theorem pipeline_same_as_concurrent_witness :
    querySetup (exEnv exRespond) "ch" [exTarget "T1", exTarget "T2"]
      = .ok ([{ url := "T1" }, { url := "T2" }], "org1",
          { orgID := "org1", userType := "admin", channelID := "ch" }) ∧
    outcomesOf (newEvents exWorld
        (QueryCCWithOpts (exEnv exRespond) true "cc" "ch" ["fn", "a"] 7 false 3 []
          [exTarget "T1", exTarget "T2"] exWorld).2)
      = [Except.ok { Payload := "all" }] ∧
    outcomesOf (newEvents exWorld
        (QueryCCWithOpts (exEnv exRespond) false "cc" "ch" ["fn", "a"] 7 true 0 []
          [exTarget "T1", exTarget "T2"] exWorld).2)
      = [Except.ok { Payload := "all" }] ∧
    (QueryCCWithOpts (exEnv exRespond) true "cc" "ch" ["fn", "a"] 7 false 3 []
        [exTarget "T1", exTarget "T2"] exWorld).1 = .ok "all" ∧
    ((QueryCCWithOpts (exEnv exRespond) true "cc" "ch" ["fn", "a"] 7 false 3 []
          [exTarget "T1", exTarget "T2"] exWorld).1
        = (QueryCCWithOpts (exEnv exRespond) false "cc" "ch" ["fn", "a"] 7 true 0 []
          [exTarget "T1", exTarget "T2"] exWorld).1 ∧
      (∃ out,
        newEvents exWorld
          (QueryCCWithOpts (exEnv exRespond) true "cc" "ch" ["fn", "a"] 7 false 3 []
            [exTarget "T1", exTarget "T2"] exWorld).2 =
          [Event.call
            { kind := CallKind.InvokeHandler
                (Handler.ProposalProcessorHandler
                  (Handler.CustomEndorsementHandler "org1" (exEnv exRespond).USER
                    Handler.EndorsementValidationHandler)),
              client := { orgID := "org1", userType := "admin", channelID := "ch" },
              request := { ChaincodeID := "cc", Fcn := "fn", Args := ["a"],
                           TransientMap := [] },
              targets := [{ url := "T1" }, { url := "T2" }], timeout := some 7,
              retry := (composeRetryOpts (exEnv exRespond) exWorld).1 } out]) ∧
      QueryCCWithOpts (exEnv exRespond) true "cc" "ch" ["fn", "a"] 7 false 3 []
          [exTarget "T1", exTarget "T2"] exWorld
        = QueryCCWithOpts (exEnv exRespond) true "cc" "ch" ["fn", "a"] 7 true 0 []
          [exTarget "T1", exTarget "T2"] exWorld) :=
  ⟨by decide, by decide, by decide, by decide,
   pipeline_same_as_concurrent (exEnv exRespond) "cc" "ch" "fn" ["a"] 7 3 0 0 false true []
     [exTarget "T1", exTarget "T2"] exWorld [{ url := "T1" }, { url := "T2" }] "org1"
     { orgID := "org1", userType := "admin", channelID := "ch" } (by decide) (by decide)⟩

/-! ## Dispatch without targets -/

/-- C3, as stated, fails: on the example network a concurrent query, a system
chaincode query and an invoke without any target each make one call, with an
empty target list, and return its payload; a sequential query without targets
makes no call and returns the empty string. None of them fails. -/
theorem empty_targets_counterexample :
    (QueryCCWithOpts (exEnv exRespond) false "cc" "ch" ["fn"] 0 true 0 [] [] exWorld).1
      = .ok "all" ∧
    (callsOf (newEvents exWorld
      (QueryCCWithOpts (exEnv exRespond) false "cc" "ch" ["fn"] 0 true 0 [] []
        exWorld).2)).map Call.targets = [[]] ∧
    (QueryCCWithOpts (exEnv exRespond) true "cc" "ch" ["fn"] 0 true 0 [] [] exWorld).1
      = .ok "all" ∧
    (callsOf (newEvents exWorld
      (QueryCCWithOpts (exEnv exRespond) true "cc" "ch" ["fn"] 0 true 0 [] []
        exWorld).2)).map Call.targets = [[]] ∧
    (invokeCCWithArgs (exEnv exRespond) "cc" "ch" [] ["fn"] [] "user" exWorld).1
      = .ok { Payload := "all" } ∧
    (callsOf (newEvents exWorld
      (invokeCCWithArgs (exEnv exRespond) "cc" "ch" [] ["fn"] [] "user"
        exWorld).2)).map Call.targets = [[]] ∧
    (QueryCCWithOpts (exEnv exRespond) false "cc" "ch" ["fn"] 0 false 0 [] [] exWorld).1
      = .ok "" ∧
    (callsOf (newEvents exWorld
      (QueryCCWithOpts (exEnv exRespond) false "cc" "ch" ["fn"] 0 false 0 [] []
        exWorld).2)).map Call.targets = [] := by
  refine ⟨by decide, by decide, by decide, by decide, by decide, by decide, by decide,
    by decide⟩

/-- C3, amended. A dispatch with an empty target sequence is not rejected. When
the context has a first organisation and the channel client can be created:
a sequential query makes no call and returns the empty string; a concurrent
query, a system chaincode query and an invoke each make exactly one call, with
an empty target list, and return what the run makes of its outcome (the payload,
or the error under the fixed text). -/
theorem empty_targets_dispatch (env : Env) (ccID channelID fcn userType org : String)
    (rest args : List String) (orgs : List String) (timeout interval : Int)
    (concurrent : Bool) (transientData : List (String × String)) (w : World)
    (chClient chClient1 : ChClient)
    (horgs : env.orgs = org :: orgs)
    (hclient : env.OrgChannelClient org env.ADMIN channelID = .ok chClient)
    (hclient1 : env.OrgChannelClient org userType channelID = .ok chClient1) :
    ((QueryCCWithOpts env false ccID channelID args timeout false interval transientData
        [] w).1 = .ok "" ∧
      newEvents w (QueryCCWithOpts env false ccID channelID args timeout false interval
        transientData [] w).2 = []) ∧
    (∃ c out,
      newEvents w (QueryCCWithOpts env false ccID channelID (fcn :: rest) timeout true
        interval transientData [] w).2 = [Event.call c out] ∧
      c.kind = CallKind.Query ∧ c.targets = [] ∧
      (QueryCCWithOpts env false ccID channelID (fcn :: rest) timeout true interval
        transientData [] w).1 =
        (match out with
         | .error e => .error (Err.error ("QueryChaincode return error: " ++ e))
         | .ok resp => .ok resp.Payload)) ∧
    (∃ c out,
      newEvents w (QueryCCWithOpts env true ccID channelID (fcn :: rest) timeout concurrent
        interval transientData [] w).2 = [Event.call c out] ∧
      c.targets = [] ∧
      (QueryCCWithOpts env true ccID channelID (fcn :: rest) timeout concurrent interval
        transientData [] w).1 =
        (match out with
         | .error e => .error (Err.error ("QueryChaincode return error: " ++ e))
         | .ok resp => .ok resp.Payload)) ∧
    (∃ c out,
      newEvents w (invokeCCWithArgs env ccID channelID [] (fcn :: rest) transientData
        userType w).2 = [Event.call c out] ∧
      c.kind = CallKind.Execute ∧ c.targets = [] ∧
      (invokeCCWithArgs env ccID channelID [] (fcn :: rest) transientData userType w).1 =
        (match out with
         | .error e => .error (Err.error ("InvokeChaincode return error: " ++ e))
         | .ok resp => .ok resp)) := by
  have hq : querySetup env channelID [] = .ok ([], org, chClient) := by
    simp [querySetup, queryPeers, horgs, hclient]
  have hi : invokeSetup env channelID [] userType = .ok ([], chClient1) := by
    simp [invokeSetup, invokePeers, horgs, hclient1]
  refine ⟨⟨?_, ?_⟩, ?_, ?_, ?_⟩
  · simp [QueryCCWithOpts, hq]
  · exact newEvents_self w _ (by simp [QueryCCWithOpts, hq, composeRetryOpts])
  · obtain ⟨out, _, h2, h3⟩ := concurrent_run env ccID channelID fcn rest timeout interval
      transientData [] w [] org chClient hq
    exact ⟨_, out, newEvents_append w _ _ h2, rfl, rfl, h3⟩
  · obtain ⟨out, _, h2, h3⟩ := pipeline_run env ccID channelID fcn rest timeout interval
      concurrent transientData [] w [] org chClient hq
    exact ⟨_, out, newEvents_append w _ _ h2, rfl, h3⟩
  · obtain ⟨out, _, h2, h3⟩ := invoke_run env ccID channelID fcn userType rest
      transientData [] w [] chClient1 hi
    exact ⟨_, out, newEvents_append w _ _ h2, rfl, rfl, h3⟩

/-- C3, amended, on the example network. -/
theorem empty_targets_dispatch_witness :
    (exEnv exRespond).orgs = "org1" :: [] ∧
    (exEnv exRespond).OrgChannelClient "org1" (exEnv exRespond).ADMIN "ch"
      = .ok { orgID := "org1", userType := "admin", channelID := "ch" } ∧
    (exEnv exRespond).OrgChannelClient "org1" "user" "ch"
      = .ok { orgID := "org1", userType := "user", channelID := "ch" } ∧
    (((QueryCCWithOpts (exEnv exRespond) false "cc" "ch" ["fn"] 0 false 0 [] []
        exWorld).1 = .ok "" ∧
      newEvents exWorld (QueryCCWithOpts (exEnv exRespond) false "cc" "ch" ["fn"] 0 false 0
        [] [] exWorld).2 = []) ∧
    (∃ c out,
      newEvents exWorld (QueryCCWithOpts (exEnv exRespond) false "cc" "ch" ("fn" :: [])
        0 true 0 [] [] exWorld).2 = [Event.call c out] ∧
      c.kind = CallKind.Query ∧ c.targets = [] ∧
      (QueryCCWithOpts (exEnv exRespond) false "cc" "ch" ("fn" :: []) 0 true 0 [] []
        exWorld).1 =
        (match out with
         | .error e => .error (Err.error ("QueryChaincode return error: " ++ e))
         | .ok resp => .ok resp.Payload)) ∧
    (∃ c out,
      newEvents exWorld (QueryCCWithOpts (exEnv exRespond) true "cc" "ch" ("fn" :: [])
        0 false 0 [] [] exWorld).2 = [Event.call c out] ∧
      c.targets = [] ∧
      (QueryCCWithOpts (exEnv exRespond) true "cc" "ch" ("fn" :: []) 0 false 0 [] []
        exWorld).1 =
        (match out with
         | .error e => .error (Err.error ("QueryChaincode return error: " ++ e))
         | .ok resp => .ok resp.Payload)) ∧
    (∃ c out,
      newEvents exWorld (invokeCCWithArgs (exEnv exRespond) "cc" "ch" [] ("fn" :: []) []
        "user" exWorld).2 = [Event.call c out] ∧
      c.kind = CallKind.Execute ∧ c.targets = [] ∧
      (invokeCCWithArgs (exEnv exRespond) "cc" "ch" [] ("fn" :: []) [] "user" exWorld).1 =
        (match out with
         | .error e => .error (Err.error ("InvokeChaincode return error: " ++ e))
         | .ok resp => .ok resp))) :=
  ⟨by decide, by decide, by decide,
   empty_targets_dispatch (exEnv exRespond) "cc" "ch" "fn" "user" "org1" [] ["fn"] [] 0 0
     false [] exWorld { orgID := "org1", userType := "admin", channelID := "ch" }
     { orgID := "org1", userType := "user", channelID := "ch" } (by decide) (by decide)
     (by decide)⟩

/-! ## Retry codes -/

/-- C4, as stated, fails: adding `404` twice to group `11` of the empty table
leaves the group with `404` twice, which is not the table after one addition. -/
theorem addRetryCode_twice_counterexample :
    addRetryCode (addRetryCode (fun _ => none) 11 404) 11 404 11 = some [404, 404] ∧
    addRetryCode (fun _ => none) 11 404 11 = some [404] ∧
    ((addRetryCode (addRetryCode (fun _ => none) 11 404) 11 404 11).getD []).count 404 = 2 ∧
    addRetryCode (addRetryCode (fun _ => none) 11 404) 11 404
      ≠ addRetryCode (fun _ => none) 11 404 := by
  refine ⟨by decide, by decide, by decide, ?_⟩
  intro h
  exact absurd (congrFun h 11) (by decide)

/-- C4, amended. `addRetryCode` appends: after one application the group is its
former list (empty when the group was absent) followed by the code, after two
applications it is that list followed by the code twice, so the code occurs
once more per application; the codes that belong to each group are the same
after two applications as after one, and the other groups are untouched. -/
theorem addRetryCode_twice (codes : RetryCodeTable) (group : Group) (code : Code) :
    addRetryCode codes group code group = some ((codes group).getD [] ++ [code]) ∧
    addRetryCode (addRetryCode codes group code) group code group
      = some ((codes group).getD [] ++ [code] ++ [code]) ∧
    ((addRetryCode (addRetryCode codes group code) group code group).getD []).count code
      = ((codes group).getD []).count code + 2 ∧
    (∀ (k : Group) (c : Code),
      c ∈ (addRetryCode (addRetryCode codes group code) group code k).getD [] ↔
      c ∈ (addRetryCode codes group code k).getD []) ∧
    (∀ k : Group, k ≠ group →
      addRetryCode (addRetryCode codes group code) group code k = codes k) := by
  have h1 : addRetryCode codes group code group = some ((codes group).getD [] ++ [code]) := by
    cases h : codes group <;> simp [addRetryCode, h]
  have h2 : addRetryCode (addRetryCode codes group code) group code group
      = some ((codes group).getD [] ++ [code] ++ [code]) := by
    cases h : codes group <;> simp [addRetryCode, h]
  refine ⟨h1, h2, ?_, ?_, ?_⟩
  · rw [h2]
    simp [List.count_append]
  · intro k c
    by_cases hk : k = group
    · subst hk
      rw [h2, h1]
      simp
    · simp [addRetryCode, hk]
  · intro k hk
    simp [addRetryCode, hk]

/-- After a query whose setup succeeded, whatever its mode and its arguments,
the package-level table is the former one with the codes of `ccCodesForRetry`
appended to the group `ChaincodeStatus`. -/
theorem query_table_after (env : Env) (systemCC concurrent : Bool) (ccID channelID : String)
    (args : List String) (timeout interval : Int) (transientData : List (String × String))
    (targets : List PeerConfig) (w : World) (peers : List Peer) (orgID : String)
    (chClient : ChClient)
    (hsetup : querySetup env channelID targets = .ok (peers, orgID, chClient)) :
    (QueryCCWithOpts env systemCC ccID channelID args timeout concurrent interval
      transientData targets w).2.ChannelClientRetryableCodes
      = addRetryCode w.ChannelClientRetryableCodes env.ChaincodeStatus 404 := by
  cases args with
  | nil =>
    cases systemCC <;> cases concurrent <;> cases peers <;>
      simp [QueryCCWithOpts, hsetup, composeRetryOpts, addRetryCodes, ccCodesForRetry]
  | cons fcn rest =>
    cases systemCC with
    | true =>
      simp only [QueryCCWithOpts, hsetup, if_true, chCall]
      split <;> simp [composeRetryOpts, addRetryCodes, ccCodesForRetry]
    | false =>
      cases concurrent with
      | true =>
        simp only [QueryCCWithOpts, hsetup, Bool.false_eq_true, if_false, if_true, chCall]
        split <;> simp [composeRetryOpts, addRetryCodes, ccCodesForRetry]
      | false =>
        cases peers with
        | nil =>
          simp [QueryCCWithOpts, hsetup, composeRetryOpts, addRetryCodes, ccCodesForRetry]
        | cons peer more =>
          obtain ⟨evs, h1, _, _, _⟩ := queryEach_spec env chClient
            { ChaincodeID := ccID, Fcn := fcn, Args := GetByteArgs rest,
              TransientMap := transientData }
            timeout (composeRetryOpts env w).1 interval (peer :: more) [] ""
            (composeRetryOpts env w).2
          simp only [QueryCCWithOpts, hsetup, Bool.false_eq_true, if_false]
          split <;>
            (rw [h1]; simp [composeRetryOpts, addRetryCodes, ccCodesForRetry])

/-- C5, on the code: two successive dispatches on the example network, whose
base table starts empty. After the first query the base table itself holds
`404` in the group `ChaincodeStatus`; after the second dispatch, an invoke, it
holds `404` twice; the second call is sent with the table that has `404` twice. -/
theorem dispatch_changes_base_table :
    exWorld.ChannelClientRetryableCodes 11 = none ∧
    (QueryCCWithOpts (exEnv exRespond) false "cc" "ch" ["fn"] 0 true 0 []
      [exTarget "T1"] exWorld).2.ChannelClientRetryableCodes 11 = some [404] ∧
    (invokeCCWithArgs (exEnv exRespond) "cc" "ch" [exTarget "T1"] ["fn"] [] "user"
      (QueryCCWithOpts (exEnv exRespond) false "cc" "ch" ["fn"] 0 true 0 []
        [exTarget "T1"] exWorld).2).2.ChannelClientRetryableCodes 11 = some [404, 404] ∧
    (callsOf (invokeCCWithArgs (exEnv exRespond) "cc" "ch" [exTarget "T1"] ["fn"] []
      "user"
      (QueryCCWithOpts (exEnv exRespond) false "cc" "ch" ["fn"] 0 true 0 []
        [exTarget "T1"] exWorld).2).2.trace).map (fun c => c.retry.RetryableCodes 11)
      = [some [404], some [404, 404]] := by
  refine ⟨by decide, by decide, by decide, by decide⟩

/-! ## Resolution before dispatch -/

/-- C10, as stated, fails: on the example network the argument `$\x7bn\x7d`
does not resolve (the variable `n` is not set), yet the error returned is not
the resolution error when the step selects its targets first and that
selection fails: an empty peer list, an unknown peer, an organisation without
peers, an organisation without peers configuration. -/
theorem resolution_error_counterexample :
    ResolveAllVars (exEnv exRespond) exWorld "$\x7bn\x7d" = .error "variable [n] not set" ∧
    (queryCConTargetPeers (exEnv exRespond) "cc" "$\x7bn\x7d" "" "ch" exWorld).1
      = .error (Err.error "no target peers specified") ∧
    (invokeCConTargetPeers (exEnv exRespond) "cc" "$\x7bn\x7d" "T1,T9" "ch" exWorld).1
      = .error (Err.error "peer [T9] not found") ∧
    (queryCConSinglePeerInOrg (exEnv exRespond) "cc" "$\x7bn\x7d" "org2" "ch" exWorld).1
      = .error (Err.error "no peers in org(s) [org2] for channel [ch]") ∧
    (querySystemCC (exEnv exRespond) "cc" "$\x7bn\x7d" "org2" "ch" exWorld).1
      = .error (Err.error "could not get peers config for org [org2]") := by
  refine ⟨by decide, by decide, by decide, by decide, by decide⟩

/-- C10, amended. When `ResolveAllVars` fails on the argument string, every
dispatching step makes no call and does not succeed. `InvokeCC`,
`InvokeCConOrg`, `queryCC` and `queryCConOrg` resolve first and return the
resolution error. `queryCConTargetPeers`, `invokeCConTargetPeers`,
`queryCConSinglePeerInOrg` and `querySystemCC` select their targets first and
return the resolution error when that selection succeeded. -/
theorem resolution_fail_fast (env : Env) (ccID args orgIDs peerIDs orgID channelID : String)
    (w : World) (e : String)
    (hres : ResolveAllVars env w args = .error e) :
    ((InvokeCC env ccID args channelID w).1 = .error (Err.error e) ∧
      newEvents w (InvokeCC env ccID args channelID w).2 = []) ∧
    ((InvokeCConOrg env ccID args orgIDs channelID w).1 = .error (Err.error e) ∧
      newEvents w (InvokeCConOrg env ccID args orgIDs channelID w).2 = []) ∧
    ((queryCC env ccID args channelID w).1 = .error (Err.error e) ∧
      newEvents w (queryCC env ccID args channelID w).2 = []) ∧
    ((queryCConOrg env ccID args orgIDs channelID w).1 = .error (Err.error e) ∧
      newEvents w (queryCConOrg env ccID args orgIDs channelID w).2 = []) ∧
    (newEvents w (queryCConTargetPeers env ccID args peerIDs channelID w).2 = [] ∧
      (∃ err, (queryCConTargetPeers env ccID args peerIDs channelID w).1 = .error err) ∧
      (peerIDs ≠ "" → ∀ ts, Peers env peerIDs = .ok ts →
        (queryCConTargetPeers env ccID args peerIDs channelID w).1
          = .error (Err.error e))) ∧
    (newEvents w (invokeCConTargetPeers env ccID args peerIDs channelID w).2 = [] ∧
      (∃ err, (invokeCConTargetPeers env ccID args peerIDs channelID w).1 = .error err) ∧
      (peerIDs ≠ "" → ∀ ts, Peers env peerIDs = .ok ts →
        (invokeCConTargetPeers env ccID args peerIDs channelID w).1
          = .error (Err.error e))) ∧
    (newEvents w (queryCConSinglePeerInOrg env ccID args orgIDs channelID w).2 = [] ∧
      (∃ err, (queryCConSinglePeerInOrg env ccID args orgIDs channelID w).1 = .error err) ∧
      (OrgPeers env orgIDs channelID ≠ [] →
        ∀ t ts, Shuffle env (OrgPeers env orgIDs channelID) = .ok (t :: ts) →
        (queryCConSinglePeerInOrg env ccID args orgIDs channelID w).1
          = .error (Err.error e))) ∧
    (newEvents w (querySystemCC env ccID args orgID channelID w).2 = [] ∧
      (∃ err, (querySystemCC env ccID args orgID channelID w).1 = .error err) ∧
      (∀ c cs, env.PeersConfig orgID = some (c :: cs) →
        (querySystemCC env ccID args orgID channelID w).1 = .error (Err.error e))) := by
  have hres0 : ResolveAllVars env (clearQueryValue w) args = .error e := hres
  refine ⟨⟨?_, ?_⟩, ⟨?_, ?_⟩, ⟨?_, ?_⟩, ⟨?_, ?_⟩, ⟨?_, ?_, ?_⟩, ⟨?_, ?_, ?_⟩, ⟨?_, ?_, ?_⟩,
    ⟨?_, ?_, ?_⟩⟩
  · simp [InvokeCC, hres]
  · exact newEvents_self w _ (by simp [InvokeCC, hres])
  · simp [InvokeCConOrg, hres]
  · exact newEvents_self w _ (by simp [InvokeCConOrg, hres])
  · simp [queryCC, hres0]
  · exact newEvents_self w _ (by simp only [queryCC, hres0]; rfl)
  · simp [queryCConOrg, hres0]
  · exact newEvents_self w _ (by simp only [queryCConOrg, hres0]; rfl)
  · apply newEvents_self
    simp only [queryCConTargetPeers, hres0]
    split
    · rfl
    · split <;> rfl
  · simp only [queryCConTargetPeers, hres0]
    split
    · exact ⟨_, rfl⟩
    · split <;> exact ⟨_, rfl⟩
  · intro hp ts hts
    simp [queryCConTargetPeers, hres0, hp, hts]
  · apply newEvents_self
    simp only [invokeCConTargetPeers, hres0]
    split
    · rfl
    · split <;> rfl
  · simp only [invokeCConTargetPeers, hres0]
    split
    · exact ⟨_, rfl⟩
    · split <;> exact ⟨_, rfl⟩
  · intro hp ts hts
    simp [invokeCConTargetPeers, hres0, hp, hts]
  · apply newEvents_self
    simp only [queryCConSinglePeerInOrg, hres0]
    split
    · rfl
    · split <;> rfl
  · simp only [queryCConSinglePeerInOrg, hres0]
    split
    · exact ⟨_, rfl⟩
    · split <;> exact ⟨_, rfl⟩
  · intro hp t ts hts
    simp [queryCConSinglePeerInOrg, hres0, hp, hts]
  · apply newEvents_self
    simp only [querySystemCC, hres0]
    split <;> rfl
  · simp only [querySystemCC, hres0]
    split <;> exact ⟨_, rfl⟩
  · intro c cs hc
    simp [querySystemCC, hres0, hc]

/-- C10, amended, on the example network: the argument `$\x7bn\x7d` does not
resolve, the target selections succeed, and each of the eight steps returns the
resolution error without any call. -/
theorem resolution_fail_fast_witness :
    ResolveAllVars (exEnv exRespond) exWorld "$\x7bn\x7d" = .error "variable [n] not set" ∧
    ((InvokeCC (exEnv exRespond) "cc" "$\x7bn\x7d" "ch" exWorld).1
        = .error (Err.error "variable [n] not set") ∧
      newEvents exWorld (InvokeCC (exEnv exRespond) "cc" "$\x7bn\x7d" "ch" exWorld).2 = []) ∧
    ((InvokeCConOrg (exEnv exRespond) "cc" "$\x7bn\x7d" "org1" "ch" exWorld).1
        = .error (Err.error "variable [n] not set") ∧
      newEvents exWorld
        (InvokeCConOrg (exEnv exRespond) "cc" "$\x7bn\x7d" "org1" "ch" exWorld).2 = []) ∧
    ((queryCC (exEnv exRespond) "cc" "$\x7bn\x7d" "ch" exWorld).1
        = .error (Err.error "variable [n] not set") ∧
      newEvents exWorld (queryCC (exEnv exRespond) "cc" "$\x7bn\x7d" "ch" exWorld).2 = []) ∧
    ((queryCConOrg (exEnv exRespond) "cc" "$\x7bn\x7d" "org1" "ch" exWorld).1
        = .error (Err.error "variable [n] not set") ∧
      newEvents exWorld
        (queryCConOrg (exEnv exRespond) "cc" "$\x7bn\x7d" "org1" "ch" exWorld).2 = []) ∧
    ((queryCConTargetPeers (exEnv exRespond) "cc" "$\x7bn\x7d" "T1,T3" "ch" exWorld).1
        = .error (Err.error "variable [n] not set") ∧
      newEvents exWorld
        (queryCConTargetPeers (exEnv exRespond) "cc" "$\x7bn\x7d" "T1,T3" "ch" exWorld).2
        = []) ∧
    ((invokeCConTargetPeers (exEnv exRespond) "cc" "$\x7bn\x7d" "T1,T3" "ch" exWorld).1
        = .error (Err.error "variable [n] not set") ∧
      newEvents exWorld
        (invokeCConTargetPeers (exEnv exRespond) "cc" "$\x7bn\x7d" "T1,T3" "ch" exWorld).2
        = []) ∧
    ((queryCConSinglePeerInOrg (exEnv exRespond) "cc" "$\x7bn\x7d" "org1" "ch" exWorld).1
        = .error (Err.error "variable [n] not set") ∧
      newEvents exWorld
        (queryCConSinglePeerInOrg (exEnv exRespond) "cc" "$\x7bn\x7d" "org1" "ch" exWorld).2
        = []) ∧
    ((querySystemCC (exEnv exRespond) "cc" "$\x7bn\x7d" "org1" "ch" exWorld).1
        = .error (Err.error "variable [n] not set") ∧
      newEvents exWorld
        (querySystemCC (exEnv exRespond) "cc" "$\x7bn\x7d" "org1" "ch" exWorld).2 = []) := by
  obtain ⟨h1, h2, h3, h4, ⟨h5, _, h5e⟩, ⟨h6, _, h6e⟩, ⟨h7, _, h7e⟩, ⟨h8, _, h8e⟩⟩ :=
    resolution_fail_fast (exEnv exRespond) "cc" "$\x7bn\x7d" "org1" "T1,T3" "org1" "ch"
      exWorld "variable [n] not set" (by decide)
  exact ⟨by decide, h1, h2, h3, h4,
    ⟨h5e (by decide) [exTarget "T1", exTarget "T3"] (by decide), h5⟩,
    ⟨h6e (by decide) [exTarget "T1", exTarget "T3"] (by decide), h6⟩,
    ⟨h7e (by decide) (exTarget "T1") [exTarget "T2", exTarget "T3"] (by decide), h7⟩,
    ⟨h8e (exTarget "T1").Config [] (by decide), h8⟩⟩

/-! ## The scenario state after an aborted step -/

/-- The state in which a query step, or `invokeCConTargetPeers`, stops when the
resolution of its arguments fails: the state it started in, with the cached
response cleared. -/
theorem abort_world_resolution (env : Env) (ccID args orgIDs peerIDs orgID channelID : String)
    (w : World) (e : String) (hres : ResolveAllVars env w args = .error e) :
    (queryCC env ccID args channelID w).2 = clearQueryValue w ∧
    (queryCConOrg env ccID args orgIDs channelID w).2 = clearQueryValue w ∧
    (queryCConTargetPeers env ccID args peerIDs channelID w).2 = clearQueryValue w ∧
    (invokeCConTargetPeers env ccID args peerIDs channelID w).2 = clearQueryValue w ∧
    (queryCConSinglePeerInOrg env ccID args orgIDs channelID w).2 = clearQueryValue w ∧
    (querySystemCC env ccID args orgID channelID w).2 = clearQueryValue w := by
  have hres0 : ResolveAllVars env (clearQueryValue w) args = .error e := hres
  refine ⟨?_, ?_, ?_, ?_, ?_, ?_⟩
  · simp only [queryCC, hres0]
  · simp only [queryCConOrg, hres0]
  · simp only [queryCConTargetPeers, hres0]
    split
    · rfl
    · split <;> rfl
  · simp only [invokeCConTargetPeers, hres0]
    split
    · rfl
    · split <;> rfl
  · simp only [queryCConSinglePeerInOrg, hres0]
    split
    · rfl
    · split <;> rfl
  · simp only [querySystemCC, hres0]
    split <;> rfl

/-- The state in which the steps on explicit peers stop when `Peers` fails. -/
theorem abort_world_peers (env : Env) (ccID args peerIDs channelID : String)
    (w : World) (err : Err) (hpeers : Peers env peerIDs = .error err) :
    (queryCConTargetPeers env ccID args peerIDs channelID w).2 = clearQueryValue w ∧
    (invokeCConTargetPeers env ccID args peerIDs channelID w).2 = clearQueryValue w := by
  constructor
  · simp only [queryCConTargetPeers, hpeers]
    split <;> rfl
  · simp only [invokeCConTargetPeers, hpeers]
    split <;> rfl

/-- C11, as stated, fails: on the example network with the cached response
`old`, a `queryCC` whose argument does not resolve, and a `queryCConTargetPeers`
and an `invokeCConTargetPeers` on the unknown peer `T9`, each leave the cached
response empty. -/
theorem abort_side_effect_counterexample :
    GetResponse exWorldOld = "old" ∧
    ResolveAllVars (exEnv exRespond) exWorldOld "$\x7bn\x7d"
      = .error "variable [n] not set" ∧
    GetResponse (queryCC (exEnv exRespond) "cc" "$\x7bn\x7d" "ch" exWorldOld).2 = "" ∧
    Peers (exEnv exRespond) "T9" = .error (Err.error "peer [T9] not found") ∧
    GetResponse (queryCConTargetPeers (exEnv exRespond) "cc" "a" "T9" "ch" exWorldOld).2
      = "" ∧
    GetResponse (invokeCConTargetPeers (exEnv exRespond) "cc" "a" "T9" "ch" exWorldOld).2
      = "" := by
  refine ⟨by decide, by decide, by decide, by decide, by decide, by decide⟩

/-- C11, amended. A step that aborts because `ResolveAllVars` fails, or because
`Peers` reports a missing peer, leaves the variable store as it was. The cached
response is left as it was by `InvokeCC` and `InvokeCConOrg`; the query steps
and `invokeCConTargetPeers` clear it first, so after them it is empty. -/
theorem abort_state (env : Env) (ccID args orgIDs peerIDs orgID channelID : String)
    (w : World) :
    (∀ e, ResolveAllVars env w args = .error e →
      (GetResponse (InvokeCC env ccID args channelID w).2 = GetResponse w ∧
        ∀ v, GetVar (InvokeCC env ccID args channelID w).2 v = GetVar w v) ∧
      (GetResponse (InvokeCConOrg env ccID args orgIDs channelID w).2 = GetResponse w ∧
        ∀ v, GetVar (InvokeCConOrg env ccID args orgIDs channelID w).2 v = GetVar w v) ∧
      (GetResponse (queryCC env ccID args channelID w).2 = "" ∧
        ∀ v, GetVar (queryCC env ccID args channelID w).2 v = GetVar w v) ∧
      (GetResponse (queryCConOrg env ccID args orgIDs channelID w).2 = "" ∧
        ∀ v, GetVar (queryCConOrg env ccID args orgIDs channelID w).2 v = GetVar w v) ∧
      (GetResponse (queryCConTargetPeers env ccID args peerIDs channelID w).2 = "" ∧
        ∀ v, GetVar (queryCConTargetPeers env ccID args peerIDs channelID w).2 v
          = GetVar w v) ∧
      (GetResponse (invokeCConTargetPeers env ccID args peerIDs channelID w).2 = "" ∧
        ∀ v, GetVar (invokeCConTargetPeers env ccID args peerIDs channelID w).2 v
          = GetVar w v) ∧
      (GetResponse (queryCConSinglePeerInOrg env ccID args orgIDs channelID w).2 = "" ∧
        ∀ v, GetVar (queryCConSinglePeerInOrg env ccID args orgIDs channelID w).2 v
          = GetVar w v) ∧
      (GetResponse (querySystemCC env ccID args orgID channelID w).2 = "" ∧
        ∀ v, GetVar (querySystemCC env ccID args orgID channelID w).2 v = GetVar w v)) ∧
    (∀ err, Peers env peerIDs = .error err →
      (GetResponse (queryCConTargetPeers env ccID args peerIDs channelID w).2 = "" ∧
        ∀ v, GetVar (queryCConTargetPeers env ccID args peerIDs channelID w).2 v
          = GetVar w v) ∧
      (GetResponse (invokeCConTargetPeers env ccID args peerIDs channelID w).2 = "" ∧
        ∀ v, GetVar (invokeCConTargetPeers env ccID args peerIDs channelID w).2 v
          = GetVar w v)) := by
  constructor
  · intro e hres
    obtain ⟨h1, h2, h3, h4, h5, h6⟩ :=
      abort_world_resolution env ccID args orgIDs peerIDs orgID channelID w e hres
    refine ⟨⟨?_, ?_⟩, ⟨?_, ?_⟩, ?_, ?_, ?_, ?_, ?_, ?_⟩
    · simp [InvokeCC, hres]
    · intro v
      simp [InvokeCC, hres]
    · simp [InvokeCConOrg, hres]
    · intro v
      simp [InvokeCConOrg, hres]
    · rw [h1]; exact ⟨rfl, fun _ => rfl⟩
    · rw [h2]; exact ⟨rfl, fun _ => rfl⟩
    · rw [h3]; exact ⟨rfl, fun _ => rfl⟩
    · rw [h4]; exact ⟨rfl, fun _ => rfl⟩
    · rw [h5]; exact ⟨rfl, fun _ => rfl⟩
    · rw [h6]; exact ⟨rfl, fun _ => rfl⟩
  · intro err hpeers
    obtain ⟨h1, h2⟩ := abort_world_peers env ccID args peerIDs channelID w err hpeers
    rw [h1, h2]
    exact ⟨⟨rfl, fun _ => rfl⟩, ⟨rfl, fun _ => rfl⟩⟩

/-- C11, amended, on the example network with the cached response `old` and
the variable `v` set: the argument does not resolve and the peer `T9` is not
known; `InvokeCC` leaves the response `old`, the other steps leave it empty,
and the variable `v` keeps its value. -/
theorem abort_state_witness :
    ResolveAllVars (exEnv exRespond) exWorldOld "$\x7bn\x7d"
      = .error "variable [n] not set" ∧
    Peers (exEnv exRespond) "T9" = .error (Err.error "peer [T9] not found") ∧
    (GetResponse (InvokeCC (exEnv exRespond) "cc" "$\x7bn\x7d" "ch" exWorldOld).2
        = GetResponse exWorldOld ∧
      ∀ v, GetVar (InvokeCC (exEnv exRespond) "cc" "$\x7bn\x7d" "ch" exWorldOld).2 v
        = GetVar exWorldOld v) ∧
    (GetResponse (queryCC (exEnv exRespond) "cc" "$\x7bn\x7d" "ch" exWorldOld).2 = "" ∧
      ∀ v, GetVar (queryCC (exEnv exRespond) "cc" "$\x7bn\x7d" "ch" exWorldOld).2 v
        = GetVar exWorldOld v) ∧
    (GetResponse
        (queryCConTargetPeers (exEnv exRespond) "cc" "$\x7bn\x7d" "T9" "ch" exWorldOld).2
        = "" ∧
      ∀ v, GetVar
        (queryCConTargetPeers (exEnv exRespond) "cc" "$\x7bn\x7d" "T9" "ch" exWorldOld).2 v
        = GetVar exWorldOld v) ∧
    (GetResponse
        (invokeCConTargetPeers (exEnv exRespond) "cc" "$\x7bn\x7d" "T9" "ch" exWorldOld).2
        = "" ∧
      ∀ v, GetVar
        (invokeCConTargetPeers (exEnv exRespond) "cc" "$\x7bn\x7d" "T9" "ch" exWorldOld).2 v
        = GetVar exWorldOld v) := by
  obtain ⟨h1, h2⟩ := abort_state (exEnv exRespond) "cc" "$\x7bn\x7d" "org1" "T9" "org1" "ch"
    exWorldOld
  obtain ⟨k1, _, k3, _, _, _, _, _⟩ := h1 "variable [n] not set" (by decide)
  obtain ⟨k9, k10⟩ := h2 (Err.error "peer [T9] not found") (by decide)
  exact ⟨by decide, by decide, k1, k3, k9, k10⟩

/-! ## Target selection -/

/-- The loop of `Peers`: when every ID is known, the peers found are appended
in the order of the IDs. -/
theorem peersLoop_found (env : Env) :
    ∀ (ids : List String) (acc : List PeerConfig),
      (∀ id ∈ ids, (env.PeerConfigForID id).isSome) →
      ∃ ps, peersLoop env ids acc = .ok (acc ++ ps) ∧
        List.Forall₂ (fun id p => env.PeerConfigForID id = some p) ids ps := by
  intro ids
  induction ids with
  | nil =>
    intro acc _
    exact ⟨[], by simp [peersLoop], List.Forall₂.nil⟩
  | cons id rest ih =>
    intro acc h
    cases hp : env.PeerConfigForID id with
    | none =>
      have := h id (List.mem_cons_self _ _)
      simp [hp] at this
    | some peer =>
      obtain ⟨ps, h1, h2⟩ := ih (acc ++ [peer])
        (fun x hx => h x (List.mem_cons_of_mem _ hx))
      exact ⟨peer :: ps, by simp [peersLoop, hp, h1], List.Forall₂.cons hp h2⟩

/-- The loop of `Peers`: when some ID is unknown, the loop fails at the first
unknown ID. -/
theorem peersLoop_missing (env : Env) :
    ∀ (ids : List String) (acc : List PeerConfig),
      (∃ id ∈ ids, env.PeerConfigForID id = none) →
      ∃ pre id post, ids = pre ++ id :: post ∧
        (∀ x ∈ pre, (env.PeerConfigForID x).isSome) ∧
        env.PeerConfigForID id = none ∧
        peersLoop env ids acc = .error (Err.error ("peer [" ++ id ++ "] not found")) := by
  intro ids
  induction ids with
  | nil =>
    intro acc h
    obtain ⟨id, hid, _⟩ := h
    cases hid
  | cons id rest ih =>
    intro acc h
    cases hp : env.PeerConfigForID id with
    | none =>
      exact ⟨[], id, rest, rfl, by simp, hp, by simp [peersLoop, hp]⟩
    | some peer =>
      have h1 : ∃ x ∈ rest, env.PeerConfigForID x = none := by
        obtain ⟨x, hx, hx2⟩ := h
        rcases List.mem_cons.1 hx with rfl | hx
        · rw [hp] at hx2
          cases hx2
        · exact ⟨x, hx, hx2⟩
      obtain ⟨pre, x, post, h2, h3, h4, h5⟩ := ih (acc ++ [peer]) h1
      refine ⟨id :: pre, x, post, by simp [h2], ?_, h4, by simp [peersLoop, hp, h5]⟩
      intro y hy
      rcases List.mem_cons.1 hy with rfl | hy
      · simp [hp]
      · exact h3 y hy

/-- C17. `Peers` on a comma-separated ID list: when some ID has no peer in the
topology it fails with the error `peer [ID] not found` of the first such ID and
returns no targets; when every ID has a peer it returns one target per listed
ID, in the order of the list, each the topology's peer for that ID. -/
theorem Peers_selection (env : Env) (peerIDs : String) :
    ((∃ id ∈ Split peerIDs ',', env.PeerConfigForID id = none) →
      ∃ pre id post, Split peerIDs ',' = pre ++ id :: post ∧
        (∀ x ∈ pre, (env.PeerConfigForID x).isSome) ∧
        env.PeerConfigForID id = none ∧
        Peers env peerIDs = .error (Err.error ("peer [" ++ id ++ "] not found"))) ∧
    ((∀ id ∈ Split peerIDs ',', (env.PeerConfigForID id).isSome) →
      ∃ ps, Peers env peerIDs = .ok ps ∧
        List.Forall₂ (fun id p => env.PeerConfigForID id = some p)
          (Split peerIDs ',') ps) := by
  constructor
  · intro h
    exact peersLoop_missing env (Split peerIDs ',') [] h
  · intro h
    obtain ⟨ps, h1, h2⟩ := peersLoop_found env (Split peerIDs ',') [] h
    exact ⟨ps, by simpa [Peers] using h1, h2⟩

/-- C17, on the example network: the list `T3,T1` gives the peers `T3`, `T1` in
that order; the list `T1,T9,T8` fails at `T9`. -/
theorem Peers_selection_witness :
    Split "T3,T1" ',' = ["T3", "T1"] ∧
    Peers (exEnv exRespond) "T3,T1" = .ok [exTarget "T3", exTarget "T1"] ∧
    Peers (exEnv exRespond) "T1,T9,T8" = .error (Err.error "peer [T9] not found") ∧
    (∃ pre id post, Split "T1,T9,T8" ',' = pre ++ id :: post ∧
        (∀ x ∈ pre, ((exEnv exRespond).PeerConfigForID x).isSome) ∧
        (exEnv exRespond).PeerConfigForID id = none ∧
        Peers (exEnv exRespond) "T1,T9,T8"
          = .error (Err.error ("peer [" ++ id ++ "] not found"))) ∧
    (∃ ps, Peers (exEnv exRespond) "T3,T1" = .ok ps ∧
        List.Forall₂ (fun id p => (exEnv exRespond).PeerConfigForID id = some p)
          (Split "T3,T1" ',') ps) :=
  ⟨by decide, by decide, by decide,
   (Peers_selection (exEnv exRespond) "T1,T9,T8").1 ⟨"T9", by decide, by decide⟩,
   (Peers_selection (exEnv exRespond) "T3,T1").2 (by decide)⟩

/-- The loop of `OrgPeers`, from any list of peers already selected. -/
theorem orgPeers_foldl (orgMap : Option (List String)) :
    ∀ (l acc : List PeerConfig),
      l.foldl
        (fun peers pconfig =>
          match orgMap with
          | none => peers ++ [pconfig]
          | some m => if pconfig.OrgID ∈ m then peers ++ [pconfig] else peers)
        acc
      = acc ++ l.filter (fun pconfig =>
          match orgMap with
          | none => true
          | some m => decide (pconfig.OrgID ∈ m)) := by
  intro l
  induction l with
  | nil => intro acc; simp
  | cons a l ih =>
    intro acc
    rw [List.foldl_cons, ih]
    cases orgMap with
    | none => simp
    | some m =>
      by_cases h : a.OrgID ∈ m
      · simp [h]
      · simp [h]

/-- C18. `OrgPeers`: with an empty filter the result is the channel's targets;
with a non-empty comma-separated list of organisation IDs it is the channel's
targets whose organisation is one of the listed IDs, in the order of the
topology, none dropped, added or repeated. -/
theorem OrgPeers_filter (env : Env) (channelID : String) :
    OrgPeers env "" channelID = env.PeersByChannel channelID ∧
    ∀ orgIDs : String, orgIDs ≠ "" →
      OrgPeers env orgIDs channelID
        = (env.PeersByChannel channelID).filter
            (fun pconfig => decide (pconfig.OrgID ∈ Split orgIDs ',')) := by
  constructor
  · have h := orgPeers_foldl none (env.PeersByChannel channelID) []
    simpa [OrgPeers] using h
  · intro orgIDs h
    have h2 := orgPeers_foldl (some (Split orgIDs ',')) (env.PeersByChannel channelID) []
    simpa [OrgPeers, h] using h2

/-- C18, on the example network with peers of two organisations: the filter
`org2,org3` keeps the two peers of `org2`, in the order of the topology. -/
theorem OrgPeers_filter_witness :
    OrgPeers exEnvTwoOrgs "" "ch"
      = [exTarget "T1", exTargetOf "org2" "U1", exTarget "T2", exTargetOf "org2" "U2"] ∧
    OrgPeers exEnvTwoOrgs "org2,org3" "ch"
      = [exTargetOf "org2" "U1", exTargetOf "org2" "U2"] ∧
    (OrgPeers exEnvTwoOrgs "" "ch" = exEnvTwoOrgs.PeersByChannel "ch" ∧
      OrgPeers exEnvTwoOrgs "org2,org3" "ch"
        = (exEnvTwoOrgs.PeersByChannel "ch").filter
            (fun pconfig => decide (pconfig.OrgID ∈ Split "org2,org3" ','))) :=
  ⟨by decide, by decide, (OrgPeers_filter exEnvTwoOrgs "ch").1,
   (OrgPeers_filter exEnvTwoOrgs "ch").2 "org2,org3" (by decide)⟩

/-- The loop of `Shuffle`: when every index is within the sequence, the loop
appends the elements at these indices, in the order of the indices. -/
theorem shuffleLoop_ok (p : List PeerConfig) :
    ∀ (is : List Nat) (acc : List PeerConfig),
      (∀ i ∈ is, i < p.length) →
      shuffleLoop p is acc = .ok (acc ++ is.filterMap p.get?) := by
  intro is
  induction is with
  | nil => intro acc _; simp [shuffleLoop]
  | cons i rest ih =>
    intro acc h
    have hi : i < p.length := h i (List.mem_cons_self _ _)
    have hget : p.get? i = some p[i] := by
      simp [List.getElem?_eq_getElem hi]
    simp only [shuffleLoop, hget, List.filterMap_cons]
    rw [ih (acc ++ [p[i]]) (fun j hj => h j (List.mem_cons_of_mem _ hj))]
    simp

/-- Reading a sequence at the indices `0, 1, ...` of its length gives it back. -/
theorem range_filterMap_get? {α : Type} (p : List α) :
    (List.range p.length).filterMap p.get? = p := by
  induction p with
  | nil => rfl
  | cons a p ih =>
    rw [List.length_cons, List.range_succ_eq_map, List.filterMap_cons]
    simp only [List.get?_cons_zero, List.filterMap_map]
    have hf : (List.get? (a :: p)) ∘ Nat.succ = p.get? := by
      funext i
      rfl
    rw [hf, ih]

/-- C19. `Shuffle` with the indices of a permutation of `0, ..., len(p) - 1`
from the permutation source returns a permutation of `p`: the same elements
with the same multiplicities, hence the same length; and for a non-empty `p` its
first element, the target picked, is a member of `p`. -/
theorem Shuffle_perm (env : Env) (p : List PeerConfig)
    (hperm : (env.randPerm p.length).Perm (List.range p.length)) :
    ∃ q, Shuffle env p = .ok q ∧ q.Perm p ∧ q.length = p.length ∧
      (p ≠ [] → ∃ t ts, q = t :: ts ∧ t ∈ p) := by
  have hlt : ∀ i ∈ env.randPerm p.length, i < p.length := by
    intro i hi
    exact List.mem_range.1 (hperm.mem_iff.1 hi)
  have hq : (List.filterMap p.get? (env.randPerm p.length)).Perm p := by
    have h1 := List.Perm.filterMap p.get? hperm
    rwa [range_filterMap_get?] at h1
  refine ⟨(env.randPerm p.length).filterMap p.get?, ?_, hq, hq.length_eq, ?_⟩
  · simp [Shuffle, shuffleLoop_ok p _ [] hlt]
  · intro hne
    cases hqs : List.filterMap p.get? (env.randPerm p.length) with
    | nil =>
      rw [hqs] at hq
      exact absurd hq.symm.eq_nil hne
    | cons t ts =>
      refine ⟨t, ts, rfl, ?_⟩
      rw [hqs] at hq
      exact hq.mem_iff.1 (List.mem_cons_self _ _)

/-- C19, on the example network with a permutation source that reverses the
indices: `T1`, `T2`, `T3` are shuffled to `T3`, `T2`, `T1`, and `T3` is picked. -/
theorem Shuffle_perm_witness :
    (exEnvReverse.randPerm [exTarget "T1", exTarget "T2", exTarget "T3"].length).Perm
      (List.range [exTarget "T1", exTarget "T2", exTarget "T3"].length) ∧
    Shuffle exEnvReverse [exTarget "T1", exTarget "T2", exTarget "T3"]
      = .ok [exTarget "T3", exTarget "T2", exTarget "T1"] ∧
    ∃ q, Shuffle exEnvReverse [exTarget "T1", exTarget "T2", exTarget "T3"] = .ok q ∧
      q.Perm [exTarget "T1", exTarget "T2", exTarget "T3"] ∧
      q.length = [exTarget "T1", exTarget "T2", exTarget "T3"].length ∧
      ([exTarget "T1", exTarget "T2", exTarget "T3"] ≠ [] →
        ∃ t ts, q = t :: ts ∧ t ∈ [exTarget "T1", exTarget "T2", exTarget "T3"]) :=
  ⟨by decide, by decide,
   Shuffle_perm exEnvReverse [exTarget "T1", exTarget "T2", exTarget "T3"] (by decide)⟩

/-! ## The warm-up loop -/

/-- The sequential loop without interval only appends calls to the trace. -/
theorem queryEach_no_sleep (env : Env) (chClient : ChClient) (req : Request) (timeout : Int)
    (retryOpts : RetryOpts) :
    ∀ (ps : List Peer) (errs : List String) (queryResult : String) (w : World),
      ∃ evs,
        (queryEach env chClient req timeout retryOpts 0 ps errs queryResult w).2.2.trace
            = w.trace ++ evs ∧
        sleepsOf evs = [] := by
  intro ps
  induction ps with
  | nil =>
    intro errs queryResult w
    exact ⟨[], by simp [queryEach], rfl⟩
  | cons peer rest ih =>
    intro errs queryResult w
    simp only [queryEach, chCall, gt_iff_lt, lt_self_iff_false, if_false]
    generalize hc : Call.mk CallKind.Query chClient req [peer] (some timeout) retryOpts = c
    generalize env.respond w.trace c = out
    generalize hw : ({ w with trace := w.trace ++ [Event.call c out] } : World) = w1
    have hw1 : w1.trace = w.trace ++ [Event.call c out] := by rw [← hw]
    cases out with
    | error e =>
      obtain ⟨evs, h1, h2⟩ := ih (errs ++ [e]) queryResult w1
      refine ⟨Event.call c (.error e) :: evs, ?_, ?_⟩
      · simpa [hw1] using h1
      · simpa [sleepsOf, Event.sleep?] using h2
    | ok resp =>
      obtain ⟨evs, h1, h2⟩ := ih errs resp.Payload w1
      refine ⟨Event.call c (.ok resp) :: evs, ?_, ?_⟩
      · simpa [hw1] using h1
      · simpa [sleepsOf, Event.sleep?] using h2

/-- The query of one pass of the warm-up loop only appends calls to the trace. -/
theorem warmUpQuery_no_sleep (env : Env) (ccID orgIDs channelID : String) (w : World) :
    ∃ evs, (warmUpQuery env ccID orgIDs channelID w).2.trace = w.trace ++ evs ∧
      sleepsOf evs = [] := by
  unfold warmUpQuery
  cases hs : querySetup env channelID (OrgPeers env orgIDs channelID) with
  | error e => exact ⟨[], by simp [QueryCCWithOpts, hs], rfl⟩
  | ok r =>
    obtain ⟨peers, orgID, chClient⟩ := r
    cases peers with
    | nil => exact ⟨[], by simp [QueryCCWithOpts, hs, composeRetryOpts], rfl⟩
    | cons peer more =>
      obtain ⟨evs, h1, h2⟩ := queryEach_no_sleep env chClient
        { ChaincodeID := ccID, Fcn := "warmup", Args := GetByteArgs [],
          TransientMap := [] }
        (5 * Minute) (composeRetryOpts env w).1 (peer :: more) [] ""
        (composeRetryOpts env w).2
      refine ⟨evs, ?_, h2⟩
      simp only [QueryCCWithOpts, hs, Bool.false_eq_true, if_false]
      split <;> (rw [h1]; simp [composeRetryOpts])

/-- The warm-up loop after `n` failing passes and a pass that ends it, with its
trace: what the loop appends holds exactly `n` sleeps, each of five seconds. -/
theorem warmUp_run (env : Env) (ccID orgIDs channelID : String) :
    ∀ (n fuel : Nat) (w : World),
      (∀ i < n, ∃ msg,
        (warmUpQuery env ccID orgIDs channelID
          ((warmUpRetry env ccID orgIDs channelID)^[i] w)).1 = .error (Err.error msg) ∧
        Contains msg "premature execution - chaincode" = true) →
      ((∃ v, (warmUpQuery env ccID orgIDs channelID
          ((warmUpRetry env ccID orgIDs channelID)^[n] w)).1 = .ok v) ∨
        (∃ msg, (warmUpQuery env ccID orgIDs channelID
          ((warmUpRetry env ccID orgIDs channelID)^[n] w)).1 = .error (Err.error msg) ∧
          Contains msg "premature execution - chaincode" = false)) →
      n < fuel →
      warmUpCConOrg env ccID orgIDs channelID fuel w
        = (some (.ok ()), (warmUpQuery env ccID orgIDs channelID
            ((warmUpRetry env ccID orgIDs channelID)^[n] w)).2) ∧
      ∃ evs, (warmUpQuery env ccID orgIDs channelID
            ((warmUpRetry env ccID orgIDs channelID)^[n] w)).2.trace = w.trace ++ evs ∧
        sleepsOf evs = List.replicate n (5 * Second) := by
  intro n
  induction n with
  | zero =>
    intro fuel w _ hlast hfuel
    obtain ⟨f, rfl⟩ : ∃ f, fuel = f + 1 := ⟨fuel - 1, by omega⟩
    simp only [Function.iterate_zero, id_eq] at hlast ⊢
    refine ⟨?_, ?_⟩
    · rcases hlast with ⟨v, hv⟩ | ⟨msg, hm, hc⟩
      · simp [warmUpCConOrg, hv]
      · simp [warmUpCConOrg, hm, hc]
    · obtain ⟨evs, h1, h2⟩ := warmUpQuery_no_sleep env ccID orgIDs channelID w
      exact ⟨evs, h1, by simpa using h2⟩
  | succ n ih =>
    intro fuel w hfail hlast hfuel
    obtain ⟨f, rfl⟩ : ∃ f, fuel = f + 1 := ⟨fuel - 1, by omega⟩
    obtain ⟨msg, hm, hc⟩ := hfail 0 (by omega)
    simp only [Function.iterate_zero, id_eq] at hm
    have hfail1 : ∀ i < n, ∃ msg,
        (warmUpQuery env ccID orgIDs channelID
          ((warmUpRetry env ccID orgIDs channelID)^[i]
            (warmUpRetry env ccID orgIDs channelID w))).1 = .error (Err.error msg) ∧
        Contains msg "premature execution - chaincode" = true := by
      intro i hi
      have := hfail (i + 1) (by omega)
      rwa [Function.iterate_succ_apply] at this
    rw [Function.iterate_succ_apply] at hlast ⊢
    obtain ⟨h1, evs, h2, h3⟩ := ih f (warmUpRetry env ccID orgIDs channelID w) hfail1 hlast
      (by omega)
    refine ⟨?_, ?_⟩
    · rw [← h1]
      simp [warmUpCConOrg, hm, hc, warmUpRetry]
    · obtain ⟨evs0, h4, h5⟩ := warmUpQuery_no_sleep env ccID orgIDs channelID w
      refine ⟨evs0 ++ Event.sleep (5 * Second) :: evs, ?_, ?_⟩
      · rw [h2]
        simp [warmUpRetry, timeSleep, h4]
      · simp only [sleepsOf, List.filterMap_append, List.filterMap_cons, Event.sleep?] at h3 h5 ⊢
        rw [h5, h3]
        rfl

/-- C20. The warm-up loop, when its first `n` passes fail with an error that
contains `premature execution - chaincode` and pass `n + 1` succeeds or fails
with another error: with any fuel above `n` the loop returns `nil`, in the state
reached by `n` passes each followed by a sleep of five seconds and then one more
pass without sleep, so after exactly `n + 1` passes; what it appends to the
trace holds exactly `n` sleeps, each of five seconds. -/
theorem warmUp_terminates (env : Env) (ccID orgIDs channelID : String) (n fuel : Nat)
    (w : World)
    (hfail : ∀ i < n, ∃ msg,
      (warmUpQuery env ccID orgIDs channelID
        ((warmUpRetry env ccID orgIDs channelID)^[i] w)).1 = .error (Err.error msg) ∧
      Contains msg "premature execution - chaincode" = true)
    (hlast : (∃ v, (warmUpQuery env ccID orgIDs channelID
        ((warmUpRetry env ccID orgIDs channelID)^[n] w)).1 = .ok v) ∨
      (∃ msg, (warmUpQuery env ccID orgIDs channelID
        ((warmUpRetry env ccID orgIDs channelID)^[n] w)).1 = .error (Err.error msg) ∧
        Contains msg "premature execution - chaincode" = false))
    (hfuel : n < fuel) :
    warmUpCConOrg env ccID orgIDs channelID fuel w
      = (some (.ok ()), (warmUpQuery env ccID orgIDs channelID
          ((warmUpRetry env ccID orgIDs channelID)^[n] w)).2) ∧
    sleepsOf (newEvents w (warmUpCConOrg env ccID orgIDs channelID fuel w).2)
      = List.replicate n (5 * Second) := by
  obtain ⟨h1, evs, h2, h3⟩ := warmUp_run env ccID orgIDs channelID n fuel w hfail hlast hfuel
  refine ⟨h1, ?_⟩
  rw [h1, newEvents_append w _ evs h2, h3]

/-- C20, on the example network with the single peer `T1` and a boundary that
fails twice with the transient message and then succeeds: the loop returns
`nil` after three passes and two sleeps of five seconds. -/
theorem warmUp_terminates_witness :
    (warmUpQuery (exEnvOne exRespondWarm) "cc" "" "ch" exWorld).1
      = .error (Err.error
          "QueryChaincode return error: premature execution - chaincode (cc) is being launched") ∧
    (warmUpQuery (exEnvOne exRespondWarm) "cc" "" "ch"
        ((warmUpRetry (exEnvOne exRespondWarm) "cc" "" "ch")^[2] exWorld)).1
      = .ok "ready" ∧
    (warmUpCConOrg (exEnvOne exRespondWarm) "cc" "" "ch" 3 exWorld).1 = some (.ok ()) ∧
    (callsOf (newEvents exWorld
      (warmUpCConOrg (exEnvOne exRespondWarm) "cc" "" "ch" 3 exWorld).2)).length = 3 ∧
    (warmUpCConOrg (exEnvOne exRespondWarm) "cc" "" "ch" 3 exWorld
        = (some (.ok ()), (warmUpQuery (exEnvOne exRespondWarm) "cc" "" "ch"
            ((warmUpRetry (exEnvOne exRespondWarm) "cc" "" "ch")^[2] exWorld)).2) ∧
      sleepsOf (newEvents exWorld
        (warmUpCConOrg (exEnvOne exRespondWarm) "cc" "" "ch" 3 exWorld).2)
        = List.replicate 2 (5 * Second)) :=
  ⟨by decide, by decide, by decide, by decide,
   warmUp_terminates (exEnvOne exRespondWarm) "cc" "" "ch" 2 3 exWorld
     (by
       intro i hi
       refine ⟨"QueryChaincode return error: premature execution - chaincode (cc) is being launched",
         ?_, by decide⟩
       interval_cases i
       · decide
       · decide)
     (Or.inl ⟨"ready", by decide⟩) (by decide)⟩

/-! ## The template resolver -/

/-- On success `ResolveAll` returns one resolved token per token, in order. -/
theorem ResolveAll_ok (vars : String → Option String) :
    ∀ (args rs : List String), ResolveAll vars args = .ok rs →
      List.Forall₂ (fun arg r => Resolve vars arg = .ok r) args rs := by
  intro args
  induction args with
  | nil =>
    intro rs h
    simp only [ResolveAll, Except.ok.injEq] at h
    subst h
    exact List.Forall₂.nil
  | cons arg args ih =>
    intro rs h
    simp only [ResolveAll] at h
    cases h1 : Resolve vars arg with
    | error err => simp [h1] at h
    | ok v =>
      cases h2 : ResolveAll vars args with
      | error err => simp [h1, h2] at h
      | ok vs =>
        simp only [h1, h2, Except.ok.injEq] at h
        subst h
        exact List.Forall₂.cons h1 (ih vs h2)

/-- C12. `ResolveAllVars` splits the raw argument string on `,` first and hands
the tokens to `ResolveAll`; with the modelled `ResolveAll`, on success the
result has one element per comma-separated token of the raw string, the i-th
being the resolved i-th token, whatever commas the resolved values hold. -/
theorem ResolveAllVars_splits_first (env : Env) (w : World) (args : String) :
    ResolveAllVars env w args = env.ResolveAll w.vars (Split args ',') ∧
    ∀ rs, ResolveAllVars (withResolver env) w args = .ok rs →
      rs.length = (Split args ',').length ∧
      List.Forall₂ (fun arg r => Resolve w.vars arg = .ok r) (Split args ',') rs := by
  refine ⟨rfl, ?_⟩
  intro rs h
  have h1 : ResolveAll w.vars (Split args ',') = .ok rs := by
    simp only [ResolveAllVars, withResolver] at h
    cases h2 : ResolveAll w.vars (Split args ',') with
    | error err => simp [h2] at h
    | ok vs =>
      simp only [h2, Except.ok.injEq] at h
      rw [h]
  have h3 := ResolveAll_ok w.vars (Split args ',') rs h1
  exact ⟨h3.length_eq.symm, h3⟩

/-- C12, on the example store, where `v` is `a,b,c`: the raw string
`$\x7bv\x7d,z` has two tokens and resolves to the two elements `a,b,c` and `z`. -/
theorem ResolveAllVars_splits_first_witness :
    Split "$\x7bv\x7d,z" ',' = ["$\x7bv\x7d", "z"] ∧
    ResolveAllVars (withResolver (exEnv exRespond)) exWorldVars "$\x7bv\x7d,z"
      = .ok ["a,b,c", "z"] ∧
    (["a,b,c", "z"].length = (Split "$\x7bv\x7d,z" ',').length ∧
      List.Forall₂ (fun arg r => Resolve exWorldVars.vars arg = .ok r)
        (Split "$\x7bv\x7d,z" ',') ["a,b,c", "z"]) :=
  ⟨by decide, by decide,
   (ResolveAllVars_splits_first (exEnv exRespond) exWorldVars "$\x7bv\x7d,z").2
     ["a,b,c", "z"] (by decide)⟩

theorem splitClose_length :
    ∀ (cs content rest : List Char), splitClose cs = some (content, rest) →
      rest.length < cs.length := by
  intro cs
  induction cs with
  | nil => intro content rest h; simp [splitClose] at h
  | cons c cs ih =>
    intro content rest h
    simp only [splitClose] at h
    split at h
    · simp only [Option.some.injEq, Prod.mk.injEq] at h
      rw [← h.2]
      simp
    · cases h1 : splitClose cs with
      | none => simp [h1] at h
      | some r =>
        obtain ⟨content1, rest1⟩ := r
        simp only [h1, Option.some.injEq, Prod.mk.injEq] at h
        have := ih content1 rest1 h1
        rw [← h.2]
        simp only [List.length_cons]
        omega

theorem matchPlaceholder_length (cs : List Char) (e : Expr) (rest : List Char)
    (h : matchPlaceholder cs = some (e, rest)) : rest.length < cs.length := by
  cases cs with
  | nil => simp [matchPlaceholder] at h
  | cons c1 cs =>
    cases cs with
    | nil => simp [matchPlaceholder] at h
    | cons c2 body =>
      simp only [matchPlaceholder] at h
      split at h
      · cases h1 : splitClose body with
        | none => simp [h1] at h
        | some r =>
          obtain ⟨content, rest1⟩ := r
          have hlen := splitClose_length body content rest1 h1
          cases h2 : parseExpr content with
          | none => simp [h1, h2] at h
          | some e1 =>
            simp only [h1, h2, Option.some.injEq, Prod.mk.injEq] at h
            rw [← h.2]
            simp only [List.length_cons]
            omega
      · cases h

/-- The scan does not depend on its bound once the bound is at least the
length of the text: the steps never run out. -/
theorem scanFuel_enough :
    ∀ (n : Nat) (cs : List Char) (m : Nat), cs.length ≤ n → cs.length ≤ m →
      scanFuel n cs = scanFuel m cs := by
  intro n
  induction n with
  | zero =>
    intro cs m hn _
    have : cs = [] := List.length_eq_zero.1 (by omega)
    subst this
    cases m <;> rfl
  | succ n ih =>
    intro cs m hn hm
    cases cs with
    | nil => cases m <;> rfl
    | cons c cs =>
      obtain ⟨k, rfl⟩ : ∃ k, m = k + 1 := ⟨m - 1, by simp at hm; omega⟩
      simp only [List.length_cons] at hn hm
      simp only [scanFuel]
      cases h : matchPlaceholder (c :: cs) with
      | none =>
        simp only []
        rw [ih cs k (by omega) (by omega)]
      | some r =>
        obtain ⟨e, rest⟩ := r
        have hlen := matchPlaceholder_length (c :: cs) e rest h
        simp only [List.length_cons] at hlen
        simp only []
        rw [ih rest k (by omega) (by omega)]

theorem scanFuel_nil (n : Nat) : scanFuel n [] = [] := by
  cases n <;> rfl

theorem identChar_ne_close (c : Char) (h : isIdentChar c = true) : c ≠ '}' := by
  intro hc
  subst hc
  exact absurd h (by decide)

theorem splitClose_append :
    ∀ (content rest : List Char), (∀ c ∈ content, c ≠ '}') →
      splitClose (content ++ '}' :: rest) = some (content, rest) := by
  intro content
  induction content with
  | nil => intro rest _; simp [splitClose]
  | cons c cs ih =>
    intro rest h
    have hc : c ≠ '}' := h c (List.mem_cons_self _ _)
    simp [splitClose, hc, ih rest (fun x hx => h x (List.mem_cons_of_mem _ hx))]

theorem parseExpr_ident (id : List Char) (h : validIdent id) :
    parseExpr id = some (Expr.ident id) := by
  have hall : id.all isIdentChar = true := List.all_eq_true.2 h.2
  simp [parseExpr, h.1, hall]

theorem matchPlaceholder_ident (id rest : List Char) (h : validIdent id) :
    matchPlaceholder ('$' :: '{' :: (id ++ '}' :: rest)) = some (Expr.ident id, rest) := by
  simp [matchPlaceholder,
    splitClose_append id rest (fun c hc => identChar_ne_close c (h.2 c hc)),
    parseExpr_ident id h]

theorem matchPlaceholder_none (c : Char) (cs : List Char)
    (h : c ≠ '$' ∨ cs.head? ≠ some '{') : matchPlaceholder (c :: cs) = none := by
  cases cs with
  | nil => rfl
  | cons d cs =>
    simp only [matchPlaceholder]
    rw [if_neg]
    rintro ⟨h1, h2⟩
    rcases h with h | h
    · exact h h1
    · exact h (by simp [h2])

/-- Scanning plain text: no placeholder starts in it. -/
theorem scanFuel_text :
    ∀ (lit tail : List Char) (n : Nat), ¬ ['$', '{'] <:+: lit →
      tail.head? ≠ some '{' → lit.length + tail.length ≤ n →
      scanFuel n (lit ++ tail) = lit.map Segment.text ++ scanFuel (n - lit.length) tail := by
  intro lit
  induction lit with
  | nil => intro tail n _ _ _; simp
  | cons c l ih =>
    intro tail n hlit htail hn
    obtain ⟨m, rfl⟩ : ∃ m, n = m + 1 := ⟨n - 1, by simp at hn; omega⟩
    have hl : ¬ ['$', '{'] <:+: l := fun h => hlit (h.trans (List.suffix_cons c l).isInfix)
    have hnone : matchPlaceholder (c :: (l ++ tail)) = none := by
      apply matchPlaceholder_none
      by_cases hc : c = '$'
      · right
        cases l with
        | nil => simpa using htail
        | cons d l1 =>
          intro hd
          simp only [List.cons_append, List.head?_cons, Option.some.injEq] at hd
          apply hlit
          rw [hc, hd]
          exact ⟨[], l1, by simp⟩
      · exact Or.inl hc
    have hm : l.length + tail.length ≤ m := by simp at hn; omega
    have hstep : scanFuel (m + 1) (c :: (l ++ tail))
        = Segment.text c :: scanFuel m (l ++ tail) := by
      simp only [scanFuel, hnone]
    rw [List.cons_append, hstep, ih tail m hl htail hm]
    simp

theorem evalSegments_text (vars : String → Option String) (segs : List Segment)
    (out : List Char) (h : evalSegments vars segs = .ok out) :
    ∀ lit : List Char,
      evalSegments vars (lit.map Segment.text ++ segs) = .ok (lit ++ out) := by
  intro lit
  induction lit with
  | nil => simpa using h
  | cons c l ih => simp [evalSegments, ih]

/-- Scanning and substituting a token made of plain text and simple references
whose identifiers are bound, with any sufficient number of steps. -/
theorem evalSegments_tokenText (vars : String → Option String) (val : List Char → String) :
    ∀ (parts : List (List Char × List Char)) (lit0 : List Char) (n : Nat),
      ¬ ['$', '{'] <:+: lit0 →
      (∀ x ∈ parts, validIdent x.1 ∧ vars (String.mk x.1) = some (val x.1) ∧
        ¬ ['$', '{'] <:+: x.2) →
      (tokenText lit0 parts).length ≤ n →
      evalSegments vars (scanFuel n (tokenText lit0 parts))
        = .ok (tokenValue val lit0 parts) := by
  intro parts
  induction parts with
  | nil =>
    intro lit0 n hlit0 _ hn
    have h := scanFuel_text lit0 [] n hlit0 (by simp) (by simpa [tokenText] using hn)
    simp only [List.append_nil, scanFuel_nil] at h
    rw [tokenText, h, tokenValue]
    have := evalSegments_text vars [] [] rfl lit0
    simpa using this
  | cons x parts ih =>
    obtain ⟨id, lit⟩ := x
    intro lit0 n hlit0 hparts hn
    obtain ⟨hid, hval, hlit⟩ := hparts (id, lit) (List.mem_cons_self _ _)
    simp only [tokenText, List.length_append, List.length_cons] at hn
    have h := scanFuel_text lit0 ('$' :: '{' :: (id ++ '}' :: tokenText lit parts)) n hlit0
      (by simp) (by simp only [List.length_cons, List.length_append]; omega)
    obtain ⟨m, hm⟩ : ∃ m, n - lit0.length = m + 1 := ⟨n - lit0.length - 1, by omega⟩
    have hrest := ih lit m hlit (fun y hy => hparts y (List.mem_cons_of_mem _ hy))
      (by omega)
    rw [hm] at h
    simp only [scanFuel, matchPlaceholder_ident id _ hid] at h
    simp only [tokenText, tokenValue, List.append_assoc, List.cons_append]
    rw [h]
    apply evalSegments_text
    simp [evalSegments, evalExpr, hval, hrest]

/-- C13. A token made of plain text (text in which `$` is nowhere followed by
an opening brace) and of simple references whose identifiers are all bound
resolves to the token with each placeholder replaced by the bound value of its
identifier and every other character unchanged; with no placeholder at all, the
token resolves to itself. -/
theorem Resolve_simple_references (vars : String → Option String)
    (val : List Char → String) (lit0 : List Char) (parts : List (List Char × List Char))
    (hlit0 : ¬ ['$', '{'] <:+: lit0)
    (hparts : ∀ x ∈ parts, validIdent x.1 ∧ vars (String.mk x.1) = some (val x.1) ∧
      ¬ ['$', '{'] <:+: x.2) :
    Resolve vars (String.mk (tokenText lit0 parts))
      = .ok (String.mk (tokenValue val lit0 parts)) ∧
    Resolve vars (String.mk lit0) = .ok (String.mk lit0) := by
  constructor
  · simp only [Resolve, scan]
    rw [evalSegments_tokenText vars val parts lit0 _ hlit0 hparts (le_refl _)]
  · simp only [Resolve, scan]
    have h := evalSegments_tokenText vars val [] lit0 lit0.length hlit0 (by simp)
      (by simp [tokenText])
    simp only [tokenText, tokenValue] at h
    rw [h]

/-- C13, on the example store: with `a` bound to `x` and `b` to `y`,
`$\x7ba\x7d_$\x7bb\x7d` resolves to `x_y`; with `var1`, `var2` bound to `value1`,
`value2`, `X_$\x7bvar1\x7d_$\x7bvar2\x7d` resolves to `X_value1_value2`. -/
theorem Resolve_simple_references_witness :
    Resolve exVars "$\x7ba\x7d_$\x7bb\x7d" = .ok "x_y" ∧
    String.mk (tokenText ['X', '_']
        [(['v', 'a', 'r', '1'], ['_']), (['v', 'a', 'r', '2'], [])])
      = "X_$\x7bvar1\x7d_$\x7bvar2\x7d" ∧
    String.mk (tokenValue (fun id => (exVars (String.mk id)).getD "") ['X', '_']
        [(['v', 'a', 'r', '1'], ['_']), (['v', 'a', 'r', '2'], [])])
      = "X_value1_value2" ∧
    (Resolve exVars (String.mk (tokenText ['X', '_']
        [(['v', 'a', 'r', '1'], ['_']), (['v', 'a', 'r', '2'], [])]))
      = .ok (String.mk (tokenValue (fun id => (exVars (String.mk id)).getD "") ['X', '_']
        [(['v', 'a', 'r', '1'], ['_']), (['v', 'a', 'r', '2'], [])])) ∧
      Resolve exVars (String.mk ['X', '_']) = .ok (String.mk ['X', '_'])) :=
  ⟨by decide, by decide, by decide,
   Resolve_simple_references exVars (fun id => (exVars (String.mk id)).getD "") ['X', '_']
     [(['v', 'a', 'r', '1'], ['_']), (['v', 'a', 'r', '2'], [])] (by decide)
     (by
       intro x hx
       rcases List.mem_cons.1 hx with rfl | hx
       · exact ⟨⟨by decide, by decide⟩, by decide, by decide⟩
       · rcases List.mem_cons.1 hx with rfl | hx
         · exact ⟨⟨by decide, by decide⟩, by decide, by decide⟩
         · cases hx)⟩

theorem parseTerms_ident_run :
    ∀ (id rest acc : List Char) (done : List IndexTerm),
      (∀ c ∈ id, isIdentChar c = true) →
      parseTerms (id ++ rest) (TermState.ident acc) done
        = parseTerms rest (TermState.ident (acc ++ id)) done := by
  intro id
  induction id with
  | nil => intro rest acc done _; simp
  | cons c cs ih =>
    intro rest acc done h
    have hc : isIdentChar c = true := h c (List.mem_cons_self _ _)
    rw [List.cons_append, parseTerms, if_pos hc,
      ih rest (acc ++ [c]) done (fun x hx => h x (List.mem_cons_of_mem _ hx))]
    simp

theorem parseTerms_digit_run :
    ∀ (ds rest id acc : List Char) (done : List IndexTerm),
      (∀ c ∈ ds, c.isDigit = true) →
      parseTerms (ds ++ rest) (TermState.digits id acc) done
        = parseTerms rest (TermState.digits id (acc ++ ds)) done := by
  intro ds
  induction ds with
  | nil => intro rest id acc done _; simp
  | cons c cs ih =>
    intro rest id acc done h
    have hc : c.isDigit = true := h c (List.mem_cons_self _ _)
    rw [List.cons_append, parseTerms, if_pos hc,
      ih rest id (acc ++ [c]) done (fun x hx => h x (List.mem_cons_of_mem _ hx))]
    simp

/-- Reading one index term: the reader ends after its closing bracket with the
term added. -/
theorem parseTerms_term (t : IndexTerm) (rest : List Char) (done : List IndexTerm)
    (hid : validIdent t.ident) (hds : validDigits t.digits) :
    parseTerms (renderTerm t ++ rest) (TermState.ident []) done
      = parseTerms rest TermState.closed (done ++ [t]) := by
  have h1 : isIdentChar '[' = false := by decide
  have h2 : Char.isDigit ']' = false := by decide
  simp only [renderTerm, List.append_assoc, List.cons_append, List.nil_append]
  rw [parseTerms_ident_run t.ident _ [] done hid.2, List.nil_append, parseTerms, h1]
  simp only [Bool.false_eq_true, if_false, hid.1, ne_eq, not_false_eq_true, and_self, if_true]
  rw [parseTerms_digit_run t.digits _ t.ident [] done hds.2, List.nil_append, parseTerms, h2]
  simp [hds.1]

/-- Reading the text of a sequence of index terms gives the terms back. -/
theorem parseTerms_render :
    ∀ (ts : List IndexTerm) (done : List IndexTerm), ts ≠ [] →
      (∀ t ∈ ts, validIdent t.ident ∧ validDigits t.digits) →
      parseTerms (renderTerms ts) (TermState.ident []) done = some (done ++ ts) := by
  intro ts
  induction ts with
  | nil => intro done h; exact absurd rfl h
  | cons t ts ih =>
    intro done _ hv
    obtain ⟨hid, hds⟩ := hv t (List.mem_cons_self _ _)
    cases ts with
    | nil =>
      have h := parseTerms_term t [] done hid hds
      simp only [List.append_nil] at h
      rw [renderTerms, h, parseTerms]
    | cons t1 ts =>
      rw [renderTerms, parseTerms_term t _ done hid hds, parseTerms, if_pos rfl,
        ih (done ++ [t]) (by simp) (fun x hx => hv x (List.mem_cons_of_mem _ hx))]
      simp

theorem renderTerm_ne_close (t : IndexTerm) (hid : validIdent t.ident)
    (hds : validDigits t.digits) : ∀ c ∈ renderTerm t, c ≠ '}' := by
  intro c hc
  simp only [renderTerm, List.mem_append, List.mem_cons, List.mem_singleton,
    List.not_mem_nil, or_false] at hc
  rcases hc with (hc | hc | hc) | hc
  · exact identChar_ne_close c (hid.2 c hc)
  · rw [hc]; decide
  · intro h
    subst h
    exact absurd (hds.2 _ hc) (by decide)
  · rw [hc]; decide

theorem renderTerms_ne_close :
    ∀ ts : List IndexTerm, (∀ t ∈ ts, validIdent t.ident ∧ validDigits t.digits) →
      ∀ c ∈ renderTerms ts, c ≠ '}' := by
  intro ts
  induction ts with
  | nil => intro _ c hc; simp [renderTerms] at hc
  | cons t ts ih =>
    intro hv c hc
    obtain ⟨hid, hds⟩ := hv t (List.mem_cons_self _ _)
    cases ts with
    | nil =>
      rw [renderTerms] at hc
      exact renderTerm_ne_close t hid hds c hc
    | cons t1 ts =>
      rw [renderTerms, List.mem_append, List.mem_cons] at hc
      rcases hc with hc | hc | hc
      · exact renderTerm_ne_close t hid hds c hc
      · rw [hc]; decide
      · exact ih (fun x hx => hv x (List.mem_cons_of_mem _ hx)) c hc

theorem renderTerms_bracket (ts : List IndexTerm) (hne : ts ≠ []) :
    '[' ∈ renderTerms ts := by
  cases ts with
  | nil => exact absurd rfl hne
  | cons t ts =>
    cases ts with
    | nil => simp [renderTerms, renderTerm]
    | cons t1 ts => simp [renderTerms, renderTerm]

theorem parseExpr_render (ts : List IndexTerm) (hne : ts ≠ [])
    (hv : ∀ t ∈ ts, validIdent t.ident ∧ validDigits t.digits) :
    parseExpr (renderTerms ts) = some (Expr.index ts) := by
  have hnot : ¬ (renderTerms ts ≠ [] ∧ (renderTerms ts).all isIdentChar = true) := by
    rintro ⟨_, hall⟩
    have := List.all_eq_true.1 hall '[' (renderTerms_bracket ts hne)
    exact absurd this (by decide)
  have hp := parseTerms_render ts [] hne hv
  simp only [List.nil_append] at hp
  simp only [parseExpr, if_neg hnot, hp]

/-- A token that is one index-expression placeholder resolves to what its
terms resolve to, joined with `_`. -/
theorem Resolve_index_token (vars : String → Option String) (ts : List IndexTerm)
    (hne : ts ≠ []) (hv : ∀ t ∈ ts, validIdent t.ident ∧ validDigits t.digits) :
    Resolve vars (String.mk ('$' :: '{' :: (renderTerms ts ++ ['}'])))
      = (match evalTerms vars ts with
         | .error err => .error err
         | .ok es => .ok (String.mk (List.intercalate ['_'] (es.map String.data)))) := by
  have hm : matchPlaceholder ('$' :: '{' :: (renderTerms ts ++ ['}']))
      = some (Expr.index ts, []) := by
    simp [matchPlaceholder, splitClose_append (renderTerms ts) [] (renderTerms_ne_close ts hv),
      parseExpr_render ts hne hv]
  simp only [Resolve, scan, List.length_cons, scanFuel, hm, scanFuel_nil, evalSegments,
    evalExpr]
  cases evalTerms vars ts with
  | error err => rfl
  | ok es => simp

/-- Each term resolved on its own gives the terms resolved in order. -/
theorem evalTerms_ok (vars : String → Option String) :
    ∀ (ts : List IndexTerm) (es : List String),
      List.Forall₂
        (fun t e => ∃ v, vars (String.mk t.ident) = some v ∧
          (Split v ',').get? (digitsValue t.digits) = some e) ts es →
      evalTerms vars ts = .ok es := by
  intro ts es h
  induction h with
  | nil => rfl
  | cons hte _ ih =>
    obtain ⟨v, hv, hget⟩ := hte
    rw [List.get?_eq_getElem?] at hget
    simp [evalTerms, evalTerm, hv, hget, ih]

/-- C15. A placeholder that is an index-expression sequence
`I1[n1]_I2[n2]_..._Ik[nk]`, every `Ij` bound and every `nj` within bounds,
resolves to the elements joined with `_`, the j-th element being the zero-based
`nj`-th element of the bound value of `Ij` split on `,`, taken for each term on
its own. -/
theorem Resolve_index_expression (vars : String → Option String) (ts : List IndexTerm)
    (es : List String) (hne : ts ≠ [])
    (hv : ∀ t ∈ ts, validIdent t.ident ∧ validDigits t.digits)
    (helems : List.Forall₂
      (fun t e => ∃ v, vars (String.mk t.ident) = some v ∧
        (Split v ',').get? (digitsValue t.digits) = some e) ts es) :
    Resolve vars (String.mk ('$' :: '{' :: (renderTerms ts ++ ['}'])))
      = .ok (String.mk (List.intercalate ['_'] (es.map String.data))) := by
  rw [Resolve_index_token vars ts hne hv, evalTerms_ok vars ts es helems]

/-- C15, on the example store: with `arr1` bound to `value1,value2,value3`,
`$\x7barr1[0]_arr1[1]_arr1[2]\x7d` resolves to `value1_value2_value3`; with `v`
bound to `a,b,c`, `$\x7bv[1]\x7d` resolves to `b`. -/
theorem Resolve_index_expression_witness :
    String.mk ('$' :: '{' :: (renderTerms
        [{ ident := ['a', 'r', 'r', '1'], digits := ['0'] },
         { ident := ['a', 'r', 'r', '1'], digits := ['1'] },
         { ident := ['a', 'r', 'r', '1'], digits := ['2'] }] ++ ['}']))
      = "$\x7barr1[0]_arr1[1]_arr1[2]\x7d" ∧
    Resolve exVars "$\x7barr1[0]_arr1[1]_arr1[2]\x7d" = .ok "value1_value2_value3" ∧
    Resolve exVars "$\x7bv[1]\x7d" = .ok "b" ∧
    Resolve exVars (String.mk ('$' :: '{' :: (renderTerms
        [{ ident := ['a', 'r', 'r', '1'], digits := ['0'] },
         { ident := ['a', 'r', 'r', '1'], digits := ['1'] },
         { ident := ['a', 'r', 'r', '1'], digits := ['2'] }] ++ ['}'])))
      = .ok (String.mk (List.intercalate ['_']
          (["value1", "value2", "value3"].map String.data))) :=
  ⟨by decide, by decide, by decide,
   Resolve_index_expression exVars
     [{ ident := ['a', 'r', 'r', '1'], digits := ['0'] },
      { ident := ['a', 'r', 'r', '1'], digits := ['1'] },
      { ident := ['a', 'r', 'r', '1'], digits := ['2'] }]
     ["value1", "value2", "value3"] (by decide)
     (by
       intro t ht
       rcases List.mem_cons.1 ht with rfl | ht
       · exact ⟨⟨by decide, by decide⟩, ⟨by decide, by decide⟩⟩
       · rcases List.mem_cons.1 ht with rfl | ht
         · exact ⟨⟨by decide, by decide⟩, ⟨by decide, by decide⟩⟩
         · rcases List.mem_cons.1 ht with rfl | ht
           · exact ⟨⟨by decide, by decide⟩, ⟨by decide, by decide⟩⟩
           · cases ht)
     (List.Forall₂.cons ⟨"value1,value2,value3", by decide, by decide⟩
       (List.Forall₂.cons ⟨"value1,value2,value3", by decide, by decide⟩
         (List.Forall₂.cons ⟨"value1,value2,value3", by decide, by decide⟩
           List.Forall₂.nil)))⟩

/-- C16. An index term `IDENT[INT]` whose identifier is bound and whose `INT`
is not below the number of elements of the bound value split on `,` resolves to
the error `IndexOutOfRangeError`, as a term, as the token made of its
placeholder, and as an argument sequence that starts with that token: an error
value, no resolved value. -/
theorem index_out_of_range (vars : String → Option String) (id ds : List Char) (v : String)
    (hid : validIdent id) (hds : validDigits ds)
    (hv : vars (String.mk id) = some v)
    (hout : (Split v ',').length ≤ digitsValue ds) :
    evalTerm vars { ident := id, digits := ds }
      = .error (ResolveError.IndexOutOfRangeError (String.mk id) (digitsValue ds)) ∧
    Resolve vars (String.mk ('$' :: '{' :: (renderTerms [{ ident := id, digits := ds }]
        ++ ['}'])))
      = .error (ResolveError.IndexOutOfRangeError (String.mk id) (digitsValue ds)) ∧
    ∀ args, ResolveAll vars
        (String.mk ('$' :: '{' :: (renderTerms [{ ident := id, digits := ds }] ++ ['}']))
          :: args)
      = .error (ResolveError.IndexOutOfRangeError (String.mk id) (digitsValue ds)) := by
  have h1 : evalTerm vars { ident := id, digits := ds }
      = .error (ResolveError.IndexOutOfRangeError (String.mk id) (digitsValue ds)) := by
    have hnone : (Split v ',').get? (digitsValue ds) = none := List.get?_eq_none.2 hout
    simp only [evalTerm, hv, hnone]
  have h2 : Resolve vars (String.mk ('$' :: '{' :: (renderTerms [{ ident := id, digits := ds }]
        ++ ['}'])))
      = .error (ResolveError.IndexOutOfRangeError (String.mk id) (digitsValue ds)) := by
    rw [Resolve_index_token vars [{ ident := id, digits := ds }] (by simp)
      (by
        intro t ht
        rw [List.mem_singleton] at ht
        subst ht
        exact ⟨hid, hds⟩)]
    simp only [evalTerms, h1]
  refine ⟨h1, h2, ?_⟩
  intro args
  simp only [ResolveAll, h2]

/-- C16, on the example store: with `v` bound to `a,b,c`, `$\x7bv[5]\x7d` fails
with `IndexOutOfRangeError`. -/
theorem index_out_of_range_witness :
    String.mk ('$' :: '{' :: (renderTerms [{ ident := ['v'], digits := ['5'] }] ++ ['}']))
      = "$\x7bv[5]\x7d" ∧
    exVars (String.mk ['v']) = some "a,b,c" ∧
    (Split "a,b,c" ',').length ≤ digitsValue ['5'] ∧
    Resolve exVars "$\x7bv[5]\x7d" = .error (ResolveError.IndexOutOfRangeError "v" 5) ∧
    (evalTerm exVars { ident := ['v'], digits := ['5'] }
        = .error (ResolveError.IndexOutOfRangeError (String.mk ['v']) (digitsValue ['5'])) ∧
      Resolve exVars (String.mk ('$' :: '{' ::
          (renderTerms [{ ident := ['v'], digits := ['5'] }] ++ ['}'])))
        = .error (ResolveError.IndexOutOfRangeError (String.mk ['v']) (digitsValue ['5'])) ∧
      ∀ args, ResolveAll exVars
          (String.mk ('$' :: '{' ::
            (renderTerms [{ ident := ['v'], digits := ['5'] }] ++ ['}'])) :: args)
        = .error (ResolveError.IndexOutOfRangeError (String.mk ['v'])
            (digitsValue ['5']))) :=
  ⟨by decide, by decide, by decide, by decide,
   index_out_of_range exVars ['v'] ['5'] "a,b,c" ⟨by decide, by decide⟩
     ⟨by decide, by decide⟩ (by decide) (by decide)⟩

/-- A sequence of index terms with an unbound identifier does not resolve. -/
theorem evalTerms_unbound (vars : String → Option String) :
    ∀ ts : List IndexTerm, (∃ t ∈ ts, vars (String.mk t.ident) = none) →
      ∃ err, evalTerms vars ts = .error err := by
  intro ts
  induction ts with
  | nil => rintro ⟨t, ht, _⟩; cases ht
  | cons t ts ih =>
    rintro ⟨x, hx, hxn⟩
    cases h1 : evalTerm vars t with
    | error err => exact ⟨err, by simp [evalTerms, h1]⟩
    | ok e =>
      have hrest : ∃ y ∈ ts, vars (String.mk y.ident) = none := by
        rcases List.mem_cons.1 hx with rfl | hx
        · simp [evalTerm, hxn] at h1
        · exact ⟨x, hx, hxn⟩
      obtain ⟨err, h2⟩ := ih hrest
      exact ⟨err, by simp [evalTerms, h1, h2]⟩

/-- A placeholder with an unbound identifier does not resolve. -/
theorem evalExpr_unbound (vars : String → Option String) (e : Expr)
    (h : ∃ id ∈ e.idents, vars (String.mk id) = none) :
    ∃ err, evalExpr vars e = .error err := by
  cases e with
  | ident name =>
    obtain ⟨id, hid, hn⟩ := h
    simp only [Expr.idents, List.mem_singleton] at hid
    subst hid
    exact ⟨ResolveError.UnresolvedVariableError (String.mk id), by simp [evalExpr, hn]⟩
  | index terms =>
    obtain ⟨id, hid, hn⟩ := h
    simp only [Expr.idents, List.mem_map] at hid
    obtain ⟨t, ht, rfl⟩ := hid
    obtain ⟨err, h1⟩ := evalTerms_unbound vars terms ⟨t, ht, hn⟩
    exact ⟨err, by simp [evalExpr, h1]⟩

/-- A scanned token with a placeholder on an unbound identifier does not
resolve. -/
theorem evalSegments_unbound (vars : String → Option String) :
    ∀ segs : List Segment,
      (∃ e ∈ placeholdersOf segs, ∃ id ∈ e.idents, vars (String.mk id) = none) →
      ∃ err, evalSegments vars segs = .error err := by
  intro segs
  induction segs with
  | nil => rintro ⟨e, he, _⟩; cases he
  | cons seg segs ih =>
    rintro ⟨e, he, hid⟩
    cases seg with
    | text c =>
      obtain ⟨err, h1⟩ := ih ⟨e, by simpa [placeholdersOf] using he, hid⟩
      exact ⟨err, by simp [evalSegments, h1]⟩
    | placeholder e0 =>
      cases h1 : evalExpr vars e0 with
      | error err => exact ⟨err, by simp [evalSegments, h1]⟩
      | ok v =>
        have hrest : ∃ e ∈ placeholdersOf segs, ∃ id ∈ e.idents,
            vars (String.mk id) = none := by
          simp only [placeholdersOf, List.mem_cons] at he
          rcases he with rfl | he
          · obtain ⟨err, h2⟩ := evalExpr_unbound vars e hid
            rw [h1] at h2
            cases h2
          · exact ⟨e, he, hid⟩
        obtain ⟨err, h2⟩ := ih hrest
        exact ⟨err, by simp [evalSegments, h1, h2]⟩

/-- An argument sequence with a placeholder on an unbound identifier in some
token does not resolve. -/
theorem ResolveAll_unbound (vars : String → Option String) :
    ∀ args : List String,
      (∃ arg ∈ args, ∃ e ∈ placeholdersOf (scan arg.data), ∃ id ∈ e.idents,
        vars (String.mk id) = none) →
      ∃ err, ResolveAll vars args = .error err := by
  intro args
  induction args with
  | nil => rintro ⟨arg, ha, _⟩; cases ha
  | cons a args ih =>
    rintro ⟨arg, ha, hph⟩
    cases h1 : Resolve vars a with
    | error err => exact ⟨err, by simp [ResolveAll, h1]⟩
    | ok v =>
      have hrest : ∃ arg ∈ args, ∃ e ∈ placeholdersOf (scan arg.data), ∃ id ∈ e.idents,
          vars (String.mk id) = none := by
        rcases List.mem_cons.1 ha with rfl | ha
        · obtain ⟨err, h2⟩ := evalSegments_unbound vars (scan arg.data) hph
          simp [Resolve, h2] at h1
        · exact ⟨arg, ha, hph⟩
      obtain ⟨err, h2⟩ := ih hrest
      exact ⟨err, by simp [ResolveAll, h1, h2]⟩

/-- With every index of a bound identifier within bounds, an index term fails
only on an unbound identifier. -/
theorem evalTerm_error (vars : String → Option String) (t : IndexTerm)
    (hin : ∀ v, vars (String.mk t.ident) = some v →
      digitsValue t.digits < (Split v ',').length)
    (err : ResolveError) (h : evalTerm vars t = .error err) :
    ∃ id, vars id = none ∧ err = ResolveError.UnresolvedVariableError id := by
  cases hv : vars (String.mk t.ident) with
  | none =>
    simp only [evalTerm, hv, Except.error.injEq] at h
    exact ⟨String.mk t.ident, hv, h.symm⟩
  | some v =>
    have hlt := hin v hv
    have hget : (Split v ',').get? (digitsValue t.digits)
        = some ((Split v ',').get ⟨digitsValue t.digits, hlt⟩) := List.get?_eq_get hlt
    simp only [evalTerm, hv, hget] at h
    cases h

theorem evalTerms_error (vars : String → Option String) :
    ∀ ts : List IndexTerm,
      (∀ t ∈ ts, ∀ v, vars (String.mk t.ident) = some v →
        digitsValue t.digits < (Split v ',').length) →
      ∀ err, evalTerms vars ts = .error err →
        ∃ id, vars id = none ∧ err = ResolveError.UnresolvedVariableError id := by
  intro ts
  induction ts with
  | nil => intro _ err h; simp [evalTerms] at h
  | cons t ts ih =>
    intro hin err h
    cases h1 : evalTerm vars t with
    | error err1 =>
      simp only [evalTerms, h1, Except.error.injEq] at h
      subst h
      exact evalTerm_error vars t (hin t (List.mem_cons_self _ _)) err1 h1
    | ok e =>
      cases h2 : evalTerms vars ts with
      | error err2 =>
        simp only [evalTerms, h1, h2, Except.error.injEq] at h
        subst h
        exact ih (fun x hx => hin x (List.mem_cons_of_mem _ hx)) err2 h2
      | ok es => simp [evalTerms, h1, h2] at h

theorem evalExpr_error (vars : String → Option String) (e : Expr)
    (hin : ∀ t ∈ e.terms, ∀ v, vars (String.mk t.ident) = some v →
      digitsValue t.digits < (Split v ',').length)
    (err : ResolveError) (h : evalExpr vars e = .error err) :
    ∃ id, vars id = none ∧ err = ResolveError.UnresolvedVariableError id := by
  cases e with
  | ident name =>
    cases hv : vars (String.mk name) with
    | none =>
      simp only [evalExpr, hv, Except.error.injEq] at h
      exact ⟨String.mk name, hv, h.symm⟩
    | some v => simp [evalExpr, hv] at h
  | index terms =>
    cases h1 : evalTerms vars terms with
    | error err1 =>
      simp only [evalExpr, h1, Except.error.injEq] at h
      subst h
      exact evalTerms_error vars terms hin err1 h1
    | ok es => simp [evalExpr, h1] at h

theorem evalSegments_error (vars : String → Option String) :
    ∀ segs : List Segment,
      (∀ e ∈ placeholdersOf segs, ∀ t ∈ e.terms, ∀ v, vars (String.mk t.ident) = some v →
        digitsValue t.digits < (Split v ',').length) →
      ∀ err, evalSegments vars segs = .error err →
        ∃ id, vars id = none ∧ err = ResolveError.UnresolvedVariableError id := by
  intro segs
  induction segs with
  | nil => intro _ err h; simp [evalSegments] at h
  | cons seg segs ih =>
    intro hin err h
    cases seg with
    | text c =>
      cases h1 : evalSegments vars segs with
      | error err1 =>
        simp only [evalSegments, h1, Except.error.injEq] at h
        subst h
        exact ih (fun e he => hin e (by simpa [placeholdersOf] using he)) err1 h1
      | ok out => simp [evalSegments, h1] at h
    | placeholder e0 =>
      cases h1 : evalExpr vars e0 with
      | error err1 =>
        simp only [evalSegments, h1, Except.error.injEq] at h
        subst h
        exact evalExpr_error vars e0 (hin e0 (by simp [placeholdersOf])) err1 h1
      | ok v =>
        cases h2 : evalSegments vars segs with
        | error err2 =>
          simp only [evalSegments, h1, h2, Except.error.injEq] at h
          subst h
          exact ih (fun e he => hin e (by simp [placeholdersOf, he])) err2 h2
        | ok out => simp [evalSegments, h1, h2] at h

theorem ResolveAll_error (vars : String → Option String) :
    ∀ args : List String,
      (∀ arg ∈ args, ∀ e ∈ placeholdersOf (scan arg.data), ∀ t ∈ e.terms, ∀ v,
        vars (String.mk t.ident) = some v →
        digitsValue t.digits < (Split v ',').length) →
      ∀ err, ResolveAll vars args = .error err →
        ∃ id, vars id = none ∧ err = ResolveError.UnresolvedVariableError id := by
  intro args
  induction args with
  | nil => intro _ err h; simp [ResolveAll] at h
  | cons a args ih =>
    intro hin err h
    cases h1 : Resolve vars a with
    | error err1 =>
      simp only [ResolveAll, h1, Except.error.injEq] at h
      subst h
      cases h3 : evalSegments vars (scan a.data) with
      | error err3 =>
        simp only [Resolve, h3, Except.error.injEq] at h1
        subst h1
        exact evalSegments_error vars (scan a.data) (hin a (List.mem_cons_self _ _)) err3 h3
      | ok out => simp [Resolve, h3] at h1
    | ok v =>
      cases h2 : ResolveAll vars args with
      | error err2 =>
        simp only [ResolveAll, h1, h2, Except.error.injEq] at h
        subst h
        exact ih (fun x hx => hin x (List.mem_cons_of_mem _ hx)) err2 h2
      | ok vs => simp [ResolveAll, h1, h2] at h

/-- C14, as stated, fails: on the example store, where `v` is `a,b,c` and `n`
is not set, the argument string `$\x7bv[5]\x7d,$\x7bn\x7d` has a placeholder on the
unbound `n` in its second token, and its resolution fails with
`IndexOutOfRangeError`, the failure of its first token. -/
theorem unresolved_error_counterexample :
    Split "$\x7bv[5]\x7d,$\x7bn\x7d" ',' = ["$\x7bv[5]\x7d", "$\x7bn\x7d"] ∧
    placeholdersOf (scan "$\x7bn\x7d".data) = [Expr.ident ['n']] ∧
    exVars (String.mk ['n']) = none ∧
    ResolveAll exVars (Split "$\x7bv[5]\x7d,$\x7bn\x7d" ',')
      = .error (ResolveError.IndexOutOfRangeError "v" 5) ∧
    ResolveAllVars (withResolver (exEnv exRespond)) exWorldVars "$\x7bv[5]\x7d,$\x7bn\x7d"
      = .error "IndexOutOfRangeError: v" := by
  refine ⟨by decide, by decide, by decide, by decide, by decide⟩

/-- C14, amended. Resolving an argument string fails, and returns no result
sequence, whenever some placeholder in some token refers to an identifier that
is not bound. The error is `UnresolvedVariableError`, for an unbound
identifier, when in addition every index term on a bound identifier is within
bounds; otherwise the first failure in scan order is reported. -/
theorem unbound_reference_fails (env : Env) (w : World) (args : String)
    (hunbound : ∃ arg ∈ Split args ',', ∃ e ∈ placeholdersOf (scan arg.data),
      ∃ id ∈ e.idents, w.vars (String.mk id) = none) :
    (∃ err, ResolveAll w.vars (Split args ',') = .error err ∧
      ResolveAllVars (withResolver env) w args = .error err.Error) ∧
    ((∀ arg ∈ Split args ',', ∀ e ∈ placeholdersOf (scan arg.data), ∀ t ∈ e.terms, ∀ v,
        w.vars (String.mk t.ident) = some v →
        digitsValue t.digits < (Split v ',').length) →
      ∃ id, w.vars id = none ∧
        ResolveAll w.vars (Split args ',')
          = .error (ResolveError.UnresolvedVariableError id) ∧
        ResolveAllVars (withResolver env) w args
          = .error (ResolveError.UnresolvedVariableError id).Error) := by
  obtain ⟨err, herr⟩ := ResolveAll_unbound w.vars (Split args ',') hunbound
  have hvars : ResolveAllVars (withResolver env) w args = .error err.Error := by
    simp only [ResolveAllVars, withResolver, herr]
  refine ⟨⟨err, herr, hvars⟩, ?_⟩
  intro hin
  obtain ⟨id, hid, he⟩ := ResolveAll_error w.vars (Split args ',') hin err herr
  subst he
  exact ⟨id, hid, herr, hvars⟩

/-- C14, amended, on the example store: in `$\x7bv[1]\x7d_$\x7bn\x7d` the index
term is within bounds and `n` is not set; the resolution fails with
`UnresolvedVariableError` for `n`. With `n` alone it does too. -/
theorem unbound_reference_fails_witness :
    Resolve exVars "$\x7bn\x7d" = .error (ResolveError.UnresolvedVariableError "n") ∧
    placeholdersOf (scan "$\x7bv[1]\x7d_$\x7bn\x7d".data)
      = [Expr.index [{ ident := ['v'], digits := ['1'] }], Expr.ident ['n']] ∧
    ResolveAllVars (withResolver (exEnv exRespond)) exWorldVars "$\x7bv[1]\x7d_$\x7bn\x7d"
      = .error "UnresolvedVariableError: n" ∧
    (∃ err, ResolveAll exWorldVars.vars (Split "$\x7bv[1]\x7d_$\x7bn\x7d" ',') = .error err ∧
      ResolveAllVars (withResolver (exEnv exRespond)) exWorldVars "$\x7bv[1]\x7d_$\x7bn\x7d"
        = .error err.Error) ∧
    (∃ id, exWorldVars.vars id = none ∧
      ResolveAll exWorldVars.vars (Split "$\x7bv[1]\x7d_$\x7bn\x7d" ',')
        = .error (ResolveError.UnresolvedVariableError id) ∧
      ResolveAllVars (withResolver (exEnv exRespond)) exWorldVars "$\x7bv[1]\x7d_$\x7bn\x7d"
        = .error (ResolveError.UnresolvedVariableError id).Error) := by
  have hsplit : Split "$\x7bv[1]\x7d_$\x7bn\x7d" ',' = ["$\x7bv[1]\x7d_$\x7bn\x7d"] := by decide
  have hph : placeholdersOf (scan "$\x7bv[1]\x7d_$\x7bn\x7d".data)
      = [Expr.index [{ ident := ['v'], digits := ['1'] }], Expr.ident ['n']] := by decide
  obtain ⟨h1, h2⟩ := unbound_reference_fails (exEnv exRespond) exWorldVars
    "$\x7bv[1]\x7d_$\x7bn\x7d"
    ⟨"$\x7bv[1]\x7d_$\x7bn\x7d", by decide, Expr.ident ['n'], by decide, ['n'], by decide,
      by decide⟩
  refine ⟨by decide, hph, by decide, h1, h2 ?_⟩
  intro arg ha e he t ht v hv
  rw [hsplit, List.mem_singleton] at ha
  subst ha
  rw [hph] at he
  rcases List.mem_cons.1 he with rfl | he
  · simp only [Expr.terms, List.mem_singleton] at ht
    subst ht
    have hvv : exWorldVars.vars (String.mk ['v']) = some "a,b,c" := by decide
    rw [hvv] at hv
    cases hv
    decide
  · rw [List.mem_singleton] at he
    subst he
    simp [Expr.terms] at ht

/-! ## The cached response after a step -/

/-- The invoke dispatcher does not write the cached response. -/
theorem invokeCCWithArgs_queryValue (env : Env) (ccID channelID userType : String)
    (targets : List PeerConfig) (args : List String) (transientData : List (String × String))
    (w : World) :
    (invokeCCWithArgs env ccID channelID targets args transientData userType w).2.queryValue
      = w.queryValue := by
  unfold invokeCCWithArgs
  cases invokeSetup env channelID targets userType with
  | error e => rfl
  | ok r =>
    obtain ⟨peers, chClient⟩ := r
    cases args with
    | nil => rfl
    | cons fcn rest =>
      simp only [chCall, composeRetryOpts]
      split <;> rfl

/-- A query step that ends through `storeQuery` without error has stored the
payload the dispatcher returned. -/
theorem storeQuery_ok (r : Except Err String × World) (h : (storeQuery r).1 = .ok ()) :
    r.1 = .ok (GetResponse (storeQuery r).2) := by
  obtain ⟨res, w1⟩ := r
  cases res with
  | ok v => rfl
  | error e =>
    cases e with
    | error msg => simp [storeQuery] at h
    | runtimePanic msg => simp [storeQuery] at h

/-- C21, as stated, fails: on the example network with the cached response
`old`, `InvokeCC` and `InvokeCConOrg` succeed, the dispatcher returned the
payload `all` to each, and the cached response is still `old`. -/
theorem response_cache_counterexample :
    GetResponse exWorldOld = "old" ∧
    ResolveAllVars (exEnv exRespond) exWorldOld "fn,a" = .ok ["fn", "a"] ∧
    (InvokeCCWithArgs (exEnv exRespond) "cc" "ch" [] ["fn", "a"] [] exWorldOld).1
      = .ok { Payload := "all" } ∧
    (InvokeCC (exEnv exRespond) "cc" "fn,a" "ch" exWorldOld).1 = .ok () ∧
    GetResponse (InvokeCC (exEnv exRespond) "cc" "fn,a" "ch" exWorldOld).2 = "old" ∧
    (InvokeCCWithArgs (exEnv exRespond) "cc" "ch" (OrgPeers (exEnv exRespond) "org1" "ch")
      ["fn", "a"] [] exWorldOld).1 = .ok { Payload := "all" } ∧
    (InvokeCConOrg (exEnv exRespond) "cc" "fn,a" "org1" "ch" exWorldOld).1 = .ok () ∧
    GetResponse (InvokeCConOrg (exEnv exRespond) "cc" "fn,a" "org1" "ch" exWorldOld).2
      = "old" := by
  refine ⟨by decide, by decide, by decide, by decide, by decide, by decide, by decide,
    by decide⟩

/-- C21, amended. When one of `queryCC`, `queryCConOrg`, `queryCConTargetPeers`,
`queryCConSinglePeerInOrg`, `querySystemCC` and `invokeCConTargetPeers`
succeeds, its arguments resolved, its targets were selected, the dispatcher
returned a payload for them, and `GetResponse` afterwards returns that payload.
`InvokeCC` and `InvokeCConOrg` leave the cached response as it was. -/
theorem response_cache_after_step (env : Env) (ccID args orgIDs peerIDs orgID channelID : String)
    (w : World) :
    ((queryCC env ccID args channelID w).1 = .ok () →
      ∃ argArr, ResolveAllVars env w args = .ok argArr ∧
        (QueryCCWithArgs env false ccID channelID argArr [] [] (clearQueryValue w)).1
          = .ok (GetResponse (queryCC env ccID args channelID w).2)) ∧
    ((queryCConOrg env ccID args orgIDs channelID w).1 = .ok () →
      ∃ argArr, ResolveAllVars env w args = .ok argArr ∧
        (QueryCCWithArgs env false ccID channelID argArr [] (OrgPeers env orgIDs channelID)
          (clearQueryValue w)).1
          = .ok (GetResponse (queryCConOrg env ccID args orgIDs channelID w).2)) ∧
    ((queryCConTargetPeers env ccID args peerIDs channelID w).1 = .ok () →
      ∃ targetPeers argArr, Peers env peerIDs = .ok targetPeers ∧
        ResolveAllVars env w args = .ok argArr ∧
        (QueryCCWithArgs env false ccID channelID argArr [] targetPeers
          (clearQueryValue w)).1
          = .ok (GetResponse (queryCConTargetPeers env ccID args peerIDs channelID w).2)) ∧
    ((queryCConSinglePeerInOrg env ccID args orgIDs channelID w).1 = .ok () →
      ∃ targetPeer others argArr,
        Shuffle env (OrgPeers env orgIDs channelID) = .ok (targetPeer :: others) ∧
        ResolveAllVars env w args = .ok argArr ∧
        (QueryCCWithArgs env false ccID channelID argArr [] [targetPeer]
          (clearQueryValue w)).1
          = .ok (GetResponse (queryCConSinglePeerInOrg env ccID args orgIDs channelID w).2)) ∧
    ((querySystemCC env ccID args orgID channelID w).1 = .ok () →
      ∃ peersConfig0 others argsArray,
        env.PeersConfig orgID = some (peersConfig0 :: others) ∧
        ResolveAllVars env w args = .ok argsArray ∧
        (QueryCCWithArgs env true ccID channelID argsArray []
          [{ Config := peersConfig0, OrgID := orgID,
             MspID := env.peersMspID (peersConfig0.sslTargetNameOverride.getD ""),
             PeerID := peersConfig0.sslTargetNameOverride.getD "" }]
          (clearQueryValue w)).1
          = .ok (GetResponse (querySystemCC env ccID args orgID channelID w).2)) ∧
    ((invokeCConTargetPeers env ccID args peerIDs channelID w).1 = .ok () →
      ∃ targetPeers argArr resp, Peers env peerIDs = .ok targetPeers ∧
        ResolveAllVars env w args = .ok argArr ∧
        (InvokeCCWithArgs env ccID channelID targetPeers argArr [] (clearQueryValue w)).1
          = .ok resp ∧
        GetResponse (invokeCConTargetPeers env ccID args peerIDs channelID w).2
          = resp.Payload) ∧
    GetResponse (InvokeCC env ccID args channelID w).2 = GetResponse w ∧
    GetResponse (InvokeCConOrg env ccID args orgIDs channelID w).2 = GetResponse w := by
  have hres0 : ResolveAllVars env (clearQueryValue w) args = ResolveAllVars env w args := rfl
  refine ⟨?_, ?_, ?_, ?_, ?_, ?_, ?_, ?_⟩
  · intro h
    simp only [queryCC, hres0] at h ⊢
    cases hr : ResolveAllVars env w args with
    | error e => simp [hr] at h
    | ok argArr =>
      simp only [hr] at h ⊢
      exact ⟨argArr, rfl, storeQuery_ok _ h⟩
  · intro h
    simp only [queryCConOrg, hres0] at h ⊢
    cases hr : ResolveAllVars env w args with
    | error e => simp [hr] at h
    | ok argArr =>
      simp only [hr] at h ⊢
      exact ⟨argArr, rfl, storeQuery_ok _ h⟩
  · intro h
    simp only [queryCConTargetPeers, hres0] at h ⊢
    by_cases hp : peerIDs = ""
    · simp [hp] at h
    · simp only [hp, if_false] at h ⊢
      cases hps : Peers env peerIDs with
      | error e => simp [hps] at h
      | ok targetPeers =>
        simp only [hps] at h ⊢
        cases hr : ResolveAllVars env w args with
        | error e => simp [hr] at h
        | ok argArr =>
          simp only [hr] at h ⊢
          exact ⟨targetPeers, argArr, rfl, rfl, storeQuery_ok _ h⟩
  · intro h
    simp only [queryCConSinglePeerInOrg, hres0] at h ⊢
    by_cases hl : (OrgPeers env orgIDs channelID).length = 0
    · simp [hl] at h
    · simp only [hl, if_false] at h ⊢
      cases hs : Shuffle env (OrgPeers env orgIDs channelID) with
      | error e => simp [hs] at h
      | ok shuffled =>
        cases shuffled with
        | nil => simp [hs] at h
        | cons targetPeer others =>
          simp only [hs] at h ⊢
          cases hr : ResolveAllVars env w args with
          | error e => simp [hr] at h
          | ok argArr =>
            simp only [hr] at h ⊢
            exact ⟨targetPeer, others, argArr, rfl, rfl, storeQuery_ok _ h⟩
  · intro h
    simp only [querySystemCC, hres0] at h ⊢
    cases hpc : env.PeersConfig orgID with
    | none => simp [hpc] at h
    | some pcs =>
      cases pcs with
      | nil => simp [hpc] at h
      | cons peersConfig0 others =>
        simp only [hpc] at h ⊢
        cases hr : ResolveAllVars env w args with
        | error e => simp [hr] at h
        | ok argsArray =>
          simp only [hr] at h ⊢
          refine ⟨peersConfig0, others, argsArray, rfl, rfl, ?_⟩
          have hover : peersConfig0.sslTargetNameOverride.getD ""
              = (match peersConfig0.sslTargetNameOverride with
                 | some str => str
                 | none => "") := by
            cases peersConfig0.sslTargetNameOverride <;> rfl
          rw [hover]
          exact storeQuery_ok _ h
  · intro h
    simp only [invokeCConTargetPeers, hres0] at h ⊢
    by_cases hp : peerIDs = ""
    · simp [hp] at h
    · simp only [hp, if_false] at h ⊢
      cases hps : Peers env peerIDs with
      | error e => simp [hps] at h
      | ok targetPeers =>
        simp only [hps] at h ⊢
        cases hr : ResolveAllVars env w args with
        | error e => simp [hr] at h
        | ok argArr =>
          simp only [hr] at h ⊢
          cases hi : (InvokeCCWithArgs env ccID channelID targetPeers argArr []
              (clearQueryValue w)).1 with
          | error e => simp [hi] at h
          | ok resp =>
            refine ⟨targetPeers, argArr, resp, rfl, rfl, hi, ?_⟩
            simp [hi, GetResponse]
  · simp only [InvokeCC, GetResponse]
    cases ResolveAllVars env w args with
    | error e => rfl
    | ok argArr =>
      simp only [InvokeCCWithArgs]
      split <;> exact invokeCCWithArgs_queryValue env ccID channelID env.USER [] argArr [] w
  · simp only [InvokeCConOrg, GetResponse]
    cases ResolveAllVars env w args with
    | error e => rfl
    | ok argArr =>
      simp only [InvokeCCWithArgs]
      split <;> exact invokeCCWithArgs_queryValue env ccID channelID env.USER _ argArr [] w

/-- C21, amended, on the example network with the cached response `old`: each
of the six steps succeeds and afterwards the cached response is the payload the
dispatcher returned to it (`all` for a call carrying no peer or several, `pT1`
for a call to `T1`); after `InvokeCC` and `InvokeCConOrg` it is still `old`. -/
theorem response_cache_after_step_witness :
    ((queryCC (exEnv exRespond) "cc" "fn,a" "ch" exWorldOld).1 = .ok () ∧
      GetResponse (queryCC (exEnv exRespond) "cc" "fn,a" "ch" exWorldOld).2 = "all" ∧
      ∃ argArr, ResolveAllVars (exEnv exRespond) exWorldOld "fn,a" = .ok argArr ∧
        (QueryCCWithArgs (exEnv exRespond) false "cc" "ch" argArr [] []
          (clearQueryValue exWorldOld)).1
          = .ok (GetResponse (queryCC (exEnv exRespond) "cc" "fn,a" "ch" exWorldOld).2)) ∧
    ((queryCConOrg (exEnv exRespond) "cc" "fn,a" "org1" "ch" exWorldOld).1 = .ok () ∧
      GetResponse (queryCConOrg (exEnv exRespond) "cc" "fn,a" "org1" "ch" exWorldOld).2
        = "all" ∧
      ∃ argArr, ResolveAllVars (exEnv exRespond) exWorldOld "fn,a" = .ok argArr ∧
        (QueryCCWithArgs (exEnv exRespond) false "cc" "ch" argArr []
          (OrgPeers (exEnv exRespond) "org1" "ch") (clearQueryValue exWorldOld)).1
          = .ok (GetResponse
              (queryCConOrg (exEnv exRespond) "cc" "fn,a" "org1" "ch" exWorldOld).2)) ∧
    ((queryCConTargetPeers (exEnv exRespond) "cc" "fn,a" "T1" "ch" exWorldOld).1 = .ok () ∧
      GetResponse (queryCConTargetPeers (exEnv exRespond) "cc" "fn,a" "T1" "ch" exWorldOld).2
        = "pT1" ∧
      ∃ targetPeers argArr, Peers (exEnv exRespond) "T1" = .ok targetPeers ∧
        ResolveAllVars (exEnv exRespond) exWorldOld "fn,a" = .ok argArr ∧
        (QueryCCWithArgs (exEnv exRespond) false "cc" "ch" argArr [] targetPeers
          (clearQueryValue exWorldOld)).1
          = .ok (GetResponse
              (queryCConTargetPeers (exEnv exRespond) "cc" "fn,a" "T1" "ch" exWorldOld).2)) ∧
    ((queryCConSinglePeerInOrg (exEnv exRespond) "cc" "fn,a" "org1" "ch" exWorldOld).1
        = .ok () ∧
      GetResponse
        (queryCConSinglePeerInOrg (exEnv exRespond) "cc" "fn,a" "org1" "ch" exWorldOld).2
        = "pT1" ∧
      ∃ targetPeer others argArr,
        Shuffle (exEnv exRespond) (OrgPeers (exEnv exRespond) "org1" "ch")
          = .ok (targetPeer :: others) ∧
        ResolveAllVars (exEnv exRespond) exWorldOld "fn,a" = .ok argArr ∧
        (QueryCCWithArgs (exEnv exRespond) false "cc" "ch" argArr [] [targetPeer]
          (clearQueryValue exWorldOld)).1
          = .ok (GetResponse
              (queryCConSinglePeerInOrg (exEnv exRespond) "cc" "fn,a" "org1" "ch"
                exWorldOld).2)) ∧
    ((querySystemCC (exEnv exRespond) "cc" "fn,a" "org1" "ch" exWorldOld).1 = .ok () ∧
      GetResponse (querySystemCC (exEnv exRespond) "cc" "fn,a" "org1" "ch" exWorldOld).2
        = "pT1" ∧
      ∃ peersConfig0 others argsArray,
        (exEnv exRespond).PeersConfig "org1" = some (peersConfig0 :: others) ∧
        ResolveAllVars (exEnv exRespond) exWorldOld "fn,a" = .ok argsArray ∧
        (QueryCCWithArgs (exEnv exRespond) true "cc" "ch" argsArray []
          [{ Config := peersConfig0, OrgID := "org1",
             MspID := (exEnv exRespond).peersMspID
               (peersConfig0.sslTargetNameOverride.getD ""),
             PeerID := peersConfig0.sslTargetNameOverride.getD "" }]
          (clearQueryValue exWorldOld)).1
          = .ok (GetResponse
              (querySystemCC (exEnv exRespond) "cc" "fn,a" "org1" "ch" exWorldOld).2)) ∧
    ((invokeCConTargetPeers (exEnv exRespond) "cc" "fn,a" "T1" "ch" exWorldOld).1 = .ok () ∧
      GetResponse (invokeCConTargetPeers (exEnv exRespond) "cc" "fn,a" "T1" "ch" exWorldOld).2
        = "pT1" ∧
      ∃ targetPeers argArr resp, Peers (exEnv exRespond) "T1" = .ok targetPeers ∧
        ResolveAllVars (exEnv exRespond) exWorldOld "fn,a" = .ok argArr ∧
        (InvokeCCWithArgs (exEnv exRespond) "cc" "ch" targetPeers argArr []
          (clearQueryValue exWorldOld)).1 = .ok resp ∧
        GetResponse
          (invokeCConTargetPeers (exEnv exRespond) "cc" "fn,a" "T1" "ch" exWorldOld).2
          = resp.Payload) ∧
    GetResponse (InvokeCC (exEnv exRespond) "cc" "fn,a" "ch" exWorldOld).2 = "old" ∧
    GetResponse (InvokeCConOrg (exEnv exRespond) "cc" "fn,a" "org1" "ch" exWorldOld).2
      = "old" := by
  obtain ⟨k1, k2, k3, k4, k5, k6, k7, k8⟩ :=
    response_cache_after_step (exEnv exRespond) "cc" "fn,a" "org1" "T1" "org1" "ch" exWorldOld
  exact ⟨⟨by decide, by decide, k1 (by decide)⟩, ⟨by decide, by decide, k2 (by decide)⟩,
    ⟨by decide, by decide, k3 (by decide)⟩, ⟨by decide, by decide, k4 (by decide)⟩,
    ⟨by decide, by decide, k5 (by decide)⟩, ⟨by decide, by decide, k6 (by decide)⟩, k7, k8⟩

/-! ## The interval of a sequential run -/

theorem sleepsOf_eachThenSleep (d : Int) (l : List (Call × Except String Response)) :
    sleepsOf (eachThenSleep d l) = List.replicate l.length d := by
  induction l with
  | nil => rfl
  | cons co rest ih =>
    obtain ⟨c, out⟩ := co
    simp only [sleepsOf, eachThenSleep, List.filterMap_cons, Event.sleep?, List.length_cons,
      List.replicate_succ] at ih ⊢
    rw [ih]

theorem callsOf_eachThenSleep (d : Int) (l : List (Call × Except String Response)) :
    callsOf (eachThenSleep d l) = l.map Prod.fst := by
  induction l with
  | nil => rfl
  | cons co rest ih =>
    obtain ⟨c, out⟩ := co
    simp only [callsOf, eachThenSleep, List.filterMap_cons, Event.call?, List.map_cons] at ih ⊢
    rw [ih]

theorem getLast?_eachThenSleep (d : Int) (l : List (Call × Except String Response))
    (hne : l ≠ []) : (eachThenSleep d l).getLast? = some (Event.sleep d) := by
  induction l with
  | nil => exact absurd rfl hne
  | cons co rest ih =>
    obtain ⟨c, out⟩ := co
    cases rest with
    | nil => rfl
    | cons co2 rest2 =>
      have h := ih (by simp)
      obtain ⟨c2, out2⟩ := co2
      simp only [eachThenSleep] at h ⊢
      rw [List.getLast?_cons_cons, List.getLast?_cons_cons]
      exact h

/-- The sequential loop with a positive interval appends, for each peer in
order, its call followed by a sleep of the interval. -/
theorem queryEach_sleeps (env : Env) (chClient : ChClient) (req : Request) (timeout : Int)
    (retryOpts : RetryOpts) (interval : Int) (hi : interval > 0) :
    ∀ (ps : List Peer) (errs : List String) (queryResult : String) (w : World),
      ∃ outs : List (Except String Response), outs.length = ps.length ∧
        (queryEach env chClient req timeout retryOpts interval ps errs queryResult w).2.2.trace
          = w.trace ++ eachThenSleep interval
              ((ps.map (fun peer =>
                ({ kind := CallKind.Query, client := chClient, request := req,
                   targets := [peer], timeout := some timeout, retry := retryOpts } : Call))).zip
                outs) := by
  intro ps
  induction ps with
  | nil =>
    intro errs queryResult w
    exact ⟨[], rfl, by simp [queryEach, eachThenSleep]⟩
  | cons peer rest ih =>
    intro errs queryResult w
    simp only [queryEach, chCall, hi, if_true, timeSleep]
    generalize hc : Call.mk CallKind.Query chClient req [peer] (some timeout) retryOpts = c
    generalize env.respond w.trace c = out
    generalize hw : ({ w with trace := w.trace ++ [Event.call c out] ++ [Event.sleep interval] }
      : World) = w1
    have hw1 : w1.trace = w.trace ++ [Event.call c out] ++ [Event.sleep interval] := by
      rw [← hw]
    cases out with
    | error e =>
      obtain ⟨outs, h1, h2⟩ := ih (errs ++ [e]) queryResult w1
      refine ⟨.error e :: outs, by simp [h1], ?_⟩
      simp only [] at h2 ⊢
      rw [h2, hw1]
      simp only [List.map_cons, List.zip_cons_cons, eachThenSleep, List.append_assoc,
        List.cons_append, List.nil_append, hc]
      rfl
    | ok resp =>
      obtain ⟨outs, h1, h2⟩ := ih errs resp.Payload w1
      refine ⟨.ok resp :: outs, by simp [h1], ?_⟩
      simp only [] at h2 ⊢
      rw [h2, hw1]
      simp only [List.map_cons, List.zip_cons_cons, eachThenSleep, List.append_assoc,
        List.cons_append, List.nil_append, hc]
      rfl

/-- The sequential loop with an interval that is not positive appends no sleep. -/
theorem queryEach_no_sleep_of_le (env : Env) (chClient : ChClient) (req : Request)
    (timeout : Int) (retryOpts : RetryOpts) (interval : Int) (hi : interval ≤ 0) :
    ∀ (ps : List Peer) (errs : List String) (queryResult : String) (w : World),
      ∃ evs,
        (queryEach env chClient req timeout retryOpts interval ps errs queryResult w).2.2.trace
            = w.trace ++ evs ∧
        sleepsOf evs = [] := by
  have hi0 : ¬ interval > 0 := by omega
  intro ps
  induction ps with
  | nil =>
    intro errs queryResult w
    exact ⟨[], by simp [queryEach], rfl⟩
  | cons peer rest ih =>
    intro errs queryResult w
    simp only [queryEach, chCall, hi0, if_false]
    generalize hc : Call.mk CallKind.Query chClient req [peer] (some timeout) retryOpts = c
    generalize env.respond w.trace c = out
    generalize hw : ({ w with trace := w.trace ++ [Event.call c out] } : World) = w1
    have hw1 : w1.trace = w.trace ++ [Event.call c out] := by rw [← hw]
    cases out with
    | error e =>
      obtain ⟨evs, h1, h2⟩ := ih (errs ++ [e]) queryResult w1
      refine ⟨Event.call c (.error e) :: evs, ?_, ?_⟩
      · simpa [hw1] using h1
      · simpa [sleepsOf, Event.sleep?] using h2
    | ok resp =>
      obtain ⟨evs, h1, h2⟩ := ih errs resp.Payload w1
      refine ⟨Event.call c (.ok resp) :: evs, ?_, ?_⟩
      · simpa [hw1] using h1
      · simpa [sleepsOf, Event.sleep?] using h2

/-- C22, as stated, fails: on the example network, a sequential run over the
three targets `T1`, `T2`, `T3` with the interval `5` makes three calls and sleeps
three times, not twice, and the last event of the run is a sleep; over the
single target `T1` it sleeps once. -/
theorem interval_sleeps_counterexample :
    querySetup (exEnv exRespondOk) "ch" [exTarget "T1", exTarget "T2", exTarget "T3"]
      = .ok ([{ url := "T1" }, { url := "T2" }, { url := "T3" }], "org1",
          { orgID := "org1", userType := "admin", channelID := "ch" }) ∧
    (callsOf (newEvents exWorld
      (QueryCCWithOpts (exEnv exRespondOk) false "cc" "ch" ["fn", "a"] 0 false 5 []
        [exTarget "T1", exTarget "T2", exTarget "T3"] exWorld).2)).length = 3 ∧
    sleepsOf (newEvents exWorld
      (QueryCCWithOpts (exEnv exRespondOk) false "cc" "ch" ["fn", "a"] 0 false 5 []
        [exTarget "T1", exTarget "T2", exTarget "T3"] exWorld).2) = [5, 5, 5] ∧
    sleepsOf (newEvents exWorld
      (QueryCCWithOpts (exEnv exRespondOk) false "cc" "ch" ["fn", "a"] 0 false 5 []
        [exTarget "T1", exTarget "T2", exTarget "T3"] exWorld).2)
      ≠ List.replicate (3 - 1) 5 ∧
    (newEvents exWorld
      (QueryCCWithOpts (exEnv exRespondOk) false "cc" "ch" ["fn", "a"] 0 false 5 []
        [exTarget "T1", exTarget "T2", exTarget "T3"] exWorld).2).getLast?.bind Event.sleep?
      = some 5 ∧
    sleepsOf (newEvents exWorld
      (QueryCCWithOpts (exEnv exRespondOk) false "cc" "ch" ["fn", "a"] 0 false 5 []
        [exTarget "T1"] exWorld).2) = [5] := by
  refine ⟨by decide, by decide, by decide, by decide, by decide, by decide⟩

/-- C22, amended. Sequential dispatch whose setup succeeded, over `n` targets:
with a positive interval the run appends to the trace, for each target in order,
its call followed by one sleep of the interval, so `n` sleeps, the last of them
after the last call; with an interval that is not positive it appends no
sleep. -/
theorem sequential_sleeps_after_each_call (env : Env) (ccID channelID fcn : String)
    (rest : List String) (timeout interval : Int) (transientData : List (String × String))
    (targets : List PeerConfig) (w : World) (peers : List Peer) (orgID : String)
    (chClient : ChClient)
    (hsetup : querySetup env channelID targets = .ok (peers, orgID, chClient)) :
    (0 < interval →
      ∃ outs : List (Except String Response), outs.length = targets.length ∧
        newEvents w
          (QueryCCWithOpts env false ccID channelID (fcn :: rest) timeout false interval
            transientData targets w).2
          = eachThenSleep interval
              ((peers.map (fun peer =>
                ({ kind := CallKind.Query, client := chClient,
                   request := { ChaincodeID := ccID, Fcn := fcn, Args := rest,
                                TransientMap := transientData },
                   targets := [peer], timeout := some timeout,
                   retry := (composeRetryOpts env w).1 } : Call))).zip outs) ∧
        sleepsOf (newEvents w
          (QueryCCWithOpts env false ccID channelID (fcn :: rest) timeout false interval
            transientData targets w).2) = List.replicate targets.length interval ∧
        (targets ≠ [] →
          (newEvents w
            (QueryCCWithOpts env false ccID channelID (fcn :: rest) timeout false interval
              transientData targets w).2).getLast? = some (Event.sleep interval))) ∧
    (interval ≤ 0 →
      sleepsOf (newEvents w
        (QueryCCWithOpts env false ccID channelID (fcn :: rest) timeout false interval
          transientData targets w).2) = []) := by
  have hlen : peers.length = targets.length :=
    (querySetup_peers env channelID targets peers orgID chClient hsetup).length_eq.symm
  constructor
  · intro hi
    have key : ∃ outs : List (Except String Response), outs.length = peers.length ∧
        (QueryCCWithOpts env false ccID channelID (fcn :: rest) timeout false interval
          transientData targets w).2.trace
          = w.trace ++ eachThenSleep interval
              ((peers.map (fun peer =>
                ({ kind := CallKind.Query, client := chClient,
                   request := { ChaincodeID := ccID, Fcn := fcn, Args := rest,
                                TransientMap := transientData },
                   targets := [peer], timeout := some timeout,
                   retry := (composeRetryOpts env w).1 } : Call))).zip outs) := by
      cases peers with
      | nil =>
        exact ⟨[], rfl, by simp [QueryCCWithOpts, hsetup, composeRetryOpts, eachThenSleep]⟩
      | cons peer more =>
        obtain ⟨outs, h1, h2⟩ := queryEach_sleeps env chClient
          { ChaincodeID := ccID, Fcn := fcn, Args := GetByteArgs rest,
            TransientMap := transientData }
          timeout (composeRetryOpts env w).1 interval hi (peer :: more) [] ""
          (composeRetryOpts env w).2
        refine ⟨outs, h1, ?_⟩
        simp only [QueryCCWithOpts, hsetup, Bool.false_eq_true, if_false]
        split <;> (rw [h2]; simp [composeRetryOpts, GetByteArgs])
    obtain ⟨outs, h1, h2⟩ := key
    have hev := newEvents_append w _ _ h2
    refine ⟨outs, by rw [h1, hlen], hev, ?_, ?_⟩
    · rw [hev, sleepsOf_eachThenSleep, List.length_zip, List.length_map, h1, Nat.min_self, hlen]
    · intro hne
      rw [hev]
      apply getLast?_eachThenSleep
      intro h0
      have h3 := congrArg List.length h0
      rw [List.length_zip, List.length_map, h1, Nat.min_self, hlen] at h3
      exact hne (List.length_eq_zero.1 h3)
  · intro hi
    cases peers with
    | nil =>
      have h2 : (QueryCCWithOpts env false ccID channelID (fcn :: rest) timeout false interval
          transientData targets w).2.trace = w.trace := by
        simp [QueryCCWithOpts, hsetup, composeRetryOpts]
      rw [newEvents_self w _ h2]
      rfl
    | cons peer more =>
      obtain ⟨evs, h1, h2⟩ := queryEach_no_sleep_of_le env chClient
        { ChaincodeID := ccID, Fcn := fcn, Args := GetByteArgs rest,
          TransientMap := transientData }
        timeout (composeRetryOpts env w).1 interval hi (peer :: more) [] ""
        (composeRetryOpts env w).2
      have h3 : (QueryCCWithOpts env false ccID channelID (fcn :: rest) timeout false interval
          transientData targets w).2.trace = w.trace ++ evs := by
        simp only [QueryCCWithOpts, hsetup, Bool.false_eq_true, if_false]
        split <;> (rw [h1]; simp [composeRetryOpts])
      rw [newEvents_append w _ evs h3, h2]

/-- C22, amended, on the example network: over `T1`, `T2`, `T3` with the
interval `5` the run is call, sleep, call, sleep, call, sleep; with the interval
`0` it holds no sleep. -/
theorem sequential_sleeps_after_each_call_witness :
    querySetup (exEnv exRespond) "ch" [exTarget "T1", exTarget "T2", exTarget "T3"]
      = .ok ([{ url := "T1" }, { url := "T2" }, { url := "T3" }], "org1",
          { orgID := "org1", userType := "admin", channelID := "ch" }) ∧
    (∃ outs : List (Except String Response),
      outs.length = [exTarget "T1", exTarget "T2", exTarget "T3"].length ∧
      newEvents exWorld
        (QueryCCWithOpts (exEnv exRespond) false "cc" "ch" ["fn", "a"] 7 false 5 []
          [exTarget "T1", exTarget "T2", exTarget "T3"] exWorld).2
        = eachThenSleep 5
            (([{ url := "T1" }, { url := "T2" }, { url := "T3" }].map (fun peer =>
              ({ kind := CallKind.Query,
                 client := { orgID := "org1", userType := "admin", channelID := "ch" },
                 request := { ChaincodeID := "cc", Fcn := "fn", Args := ["a"],
                              TransientMap := [] },
                 targets := [peer], timeout := some 7,
                 retry := (composeRetryOpts (exEnv exRespond) exWorld).1 } : Call))).zip
              outs)) ∧
    sleepsOf (newEvents exWorld
      (QueryCCWithOpts (exEnv exRespond) false "cc" "ch" ["fn", "a"] 7 false 5 []
        [exTarget "T1", exTarget "T2", exTarget "T3"] exWorld).2) = [5, 5, 5] ∧
    (newEvents exWorld
      (QueryCCWithOpts (exEnv exRespond) false "cc" "ch" ["fn", "a"] 7 false 5 []
        [exTarget "T1", exTarget "T2", exTarget "T3"] exWorld).2).getLast?
      = some (Event.sleep 5) ∧
    sleepsOf (newEvents exWorld
      (QueryCCWithOpts (exEnv exRespond) false "cc" "ch" ["fn", "a"] 7 false 0 []
        [exTarget "T1", exTarget "T2", exTarget "T3"] exWorld).2) = [] := by
  obtain ⟨outs, h1, h2, h3, h4⟩ :=
    (sequential_sleeps_after_each_call (exEnv exRespond) "cc" "ch" "fn" ["a"] 7 5 []
      [exTarget "T1", exTarget "T2", exTarget "T3"] exWorld
      [{ url := "T1" }, { url := "T2" }, { url := "T3" }] "org1"
      { orgID := "org1", userType := "admin", channelID := "ch" } (by decide)).1 (by decide)
  have h5 :=
    (sequential_sleeps_after_each_call (exEnv exRespond) "cc" "ch" "fn" ["a"] 7 0 []
      [exTarget "T1", exTarget "T2", exTarget "T3"] exWorld
      [{ url := "T1" }, { url := "T2" }, { url := "T3" }] "org1"
      { orgID := "org1", userType := "admin", channelID := "ch" } (by decide)).2 (by decide)
  exact ⟨by decide, ⟨outs, h1, h2⟩, h3, h4 (by decide), h5⟩

/-! ## The retry decision of the warm-up loop -/

/-- A list that starts with `x` occurs in `pre ++ l`, where `x` is not in `pre`,
exactly when it occurs in `l`. -/
theorem infix_append_of_not_mem {α : Type} (x : α) (needle pre l : List α)
    (hx : x ∉ pre) : (x :: needle) <:+: pre ++ l ↔ (x :: needle) <:+: l := by
  induction pre with
  | nil => simp
  | cons a pre ih =>
    have ha : x ≠ a := fun h => hx (by simp [h])
    have hx1 : x ∉ pre := fun h => hx (List.mem_cons_of_mem a h)
    rw [List.cons_append, List.infix_cons_iff, List.cons_prefix_cons, ih hx1]
    constructor
    · rintro (⟨h, _⟩ | h)
      · exact absurd h ha
      · exact h
    · intro h
      exact Or.inr h

/-- The text `QueryChaincode return error: ` put before an error does not change
whether the message contains `premature execution - chaincode`. -/
theorem Contains_wrapped (e : String) :
    Contains ("QueryChaincode return error: " ++ e) "premature execution - chaincode"
      = Contains e "premature execution - chaincode" := by
  have hn : "premature execution - chaincode".data
      = 'p' :: "remature execution - chaincode".data := by decide
  have hp : 'p' ∉ "QueryChaincode return error: ".data := by decide
  simp only [Contains, String.data_append, hn]
  exact decide_eq_decide.2 (infix_append_of_not_mem 'p' _ _ _ hp)

/-- The errors of a trace are the errors among its outcomes, in order. -/
theorem errorsOf_outcomes (evs : List Event) :
    errorsOf evs = (outcomesOf evs).filterMap (fun o =>
      match o with
      | .error e => some e
      | .ok _ => none) := by
  induction evs with
  | nil => rfl
  | cons ev evs ih =>
    cases ev with
    | sleep d => simpa [errorsOf, outcomesOf, Event.error?, Event.outcome?] using ih
    | call c out =>
      cases out with
      | error e => simpa [errorsOf, outcomesOf, Event.error?, Event.outcome?] using ih
      | ok resp => simpa [errorsOf, outcomesOf, Event.error?, Event.outcome?] using ih

/-- When the outcomes of a trace are successes followed by a failure, the first
collected error is that failure. -/
theorem errorsOf_first (evs : List Event) (pre post : List (Except String Response))
    (e : String) (hout : outcomesOf evs = pre ++ Except.error e :: post)
    (hpre : ∀ o ∈ pre, ∃ resp, o = Except.ok resp) :
    ∃ tl, errorsOf evs = e :: tl := by
  rw [errorsOf_outcomes, hout, List.filterMap_append, List.filterMap_cons]
  have h0 : pre.filterMap (fun o =>
      match o with
      | Except.error e => some e
      | Except.ok (_ : Response) => (none : Option String)) = [] := by
    rw [List.filterMap_eq_nil_iff]
    intro o ho
    obtain ⟨resp, rfl⟩ := hpre o ho
    rfl
  rw [h0]
  exact ⟨_, rfl⟩

/-- The warm-up loop only appends to the trace. -/
theorem warmUpCConOrg_trace (env : Env) (ccID orgIDs channelID : String) :
    ∀ (fuel : Nat) (w : World),
      ∃ evs, (warmUpCConOrg env ccID orgIDs channelID fuel w).2.trace = w.trace ++ evs := by
  intro fuel
  induction fuel with
  | zero =>
    intro w
    exact ⟨[], by simp [warmUpCConOrg]⟩
  | succ fuel ih =>
    intro w
    obtain ⟨evs0, h0, _⟩ := warmUpQuery_no_sleep env ccID orgIDs channelID w
    simp only [warmUpCConOrg]
    split
    · exact ⟨evs0, h0⟩
    · split
      · obtain ⟨evs1, h1⟩ := ih (timeSleep (warmUpQuery env ccID orgIDs channelID w).2
          (5 * Second))
        refine ⟨evs0 ++ Event.sleep (5 * Second) :: evs1, ?_⟩
        rw [h1]
        simp [timeSleep, h0]
      · exact ⟨evs0, h0⟩
    · exact ⟨evs0, h0⟩

/-- C24. A pass of the warm-up loop whose setup succeeded and in which some
peer failed: the calls of the pass go to the peers one by one in target order,
and with `e` the error of the first failing call, whatever the later calls of
the pass returned, the loop returns `nil` after this single pass, without
sleeping, when `e` does not contain `premature execution - chaincode`, and it
sleeps five seconds and goes on with another pass when `e` contains it. -/
theorem warmUp_first_error_decides (env : Env) (ccID orgIDs channelID : String) (fuel : Nat)
    (w : World) (peers : List Peer) (orgID : String) (chClient : ChClient)
    (pre post : List (Except String Response)) (e : String)
    (hsetup : querySetup env channelID (OrgPeers env orgIDs channelID)
      = .ok (peers, orgID, chClient))
    (hout : outcomesOf (newEvents w (warmUpQuery env ccID orgIDs channelID w).2)
      = pre ++ Except.error e :: post)
    (hpre : ∀ o ∈ pre, ∃ resp, o = Except.ok resp) :
    (callsOf (newEvents w (warmUpQuery env ccID orgIDs channelID w).2)).map Call.targets
      = peers.map (fun peer => [peer]) ∧
    (Contains e "premature execution - chaincode" = false →
      warmUpCConOrg env ccID orgIDs channelID (fuel + 1) w
        = (some (.ok ()), (warmUpQuery env ccID orgIDs channelID w).2) ∧
      sleepsOf (newEvents w (warmUpCConOrg env ccID orgIDs channelID (fuel + 1) w).2) = []) ∧
    (Contains e "premature execution - chaincode" = true →
      warmUpCConOrg env ccID orgIDs channelID (fuel + 1) w
        = warmUpCConOrg env ccID orgIDs channelID fuel
            (warmUpRetry env ccID orgIDs channelID w) ∧
      ∃ evs, (warmUpCConOrg env ccID orgIDs channelID (fuel + 1) w).2.trace
        = (warmUpQuery env ccID orgIDs channelID w).2.trace
            ++ Event.sleep (5 * Second) :: evs) := by
  obtain ⟨evs, h1, h2, h3⟩ := sequential_run env ccID channelID "warmup" [] (5 * Minute) 0 []
    (OrgPeers env orgIDs channelID) w peers orgID chClient hsetup
  have hq : warmUpQuery env ccID orgIDs channelID w
      = QueryCCWithOpts env false ccID channelID ["warmup"] (5 * Minute) false 0 []
          (OrgPeers env orgIDs channelID) w := rfl
  rw [hq, newEvents_append w _ evs h1] at hout
  obtain ⟨tl, herr⟩ := errorsOf_first evs pre post e hout hpre
  rw [herr] at h3
  have hres : (warmUpQuery env ccID orgIDs channelID w).1
      = .error (Err.error ("QueryChaincode return error: " ++ e)) := by
    rw [hq, h3]
  refine ⟨?_, ?_, ?_⟩
  · rw [hq, newEvents_append w _ evs h1, h2, List.map_map]
    rfl
  · intro hc
    have hstep : warmUpCConOrg env ccID orgIDs channelID (fuel + 1) w
        = (some (.ok ()), (warmUpQuery env ccID orgIDs channelID w).2) := by
      simp [warmUpCConOrg, hres, Contains_wrapped, hc]
    refine ⟨hstep, ?_⟩
    rw [hstep]
    obtain ⟨evs0, h4, h5⟩ := warmUpQuery_no_sleep env ccID orgIDs channelID w
    rw [newEvents_append w _ evs0 h4, h5]
  · intro hc
    have hstep : warmUpCConOrg env ccID orgIDs channelID (fuel + 1) w
        = warmUpCConOrg env ccID orgIDs channelID fuel
            (warmUpRetry env ccID orgIDs channelID w) := by
      simp [warmUpCConOrg, hres, Contains_wrapped, hc, warmUpRetry]
    refine ⟨hstep, ?_⟩
    rw [hstep]
    obtain ⟨evs1, h6⟩ := warmUpCConOrg_trace env ccID orgIDs channelID fuel
      (warmUpRetry env ccID orgIDs channelID w)
    refine ⟨evs1, ?_⟩
    rw [h6]
    simp [warmUpRetry, timeSleep]

/-- C24, on the example network. With the peers `T1`, `T2`, `T3`, of which `T1`
answers, `T2` fails with `e2` and `T3` fails with the transient message, the
loop returns `nil` after one pass of three calls and no sleep. With the single
peer `T1` failing with the transient message on its first two calls, the loop
sleeps after the first pass and goes on. -/
theorem warmUp_first_error_decides_witness :
    outcomesOf (newEvents exWorld (warmUpQuery (exEnv exRespondLate) "cc" "" "ch" exWorld).2)
      = [.ok { Payload := "pT1" }, .error "e2",
         .error "premature execution - chaincode (cc) is being launched"] ∧
    Contains "e2" "premature execution - chaincode" = false ∧
    Contains "premature execution - chaincode (cc) is being launched"
      "premature execution - chaincode" = true ∧
    (callsOf (newEvents exWorld
      (warmUpCConOrg (exEnv exRespondLate) "cc" "" "ch" 4 exWorld).2)).length = 3 ∧
    (warmUpCConOrg (exEnv exRespondLate) "cc" "" "ch" (3 + 1) exWorld
        = (some (.ok ()), (warmUpQuery (exEnv exRespondLate) "cc" "" "ch" exWorld).2) ∧
      sleepsOf (newEvents exWorld
        (warmUpCConOrg (exEnv exRespondLate) "cc" "" "ch" (3 + 1) exWorld).2) = []) ∧
    outcomesOf (newEvents exWorld (warmUpQuery (exEnvOne exRespondWarm) "cc" "" "ch" exWorld).2)
      = [.error "premature execution - chaincode (cc) is being launched"] ∧
    (warmUpCConOrg (exEnvOne exRespondWarm) "cc" "" "ch" (3 + 1) exWorld
        = warmUpCConOrg (exEnvOne exRespondWarm) "cc" "" "ch" 3
            (warmUpRetry (exEnvOne exRespondWarm) "cc" "" "ch" exWorld) ∧
      ∃ evs, (warmUpCConOrg (exEnvOne exRespondWarm) "cc" "" "ch" (3 + 1) exWorld).2.trace
        = (warmUpQuery (exEnvOne exRespondWarm) "cc" "" "ch" exWorld).2.trace
            ++ Event.sleep (5 * Second) :: evs) :=
  ⟨by decide, by decide, by decide, by decide,
   (warmUp_first_error_decides (exEnv exRespondLate) "cc" "" "ch" 3 exWorld
      [{ url := "T1" }, { url := "T2" }, { url := "T3" }] "org1"
      { orgID := "org1", userType := "admin", channelID := "ch" }
      [.ok { Payload := "pT1" }]
      [.error "premature execution - chaincode (cc) is being launched"] "e2"
      (by decide) (by decide)
      (by
        intro o ho
        rw [List.mem_singleton] at ho
        exact ⟨_, ho⟩)).2.1 (by decide),
   by decide,
   (warmUp_first_error_decides (exEnvOne exRespondWarm) "cc" "" "ch" 3 exWorld
      [{ url := "T1" }] "org1"
      { orgID := "org1", userType := "admin", channelID := "ch" }
      [] [] "premature execution - chaincode (cc) is being launched"
      (by decide) (by decide)
      (by
        intro o ho
        cases ho)).2.2 (by decide)⟩

/-! ## The guard of `createChannelAndJoinPeersFromOrg` -/

/-- Splitting never gives the empty list. -/
theorem splitChars_ne_nil (sep : Char) (cs : List Char) : splitChars sep cs ≠ [] := by
  cases cs with
  | nil => simp [splitChars]
  | cons c cs =>
    simp only [splitChars]
    split
    · simp
    · split <;> simp

/-- Go `strings.Split` with a one-character separator returns at least one
element. -/
theorem Split_length_pos (s : String) (sep : Char) : 1 ≤ (Split s sep).length := by
  have h := splitChars_ne_nil sep s.data
  rw [Split, List.length_map]
  exact List.length_pos.2 h

/-- The first character of a text is the first character of what starts with it. -/
theorem head_append (a b : String) (x : Char) (ha : a.data.head? = some x) :
    (a ++ b).data.head? = some x := by
  rw [String.data_append]
  cases h : a.data with
  | nil => simp [h] at ha
  | cons c cs =>
    rw [h] at ha
    simpa using ha

/-- An error of the loop over the organisations starts with `c`, `n` or `e`. -/
theorem joinOrgs_error_head (env : Env) (jenv : JoinEnv) (channelID : String) :
    ∀ (orgs : List String) (jw : JoinWorld) (msg : String),
      (joinOrgs env jenv channelID orgs jw).1 = .error (Err.error msg) →
      msg.data.head? = some 'c' ∨ msg.data.head? = some 'n' ∨ msg.data.head? = some 'e' := by
  intro orgs
  induction orgs with
  | nil =>
    intro jw msg h
    simp [joinOrgs] at h
  | cons orgID rest ih =>
    intro jw msg h
    simp only [joinOrgs] at h
    cases hpc : env.PeersConfig orgID with
    | none =>
      simp only [hpc, Except.error.injEq, Err.error.injEq] at h
      left
      rw [← h]
      exact head_append _ _ 'c' (head_append _ _ 'c' (by decide))
    | some peersConfig =>
      simp only [hpc] at h
      by_cases hl : peersConfig.length = 0
      · simp only [hl, if_true, Except.error.injEq, Err.error.injEq] at h
        right; left
        rw [← h]
        exact head_append _ _ 'n' (head_append _ _ 'n' (by decide))
      · simp only [hl, if_false] at h
        cases hj : (joinPeersToChannel env jenv channelID orgID peersConfig jw).1 with
        | error e =>
          simp only [hj] at h
          cases e with
          | error m =>
            simp only [wrapErr, Except.error.injEq, Err.error.injEq] at h
            right; right
            rw [← h]
            exact head_append _ _ 'e' (by decide)
          | runtimePanic m => simp [wrapErr] at h
        | ok u =>
          simp only [hj] at h
          exact ih _ msg h

/-- C23. The guard of `createChannelAndJoinPeersFromOrg` is never taken: for
every string `orgs` the split has at least one element, the function is
`createChannelAndJoinPeers` on the split list, and its error is never
`must specify at least one org ID`. For `orgs = ""` the split list is `[""]`,
the function runs `createChannelAndJoinPeers` on it, which goes into its loop
with the organisation `""`; when the context has no peers configuration for
`""` the error is that of this lookup. -/
theorem fromOrg_guard_unreachable (env : Env) (jenv : JoinEnv) (channelID orgs : String)
    (jw : JoinWorld) :
    1 ≤ (Split orgs ',').length ∧
    createChannelAndJoinPeersFromOrg env jenv channelID orgs jw
      = createChannelAndJoinPeers env jenv channelID (Split orgs ',') jw ∧
    (createChannelAndJoinPeersFromOrg env jenv channelID orgs jw).1
      ≠ .error (Err.error "must specify at least one org ID") ∧
    Split "" ',' = [""] ∧
    createChannelAndJoinPeersFromOrg env jenv channelID "" jw
      = createChannelAndJoinPeers env jenv channelID [""] jw ∧
    createChannelAndJoinPeers env jenv channelID [""] jw
      = joinOrgs env jenv channelID [""] jw ∧
    (env.PeersConfig "" = none →
      createChannelAndJoinPeersFromOrg env jenv channelID "" jw
        = (.error (Err.error "could not get peers config for org []"), jw)) := by
  have hpos := Split_length_pos orgs ','
  have hne : ¬ (Split orgs ',').length = 0 := by omega
  have heq : createChannelAndJoinPeersFromOrg env jenv channelID orgs jw
      = createChannelAndJoinPeers env jenv channelID (Split orgs ',') jw := by
    simp only [createChannelAndJoinPeersFromOrg, hne, if_false]
  have hsplit : Split "" ',' = [""] := by decide
  have heq0 : createChannelAndJoinPeersFromOrg env jenv channelID "" jw
      = createChannelAndJoinPeers env jenv channelID [""] jw := by
    simp [createChannelAndJoinPeersFromOrg, hsplit]
  have hloop : createChannelAndJoinPeers env jenv channelID [""] jw
      = joinOrgs env jenv channelID [""] jw := by
    simp [createChannelAndJoinPeers]
  refine ⟨hpos, heq, ?_, hsplit, heq0, hloop, ?_⟩
  · rw [heq]
    intro h
    simp only [createChannelAndJoinPeers, hne, if_false] at h
    have h1 := joinOrgs_error_head env jenv channelID _ jw _ h
    revert h1
    decide
  · intro hpc
    rw [heq0, hloop]
    simp [joinOrgs, hpc]

/-- C23, on the example network, where only `org1` has a peers configuration:
for `orgs = ""` the function does not report a missing organisation ID but the
failed lookup of the organisation `""`; for `org1` it joins the peers. -/
theorem fromOrg_guard_unreachable_witness :
    (exEnv exRespond).PeersConfig "" = none ∧
    (createChannelAndJoinPeersFromOrg (exEnv exRespond) exJoinEnv "ch" "org1" exJoinWorld).1
      = .ok () ∧
    (createChannelAndJoinPeersFromOrg (exEnv exRespond) exJoinEnv "ch" "org1"
      exJoinWorld).2.events.length = 5 ∧
    createChannelAndJoinPeersFromOrg (exEnv exRespond) exJoinEnv "ch" "" exJoinWorld
      = (.error (Err.error "could not get peers config for org []"), exJoinWorld) :=
  ⟨by decide, by decide, by decide,
   (fromOrg_guard_unreachable (exEnv exRespond) exJoinEnv "ch" "" exJoinWorld).2.2.2.2.2.2
     (by decide)⟩

end CommonSteps
